import Mathlib

/-!
# turbo: request lifecycle and argument binding

A shallow embedding of `runtime.go` of the turbo gateway.

* The request pipeline (`handler`, `doBefore`, `doRequest`, `doPreprocessor`,
  `doPostprocessor`, `doAfter`) is embedded as state-passing functions over a
  world `W` (the response writer together with everything else a hook can
  observe or change).  Every call the pipeline makes on a collaborator is
  appended to a ghost trace of `Event`s, so that "which hook ran, in which
  order, with which request and outcome" can be stated.
* The binders (`SetValue`, `ReflectValue`, `findValue`, `BuildStruct`,
  `BuildArgs`) are embedded over a model of `reflect.Type` / `reflect.Value`
  in which a value is a type descriptor paired with the data stored behind it.

Go `error` values are represented by their text (`err.Error()`), `nil` by
`none`.  Byte slices written to the response are represented by strings.
-/

namespace Turbo

/-! ## Request pipeline -/

/-- An interceptor: the two hooks of the Go interface `Interceptor`.  A hook
receives the response writer and the request, and returns a request and an
error; what it does to the world is the first component of its result. -/
structure Interceptor (W Req : Type) where
  Before : W → Req → W × Req × Option String
  After : W → Req → W × Req × Option String

/-- The three process-wide marshal options read from `Config`. -/
structure Config where
  FilterProtoJson : Bool
  FilterProtoJsonEmitZeroValues : Bool
  FilterProtoJsonInt64AsNumber : Bool
  deriving DecidableEq, Repr

/-- The `Marshaler` built by `doPostprocessor`. -/
structure Marshaler where
  FilterProtoJson : Bool
  EmitZeroValues : Bool
  Int64AsNumber : Bool
  deriving DecidableEq, Repr

/-- Ghost record of one call made by the pipeline on a collaborator, with the
request handed over and, where the callee reports one, the error it returned. -/
inductive Event (Req R : Type) where
  | before (index : Nat) (req : Req) (err : Option String)
  | after (index : Nat) (req : Req) (err : Option String)
  | doRequest (methodName : String) (req : Req)
  | hijack (req : Req)
  | preprocessor (req : Req) (err : Option String)
  | switcher (methodName : String) (req : Req) (err : Option String)
  | errorHandler (req : Req) (err : String)
  | postprocessor (req : Req) (serviceResponse : R) (err : Option String)
  | marshal (m : Marshaler) (serviceResponse : R)
  | write (bytes : String)

/-- The collaborators of `runtime.go` that live outside it: the accessors of
request-scoped overrides, the process-wide interceptor list, the client's
switcher and error handler, the JSON marshaler and the response writer. -/
structure Components (W Req R : Type) where
  ParseRequestForm : Req → Req
  Interceptors : Req → List (Interceptor W Req)
  CommonInterceptors : List (Interceptor W Req)
  Hijacker : Req → Option (W → Req → W)
  Preprocessor : Req → Option (W → Req → W × Option String)
  Postprocessor : Req → Option (W → Req → R → Option String → W)
  switcherFunc : String → W → Req → W × R × Option String
  errorHandlerFunc : W → Req → String → W
  JSON : Marshaler → R → Except String String
  Write : W → String → W

/-- Pipeline state: the world and the ghost trace of calls made so far. -/
structure PState (W Req R : Type) where
  resp : W
  trace : List (Event Req R)

variable {W Req R : Type}

/-- Append one event to the ghost trace. -/
def PState.emit (s : PState W Req R) (w : W) (e : Event Req R) : PState W Req R :=
  { resp := w, trace := s.trace ++ [e] }

/-- Embedding of `getInterceptors`: the request-scoped list, or the common list
when that one is empty. -/
def getInterceptors (c : Components W Req R) (req : Req) : List (Interceptor W Req) :=
  let interceptors := c.Interceptors req
  if interceptors.length = 0 then c.CommonInterceptors else interceptors

/-- The `range` loop of `doBefore`.  `all` is the list the caller's pointer
refers to, `rest` what the loop has yet to visit, `index` the loop index.
Returns the list left behind the pointer, the request, the error. -/
def doBeforeLoop (all : List (Interceptor W Req)) :
    List (Interceptor W Req) → Nat → PState W Req R → Req →
      PState W Req R × List (Interceptor W Req) × Req × Option String
  | [], _, s, req => (s, all, req, none)
  | i :: rest, index, s, req =>
    match i.Before s.resp req with
    | (w, req1, some err) =>
      (s.emit w (.before index req (some err)), all.take index, req1, some err)
    | (w, req1, none) =>
      doBeforeLoop all rest (index + 1) (s.emit w (.before index req none)) req1

/-- Embedding of `doBefore`. -/
def doBefore (interceptors : List (Interceptor W Req)) (s : PState W Req R) (req : Req) :
    PState W Req R × List (Interceptor W Req) × Req × Option String :=
  doBeforeLoop interceptors interceptors 0 s req

/-- Embedding of `doPreprocessor`. -/
def doPreprocessor (c : Components W Req R) (s : PState W Req R) (req : Req) :
    PState W Req R × Option String :=
  match c.Preprocessor req with
  | some pre =>
    match pre s.resp req with
    | (w, some err) => (s.emit w (.preprocessor req (some err)), some err)
    | (w, none) => (s.emit w (.preprocessor req none), none)
  | none => (s, none)

/-- Embedding of `doPostprocessor`. -/
def doPostprocessor (c : Components W Req R) (cfg : Config) (s : PState W Req R) (req : Req)
    (serviceResponse : R) (err : Option String) : PState W Req R :=
  match c.Postprocessor req with
  | some post => s.emit (post s.resp req serviceResponse err) (.postprocessor req serviceResponse err)
  | none =>
    let m : Marshaler :=
      { FilterProtoJson := cfg.FilterProtoJson
        EmitZeroValues := cfg.FilterProtoJsonEmitZeroValues
        Int64AsNumber := cfg.FilterProtoJsonInt64AsNumber }
    let s1 := s.emit s.resp (.marshal m serviceResponse)
    match c.JSON m serviceResponse with
    | .ok jsonBytes => s1.emit (c.Write s1.resp jsonBytes) (.write jsonBytes)
    | .error e => s1.emit (c.Write s1.resp e) (.write e)

/-- Embedding of `doRequest`. -/
def doRequest (c : Components W Req R) (cfg : Config) (methodName : String)
    (s : PState W Req R) (req : Req) : PState W Req R :=
  let s := s.emit s.resp (.doRequest methodName req)
  match c.Hijacker req with
  | some hijack => s.emit (hijack s.resp req) (.hijack req)
  | none =>
    match doPreprocessor c s req with
    | (s, some err) => s.emit (c.errorHandlerFunc s.resp req err) (.errorHandler req err)
    | (s, none) =>
      match c.switcherFunc methodName s.resp req with
      | (w, _, some err) =>
        let s := s.emit w (.switcher methodName req (some err))
        s.emit (c.errorHandlerFunc s.resp req err) (.errorHandler req err)
      | (w, serviceResp, none) =>
        doPostprocessor c cfg (s.emit w (.switcher methodName req none)) req serviceResp none

/-- The countdown loop of `doAfter`; the first argument is `i + 1` for the loop
variable `i`, which `doAfter` starts at `len - 1`.  The index is then always in
range, so the `none` branch is never taken from `doAfter`. -/
def doAfterLoop (interceptors : List (Interceptor W Req)) :
    Nat → PState W Req R → Req → PState W Req R × Req
  | 0, s, req => (s, req)
  | i + 1, s, req =>
    match interceptors[i]? with
    | none => (s, req)
    | some ic =>
      match ic.After s.resp req with
      | (w, req1, err) => doAfterLoop interceptors i (s.emit w (.after i req err)) req1

/-- Embedding of `doAfter`; the returned error is always `nil`. -/
def doAfter (interceptors : List (Interceptor W Req)) (s : PState W Req R) (req : Req) :
    PState W Req R × Option String :=
  ((doAfterLoop interceptors interceptors.length s req).1, none)

/-- Embedding of the closure returned by `handler`. -/
def handler (c : Components W Req R) (cfg : Config) (methodName : String)
    (s : PState W Req R) (req : Req) : PState W Req R :=
  let req := c.ParseRequestForm req
  let interceptors := getInterceptors c req
  match doBefore interceptors s req with
  | (s, interceptors, req, none) =>
    (doAfter interceptors (doRequest c cfg methodName s req) req).1
  | (s, interceptors, req, some _) =>
    (doAfter interceptors s req).1

/-! ### Reading the ghost trace -/

/-- A `Before` call in the trace: its loop index and whether the hook failed. -/
def Event.beforeCall : Event Req R → Option (Nat × Bool)
  | .before index _ err => some (index, err.isSome)
  | _ => none

/-- An `After` call in the trace: its loop index. -/
def Event.afterCall : Event Req R → Option Nat
  | .after index _ _ => some index
  | _ => none

/-- Events of the dispatch stage, i.e. those emitted inside `doRequest`. -/
def Event.isDispatch : Event Req R → Bool
  | .before _ _ _ => false
  | .after _ _ _ => false
  | _ => true

/-- Entries into `doRequest`. -/
def Event.isDoRequest : Event Req R → Bool
  | .doRequest _ _ => true
  | _ => false

/-- The `Before` calls of a trace, in order. -/
def beforeCalls (tr : List (Event Req R)) : List (Nat × Bool) := tr.filterMap Event.beforeCall

/-- The `After` calls of a trace, in order. -/
def afterCalls (tr : List (Event Req R)) : List Nat := tr.filterMap Event.afterCall

/-- The dispatch-stage events of a trace, in order. -/
def dispatchEvents (tr : List (Event Req R)) : List (Event Req R) := tr.filter Event.isDispatch

/-- How many times `doRequest` was entered. -/
def doRequestCount (tr : List (Event Req R)) : Nat := tr.countP Event.isDoRequest

/-- Position of the first interceptor whose `Before` hook fails when the hooks
are run in registration order from world `w` and request `req`, each hook
receiving what the previous one left; the length of the list when none fails. -/
def firstFailure : List (Interceptor W Req) → W → Req → Nat
  | [], _, _ => 0
  | i :: rest, w, req =>
    match i.Before w req with
    | (_, _, some _) => 0
    | (w1, req1, none) => firstFailure rest w1 req1 + 1

/-- The calls `doBefore` is expected to make when the first failure is at `k`
in a list of length `len`: successes at `0 .. k-1`, then the failure at `k`. -/
def expectedBeforeCalls (k len : Nat) : List (Nat × Bool) :=
  (List.range k).map (fun i => (i, false)) ++ (if k < len then [(k, true)] else [])

/-! ## A model of `reflect` and `strconv`, as far as `runtime.go` uses them -/

/-- The kinds of `reflect.Kind`, in declaration order. -/
inductive Kind where
  | Invalid | Bool | Int | Int8 | Int16 | Int32 | Int64
  | Uint | Uint8 | Uint16 | Uint32 | Uint64 | Uintptr
  | Float32 | Float64 | Complex64 | Complex128
  | Array | Chan | Func | Interface | Map | Ptr | Slice | String | Struct | UnsafePointer
  deriving DecidableEq, Repr

/-- Text of `Kind.String()`. -/
def kindString : Kind → String
  | .Invalid => "invalid" | .Bool => "bool" | .Int => "int" | .Int8 => "int8"
  | .Int16 => "int16" | .Int32 => "int32" | .Int64 => "int64"
  | .Uint => "uint" | .Uint8 => "uint8" | .Uint16 => "uint16" | .Uint32 => "uint32"
  | .Uint64 => "uint64" | .Uintptr => "uintptr"
  | .Float32 => "float32" | .Float64 => "float64"
  | .Complex64 => "complex64" | .Complex128 => "complex128"
  | .Array => "array" | .Chan => "chan" | .Func => "func" | .Interface => "interface"
  | .Map => "map" | .Ptr => "ptr" | .Slice => "slice" | .String => "string"
  | .Struct => "struct" | .UnsafePointer => "unsafe.Pointer"

/-- Width in bits of the integer kinds (`int` and `uint` are 64 bits wide, as on
the 64-bit platforms the gateway is built for); 0 for the other kinds. -/
def kindBits : Kind → Nat
  | .Int => 64 | .Int8 => 8 | .Int16 => 16 | .Int32 => 32 | .Int64 => 64
  | .Uint => 64 | .Uint8 => 8 | .Uint16 => 16 | .Uint32 => 32 | .Uint64 => 64
  | _ => 0

/-- A `reflect.Type`: a pointer type, a struct type with its declared fields in
order, or any other type, of which only the kind is observed. -/
inductive GoType where
  | basic (k : Kind)
  | ptr (elem : GoType)
  | struct (name : String) (fields : List (String × GoType))

/-- The data stored behind a value.  Integers are kept as mathematical
integers, floats as their IEEE bit pattern; `other` stands for the contents of
values whose kind the binders never look into (slices, maps, ...). -/
inductive Data where
  | bool (b : Bool)
  | int (i : Int)
  | uint (n : Nat)
  | float (bits : Nat)
  | str (s : String)
  | nil
  | ref (target : Data)
  | struct (fields : List Data)
  | other

/-- A `reflect.Value`: the zero Value, or a type together with the data it
describes.  Values are trees: a pointer owns what it points to, so two fields
never share a pointee.  Every field is taken to be exported and settable, as
the fields of generated request structs are. -/
inductive Value where
  | invalid
  | mk (typ : GoType) (data : Data)

/-- How a call can fail to return: a Go run-time panic, or the recursion budget
of the embedding being used up. -/
inductive Fault where
  | panic (msg : String)
  | outOfFuel
  deriving DecidableEq, Repr

/-- `Type.Kind()`. -/
def GoType.kind : GoType → Kind
  | .basic k => k
  | .ptr _ => Kind.Ptr
  | .struct _ _ => Kind.Struct

/-- `Type.Elem()`, which the binders call on pointer types only. -/
def GoType.elem : GoType → Except Fault GoType
  | .ptr e => .ok e
  | _ => .error (.panic "reflect: Elem of invalid type")

/-- `Type.Name()`. -/
def GoType.name : GoType → String
  | .basic k => kindString k
  | .ptr _ => ""
  | .struct n _ => n

/-- The declared fields, as read through `Type.NumField()` and `Type.Field(i)`. -/
def GoType.fields : GoType → Except Fault (List (String × GoType))
  | .struct _ fs => .ok fs
  | _ => .error (.panic "reflect: NumField of non-struct type")

/-- `Value.Kind()`. -/
def Value.kind : Value → Kind
  | .invalid => Kind.Invalid
  | .mk t _ => t.kind

/-- `Value.Type()`. -/
def Value.typeOf : Value → Except Fault GoType
  | .invalid => .error (.panic "reflect: call of reflect.Value.Type on zero Value")
  | .mk t _ => .ok t

/-- Find the field called `name`, walking the declared fields and the stored
field data side by side. -/
def lookupField (name : String) : List (String × GoType) → List Data → Option (GoType × Data)
  | (n, t) :: fs, d :: ds => if n = name then some (t, d) else lookupField name fs ds
  | _, _ => none

/-- Store `new` in the field called `name`. -/
def updateField (name : String) (new : Data) : List (String × GoType) → List Data → List Data
  | (n, _) :: fs, d :: ds => if n = name then new :: ds else d :: updateField name new fs ds
  | _, ds => ds

/-- `Value.FieldByName(name)`: the zero Value when there is no such field, a
panic on a value that is not a struct.  (A struct type over data that is not a
struct does not arise from Go values; it is read as having no fields.) -/
def Value.fieldByName (v : Value) (name : String) : Except Fault Value :=
  match v with
  | .mk (.struct _ fs) (.struct ds) =>
    match lookupField name fs ds with
    | some (t, d) => .ok (.mk t d)
    | none => .ok .invalid
  | .mk (.struct _ _) _ => .ok .invalid
  | _ => .error (.panic "reflect: call of reflect.Value.FieldByName on non-struct Value")

/-- The struct `v` after its field `name` has been overwritten with what
`fieldValue` now holds (the effect, on the enclosing struct, of a store made
through the field's `reflect.Value`). -/
def Value.setField (v : Value) (name : String) (fieldValue : Value) : Value :=
  match v, fieldValue with
  | .mk (.struct n fs) (.struct ds), .mk _ d => .mk (.struct n fs) (.struct (updateField name d fs ds))
  | v, _ => v

/-- `Value.Elem()` of a pointer: the zero Value for a nil pointer. -/
def Value.elem : Value → Except Fault Value
  | .mk (.ptr _) .nil => .ok .invalid
  | .mk (.ptr e) (.ref d) => .ok (.mk e d)
  | _ => .error (.panic "reflect: call of reflect.Value.Elem on non-pointer Value")

/-- The pointer `v` after its pointee has been overwritten with what `target`
now holds; a nil pointer stays nil. -/
def Value.setElem (v : Value) (target : Value) : Value :=
  match v, target with
  | .mk t (.ref _), .mk _ d => .mk t (.ref d)
  | v, _ => v

/-- Two's-complement narrowing of an integer to `bits` bits (Go's `intN(x)`). -/
def wrapInt (bits : Nat) (x : Int) : Int :=
  (x + 2 ^ (bits - 1)) % 2 ^ bits - 2 ^ (bits - 1)

/-- Narrowing of an unsigned integer to `bits` bits (Go's `uintN(x)`). -/
def wrapUint (bits : Nat) (x : Nat) : Nat := x % 2 ^ bits

/-- `Value.SetInt(x)`: stores `x` converted to the value's own integer type. -/
def Value.SetInt (v : Value) (x : Int) : Value :=
  match v with
  | .mk t _ => .mk t (.int (wrapInt (kindBits t.kind) x))
  | .invalid => .invalid

/-- `Value.SetUint(x)`. -/
def Value.SetUint (v : Value) (x : Nat) : Value :=
  match v with
  | .mk t _ => .mk t (.uint (wrapUint (kindBits t.kind) x))
  | .invalid => .invalid

/-- `Value.SetString(x)`. -/
def Value.SetString (v : Value) (x : String) : Value :=
  match v with
  | .mk t _ => .mk t (.str x)
  | .invalid => .invalid

/-- `Value.SetBool(x)`. -/
def Value.SetBool (v : Value) (x : Bool) : Value :=
  match v with
  | .mk t _ => .mk t (.bool x)
  | .invalid => .invalid

/-- `Value.SetFloat(x)`: a `float32` field stores `float32(x)`, computed by
`toFloat32` on bit patterns. -/
def Value.SetFloat (toFloat32 : Nat → Nat) (v : Value) (x : Nat) : Value :=
  match v with
  | .mk t _ => .mk t (.float (if t.kind = Kind.Float32 then toFloat32 x else x))
  | .invalid => .invalid

/-- The two causes of a `*strconv.NumError`. -/
inductive ParseErr where
  | badSyntax
  | outOfRange
  deriving DecidableEq, Repr

/-- The digit loop of `strconv.ParseUint` in base 10: `n` is the value read so
far, `maxVal` the largest value of the requested bit size. -/
def parseUintLoop (maxVal : Nat) : List Char → Nat → Except ParseErr Nat
  | [], n => .ok n
  | c :: cs, n =>
    if '0' ≤ c ∧ c ≤ '9' then
      if n ≥ (2 ^ 64 - 1) / 10 + 1 then .error .outOfRange
      else
        let n1 := n * 10 + (c.toNat - '0'.toNat)
        if n1 > maxVal then .error .outOfRange else parseUintLoop maxVal cs n1
    else .error .badSyntax

/-- `strconv.ParseUint(s, 10, bitSize)`. -/
def ParseUint (s : String) (bitSize : Nat) : Except ParseErr Nat :=
  if s.data = [] then .error .badSyntax else parseUintLoop (2 ^ bitSize - 1) s.data 0

/-- `strconv.ParseInt(s, 10, bitSize)`: an optional sign, then `ParseUint`, then
the signed range check. -/
def ParseInt (s : String) (bitSize : Nat) : Except ParseErr Int :=
  match s.data with
  | [] => .error .badSyntax
  | c :: cs =>
    let neg := c = '-'
    let digits := if c = '+' ∨ c = '-' then cs else c :: cs
    match ParseUint (String.mk digits) bitSize with
    | .error .badSyntax => .error .badSyntax
    | .error .outOfRange => .error .outOfRange
    | .ok un =>
      if ¬ neg ∧ un ≥ 2 ^ (bitSize - 1) then .error .outOfRange
      else if neg ∧ un > 2 ^ (bitSize - 1) then .error .outOfRange
      else .ok (if neg then - (un : Int) else (un : Int))

/-- `strconv.ParseBool(s)`. -/
def ParseBool (s : String) : Except ParseErr Bool :=
  if s = "1" ∨ s = "t" ∨ s = "T" ∨ s = "TRUE" ∨ s = "true" ∨ s = "True" then .ok true
  else if s = "0" ∨ s = "f" ∨ s = "F" ∨ s = "FALSE" ∨ s = "false" ∨ s = "False" then .ok false
  else .error .badSyntax

/-! ## The binders of `runtime.go` -/

/-- The part of `*http.Request` the binders read: the parsed form (a key may be
present with an empty list of values) and the values of the request-scoped
context.  `findValue` asserts every context value it finds to be a string
(`ctxValue.(string)`); the embedding covers the contexts for which that
assertion holds, so context values are strings here. -/
structure Request where
  Form : String → Option (List String)
  Context : String → Option String

/-- What the binders use from outside `runtime.go`: the naming translator, the
registry of per-type convertors (a registered convertor is expected to return
a value assignable to the pointer field it is registered for),
`strconv.ParseFloat` (on IEEE bit patterns, `none` for an error), the `float32`
conversion, and `strconv.Quote`. -/
structure Runtime where
  ToSnakeCase : String → String
  MessageFieldConvertor : GoType → Option (Request → Value)
  ParseFloat : String → Option Nat
  toFloat32 : Nat → Nat
  Quote : String → String

/-- Text of the `*strconv.NumError` raised by function `fn` on input `num`. -/
def numError (rt : Runtime) (fn : String) (num : String) (e : ParseErr) : String :=
  "strconv." ++ fn ++ ": parsing " ++ rt.Quote num ++ ": " ++
    (match e with
     | .badSyntax => "invalid syntax"
     | .outOfRange => "value out of range")

/-- Embedding of `SetValue`: the field after the call, and the returned error. -/
def SetValue (rt : Runtime) (fieldValue : Value) (v : String) : Value × Option String :=
  match fieldValue.kind with
  | .Int | .Int8 | .Int16 | .Int32 | .Int64 =>
    match ParseInt v 64 with
    | .error _ => (fieldValue, some "error int")
    | .ok i => (fieldValue.SetInt i, none)
  | .String => (fieldValue.SetString v, none)
  | .Bool =>
    match ParseBool v with
    | .error _ => (fieldValue, some "error bool")
    | .ok b => (fieldValue.SetBool b, none)
  | .Float32 | .Float64 =>
    match rt.ParseFloat v with
    | none => (fieldValue, some "error float")
    | some f => (fieldValue.SetFloat rt.toFloat32 f, none)
  | .Uint | .Uint8 | .Uint16 | .Uint32 | .Uint64 =>
    match ParseUint v 64 with
    | .error _ => (fieldValue, some "error uint")
    | .ok u => (fieldValue.SetUint u, none)
  | k => (fieldValue, some ("not supported kind[" ++ kindString k ++ "]"))

/-- `reflect.ValueOf(intN(i))` for the signed integer kind `k`. -/
def valueOfInt (k : Kind) (i : Int) : Value := .mk (.basic k) (.int (wrapInt (kindBits k) i))

/-- Embedding of `ReflectValue`: the returned value and error. -/
def ReflectValue (rt : Runtime) (fieldValue : Value) (v : String) : Value × Option String :=
  match fieldValue.kind with
  | .Int16 =>
    match ParseInt v 16 with
    | .error e => (valueOfInt .Int16 0, some (numError rt "ParseInt" v e))
    | .ok i => (valueOfInt .Int16 i, none)
  | .Int32 =>
    match ParseInt v 32 with
    | .error e => (valueOfInt .Int32 0, some (numError rt "ParseInt" v e))
    | .ok i => (valueOfInt .Int32 i, none)
  | .Int64 =>
    match ParseInt v 64 with
    | .error e => (valueOfInt .Int64 0, some (numError rt "ParseInt" v e))
    | .ok i => (valueOfInt .Int64 i, none)
  | .String => (.mk (.basic .String) (.str v), none)
  | .Bool =>
    match ParseBool v with
    | .error e => (.mk (.basic .Bool) (.bool false), some (numError rt "ParseBool" v e))
    | .ok b => (.mk (.basic .Bool) (.bool b), none)
  | .Float64 =>
    match rt.ParseFloat v with
    | none => (.mk (.basic .Float64) (.float 0), some "error float")
    | some f => (.mk (.basic .Float64) (.float f), none)
  | k => (valueOfInt .Int 0, some ("not supported kind[" ++ kindString k ++ "]"))

/-- Embedding of `findValue`. -/
def findValue (rt : Runtime) (fieldName : String) (req : Request) : String × Bool :=
  let snakeCaseName := rt.ToSnakeCase fieldName
  match req.Form snakeCaseName with
  | some (v0 :: _) => (v0, true)
  | _ =>
    match req.Context fieldName with
    | some ctxValue => (ctxValue, true)
    | none =>
      match req.Context snakeCaseName with
      | some ctxValue => (ctxValue, true)
      | none => ("", false)

/-- The field loop of `BuildStruct` over the declared fields still to visit;
`recurse` is `BuildStruct` itself, for the nested structs.  Returns the struct
as the loop leaves it and the returned error. -/
def buildStructLoop (rt : Runtime)
    (recurse : GoType → Value → Request → Except Fault (Value × Option String)) (req : Request) :
    List (String × GoType) → Value → Except Fault (Value × Option String)
  | [], theValue => .ok (theValue, none)
  | (fieldName, _) :: rest, theValue =>
    match theValue.fieldByName fieldName with
    | .error f => .error f
    | .ok fieldValue =>
      if fieldValue.kind = Kind.Ptr then
        match fieldValue.typeOf >>= GoType.elem with
        | .error f => .error f
        | .ok elemType =>
          if elemType.kind = Kind.Struct then
            match rt.MessageFieldConvertor elemType with
            | some convertor =>
              match convertor req with
              | .invalid => .error (.panic "reflect: call of reflect.Value.Set on zero Value")
              | .mk t d => buildStructLoop rt recurse req rest (theValue.setField fieldName (.mk t d))
            | none =>
              match fieldValue.elem with
              | .error f => .error f
              | .ok target =>
                match recurse elemType target req with
                | .error f => .error f
                | .ok (target1, some err) =>
                  .ok (theValue.setField fieldName (fieldValue.setElem target1), some err)
                | .ok (target1, none) =>
                  buildStructLoop rt recurse req rest
                    (theValue.setField fieldName (fieldValue.setElem target1))
          else
            match findValue rt fieldName req with
            | (_, false) => buildStructLoop rt recurse req rest theValue
            | (v, true) =>
              buildStructLoop rt recurse req rest
                (theValue.setField fieldName (SetValue rt fieldValue v).1)
      else
        match findValue rt fieldName req with
        | (_, false) => buildStructLoop rt recurse req rest theValue
        | (v, true) =>
          buildStructLoop rt recurse req rest
            (theValue.setField fieldName (SetValue rt fieldValue v).1)

/-- Embedding of `BuildStruct`.  The first argument bounds the depth of the
recursion into nested structs; the result is the struct after the call and the
returned error. -/
def BuildStruct (rt : Runtime) :
    Nat → GoType → Value → Request → Except Fault (Value × Option String)
  | 0, _, _, _ => .error .outOfFuel
  | fuel + 1, theType, theValue, req =>
    if theValue.kind = Kind.Invalid then .ok (theValue, none)
    else
      match theType.fields with
      | .error f => .error f
      | .ok fields => buildStructLoop rt (BuildStruct rt fuel) req fields theValue

/-- The argument loop of `BuildArgs`: `i` is the loop index, `params` the
slice being filled. -/
def buildArgsLoop (rt : Runtime) (argsValue : Value) (req : Request)
    (buildStructArg : String → Request → Value × Option String) :
    List (String × GoType) → Nat → List Value → Except Fault (List Value × Option String)
  | [], _, params => .ok (params, none)
  | (fieldName, fieldType) :: rest, i, params =>
    match argsValue.fieldByName fieldName >>= Value.typeOf with
    | .error f => .error f
    | .ok valueType =>
      if fieldType.kind = Kind.Ptr then
        match valueType.elem with
        | .error f => .error f
        | .ok elemType =>
          if elemType.kind = Kind.Struct then
            match rt.MessageFieldConvertor elemType with
            | some convertor =>
              buildArgsLoop rt argsValue req buildStructArg rest (i + 1) (params.set i (convertor req))
            | none =>
              match buildStructArg elemType.name req with
              | (_, some err) => .ok ([], some err)
              | (v, none) =>
                buildArgsLoop rt argsValue req buildStructArg rest (i + 1) (params.set i v)
          else
            match argsValue.fieldByName fieldName with
            | .error f => .error f
            | .ok fieldValue =>
              buildArgsLoop rt argsValue req buildStructArg rest (i + 1)
                (params.set i (ReflectValue rt fieldValue (findValue rt fieldName req).1).1)
      else
        match argsValue.fieldByName fieldName with
        | .error f => .error f
        | .ok fieldValue =>
          buildArgsLoop rt argsValue req buildStructArg rest (i + 1)
            (params.set i (ReflectValue rt fieldValue (findValue rt fieldName req).1).1)

/-- Embedding of `BuildArgs`: the returned slice (`nil` is the empty list) and
error. -/
def BuildArgs (rt : Runtime) (argsType : GoType) (argsValue : Value) (req : Request)
    (buildStructArg : String → Request → Value × Option String) :
    Except Fault (List Value × Option String) :=
  match argsType.fields with
  | .error f => .error f
  | .ok fields =>
    buildArgsLoop rt argsValue req buildStructArg fields 0
      (List.replicate fields.length Value.invalid)

/-! ## Vocabulary for stating the binder claims -/

/-- `Value.data`: the data behind a value (nothing for the zero Value). -/
def Value.data : Value → Data
  | .mk _ d => d
  | .invalid => Data.nil

/-- The kinds the specification lists as convertible. -/
def supportedKinds : List Kind :=
  [.Int, .Int8, .Int16, .Int32, .Int64, .Uint, .Uint8, .Uint16, .Uint32, .Uint64,
   .Float32, .Float64, .Bool, .String]

/-- The kinds `ReflectValue` has a case for. -/
def reflectValueKinds : List Kind := [.Int16, .Int32, .Int64, .String, .Bool, .Float64]

/-- The signed integer kinds of declared width 8, 16, 32 and 64. -/
def sizedIntKinds : List Kind := [.Int8, .Int16, .Int32, .Int64]

/-- The signed integer kinds. -/
def intKinds : List Kind := [.Int, .Int8, .Int16, .Int32, .Int64]

/-- The unsigned integer kinds `SetValue` has a case for. -/
def uintKinds : List Kind := [.Uint, .Uint8, .Uint16, .Uint32, .Uint64]

/-- The text of the unsupported-kind error for kind `k`. -/
def unsupportedKindError (k : Kind) : String := "not supported kind[" ++ kindString k ++ "]"

/-- The zero value of a scalar kind, as stored data. -/
def zeroData : Kind → Data
  | .Int | .Int8 | .Int16 | .Int32 | .Int64 => .int 0
  | .Uint | .Uint8 | .Uint16 | .Uint32 | .Uint64 | .Uintptr => .uint 0
  | .Float32 | .Float64 => .float 0
  | .Bool => .bool false
  | .String => .str ""
  | .Ptr => .nil
  | _ => .other

/-- The characters `strconv` reads as decimal digits. -/
abbrev IsDigit (c : Char) : Prop := '0' ≤ c ∧ c ≤ '9'

/-- The number a list of decimal digits denotes, continuing from `acc`. -/
def decVal : List Char → Nat → Nat
  | [], acc => acc
  | c :: cs, acc => decVal cs (acc * 10 + (c.toNat - '0'.toNat))

/-- The integers of a signed type of `bits` bits. -/
def InIntRange (bits : Nat) (n : Int) : Prop := -(2 ^ (bits - 1) : Int) ≤ n ∧ n < 2 ^ (bits - 1)

/-- The conversion of section 4.1 of the specification, for one scalar kind:
signed integers are parsed as 64-bit and narrowed to the declared width,
unsigned integers are parsed as 64-bit unsigned, floats as 64-bit, booleans in
their standard lexical forms, strings pass through; `none` when the text is
malformed or the kind has no converter. -/
def convert (rt : Runtime) (k : Kind) (v : String) : Option Data :=
  match k with
  | .Int | .Int8 | .Int16 | .Int32 | .Int64 =>
    (ParseInt v 64).toOption.map (fun i => Data.int (wrapInt (kindBits k) i))
  | .Uint | .Uint8 | .Uint16 | .Uint32 | .Uint64 =>
    (ParseUint v 64).toOption.map (fun u => Data.uint (wrapUint (kindBits k) u))
  | .Float64 => (rt.ParseFloat v).map Data.float
  | .Float32 => (rt.ParseFloat v).map (fun f => Data.float (rt.toFloat32 f))
  | .Bool => (ParseBool v).toOption.map Data.bool
  | .String => some (Data.str v)
  | _ => none

/-- What the struct binder is expected to leave in a scalar field `name` of
kind `k` that started at its zero value: the zero value when no raw value is
found or the raw value is malformed, the converted value otherwise. -/
def boundData (rt : Runtime) (req : Request) (name : String) (k : Kind) : Data :=
  match findValue rt name req with
  | (_, false) => zeroData k
  | (v, true) =>
    match convert rt k v with
    | none => zeroData k
    | some d => d

/-- What one pass of the field loop of `BuildStruct` does to the data `d` of a
non-pointer field: nothing when no raw value is found, otherwise whatever
`SetValue` leaves in the field. -/
def scalarStep (rt : Runtime) (req : Request) (f : String × GoType) (d : Data) : Data :=
  match findValue rt f.1 req with
  | (_, false) => d
  | (v, true) => (SetValue rt (Value.mk f.2 d) v).1.data

/-- The struct type with the given scalar fields. -/
def scalarStruct (name : String) (fields : List (String × Kind)) : GoType :=
  GoType.struct name (fields.map (fun f => (f.1, GoType.basic f.2)))

/-- The zero value of `scalarStruct name fields`. -/
def scalarZero (name : String) (fields : List (String × Kind)) : Value :=
  Value.mk (scalarStruct name fields) (Data.struct (fields.map (fun f => zeroData f.2)))

/-- The argument `BuildArgs` builds for one descriptor `f` whose field holds
`d`, together with the error of the by-name constructor when that one fails:
for a pointer to a struct the registered convertor's result or else the
by-name constructor's; for anything else what `ReflectValue` returns for the
raw value found (the empty string when none is found). -/
def buildArg (rt : Runtime) (req : Request)
    (buildStructArg : String → Request → Value × Option String)
    (f : String × GoType) (d : Data) : Value × Option String :=
  match f.2 with
  | .ptr e =>
    if e.kind = Kind.Struct then
      match rt.MessageFieldConvertor e with
      | some convertor => (convertor req, none)
      | none => buildStructArg e.name req
    else ((ReflectValue rt (Value.mk f.2 d) (findValue rt f.1 req).1).1, none)
  | t => ((ReflectValue rt (Value.mk t d) (findValue rt f.1 req).1).1, none)

/-- The result `BuildArgs` is expected to return for the descriptors `fs` over
the field data `ds`: the arguments in order, or nothing and the error of the
first by-name constructor that fails. -/
def buildArgsSpec (rt : Runtime) (req : Request)
    (buildStructArg : String → Request → Value × Option String) :
    List (String × GoType) → List Data → List Value × Option String
  | f :: fs, d :: ds =>
    match buildArg rt req buildStructArg f d with
    | (_, some err) => ([], some err)
    | (v, none) =>
      match buildArgsSpec rt req buildStructArg fs ds with
      | (vs, none) => (v :: vs, none)
      | (_, some err) => ([], some err)
  | _, _ => ([], none)

/-- A field the struct binder settles without recursion: any non-pointer
field, or a pointer to a struct whose type has a registered convertor that
returns a (non-zero) value for the request. -/
def SimpleField (rt : Runtime) (req : Request) (f : String × GoType) : Prop :=
  f.2.kind ≠ Kind.Ptr ∨
    ∃ e convertor, f.2 = GoType.ptr e ∧ e.kind = Kind.Struct ∧
      rt.MessageFieldConvertor e = some convertor ∧ convertor req ≠ Value.invalid

/-- What one pass of the field loop of `BuildStruct` does to the data `d` of a
`SimpleField`: the result of the registered convertor for a pointer field,
`scalarStep` for the others. -/
def simpleStep (rt : Runtime) (req : Request) (f : String × GoType) (d : Data) : Data :=
  match f.2 with
  | .ptr e =>
    match rt.MessageFieldConvertor e with
    | some convertor => (convertor req).data
    | none => d
  | _ => scalarStep rt req f d

/-! ## The generated dispatchers of `generatehandlers.go` -/

/-- The operation names `GenerateHandler` renders a `case` for: the third
component of every entry of `UrlServiceMap`, in order. -/
def generatedCases (UrlServiceMap : List (String × String × String)) : List String :=
  UrlServiceMap.map (fun v => v.2.2)

/-- The `Switcher` that the template `switcherFunc` of `generatehandlers.go`
expands to, as the list of byte strings it passes to `resp.Write`, in order.
The body of a `case` (the request struct filled from the form and handed to the
client stub by reflection) is summarised by `call`, which yields the text of
the response and the error of the stub. -/
def Switcher {Req : Type} (UrlServiceMap : List (String × String × String))
    (call : String → Req → String × Option String) (methodName : String) (req : Req) :
    List String :=
  if methodName ∈ generatedCases UrlServiceMap then
    match call methodName req with
    | (rsp, none) => [rsp ++ "\n"]
    | (_, some err) => [err ++ "\n"]
  else ["No such grpc method[" ++ methodName ++ "]"]

/-- The `Handler` that the template `handlerFunc` of
`demo/framework/generatehandlers.go` expands to; its cases parse the request
form first. -/
def Handler {Req : Type} (UrlServiceMap : List (String × String × String))
    (ParseRequestForm : Req → Req) (call : String → Req → String × Option String)
    (methodName : String) (req : Req) : List String :=
  if methodName ∈ generatedCases UrlServiceMap then
    match call methodName (ParseRequestForm req) with
    | (rsp, none) => [rsp ++ "\n"]
    | (_, some err) => [err ++ "\n"]
  else ["No such grpc method[" ++ methodName ++ "]"]

/-! ## Vocabulary for the claims on request threading and nil pointers -/

/-- Hooks called one after the other, each receiving the world and the request
that the hook called before it returned (the first one `w` and `req`).  With
`stopOnError` the run ends with the first hook that returns an error.  Yields
the calls made, as events built by `event` from the index paired with the hook,
the request handed over and the error returned, and the world and request
returned by the last hook called. -/
def threadCalls {W Req R : Type} (stopOnError : Bool)
    (hook : Interceptor W Req → W → Req → W × Req × Option String)
    (event : Nat → Req → Option String → Event Req R) :
    List (Nat × Interceptor W Req) → W → Req → List (Event Req R) × W × Req
  | [], w, req => ([], w, req)
  | (j, i) :: rest, w, req =>
    match hook i w req with
    | (w1, req1, err) =>
      if stopOnError && err.isSome then ([event j req err], w1, req1)
      else
        match threadCalls stopOnError hook event rest w1 req1 with
        | (evs, w2, req2) => (event j req err :: evs, w2, req2)

/-- The Before phase as request threading describes it: the Before hooks of `l`
in registration order, numbered from `index`, stopping after the first error. -/
def beforeThread {W Req R : Type} (l : List (Interceptor W Req)) (index : Nat) (w : W)
    (req : Req) : List (Event Req R) × W × Req :=
  threadCalls true Interceptor.Before Event.before (l.enumFrom index) w req

/-- The After phase as request threading describes it: the After hooks of `l`
from the last position down to the first, whatever errors they return. -/
def afterThread {W Req R : Type} (l : List (Interceptor W Req)) (w : W) (req : Req) :
    List (Event Req R) × W × Req :=
  threadCalls false Interceptor.After Event.after l.enum.reverse w req

/-- The world and the request left behind when the After hook of every
interceptor of `l` has been called once, from the last interceptor to the
first, each hook receiving what the hook called before it returned (the hook of
the last interceptor receives `w` and `req`). -/
def afterFold {W Req : Type} (l : List (Interceptor W Req)) (w : W) (req : Req) : W × Req :=
  l.foldr (fun i wr => ((i.After wr.1 wr.2).1, (i.After wr.1 wr.2).2.1)) (w, req)

/-- A field the struct binder settles without descending into a struct: a
`SimpleField`, or a nil pointer to a struct whose type has no convertor. -/
def SettledField (rt : Runtime) (req : Request) (f : String × GoType) (d : Data) : Prop :=
  SimpleField rt req f ∨
    ∃ e, f.2 = GoType.ptr e ∧ e.kind = Kind.Struct ∧ rt.MessageFieldConvertor e = none ∧
      d = Data.nil

/-- The form has no value under `key`: the key is absent, or present with an
empty list of values. -/
def formMisses (req : Request) (key : String) : Prop :=
  req.Form key = none ∨ req.Form key = some []

/-! ## Concrete inputs used to exercise the statements -/

/-- An interceptor whose hooks succeed and leave a line in the world. -/
def passHook (tag : String) : Interceptor (List String) Nat :=
  { Before := fun w r => (w ++ [tag ++ ".Before"], r, none)
    After := fun w r => (w ++ [tag ++ ".After"], r, none) }

/-- An interceptor whose `Before` hook fails. -/
def denyHook (tag : String) : Interceptor (List String) Nat :=
  { Before := fun w r => (w, r, some (tag ++ " denied"))
    After := fun w r => (w ++ [tag ++ ".After"], r, none) }

/-- Components with the given request-scoped interceptors, no overrides, and a
switcher that fails exactly when `switcherFails` is set. -/
def demoComponents (l : List (Interceptor (List String) Nat)) (switcherFails : Bool) :
    Components (List String) Nat String :=
  { ParseRequestForm := fun r => r
    Interceptors := fun _ => l
    CommonInterceptors := []
    Hijacker := fun _ => none
    Preprocessor := fun _ => none
    Postprocessor := fun _ => none
    switcherFunc := fun m w _ =>
      (w ++ ["call " ++ m], "reply", if switcherFails then some "rpc failed" else none)
    errorHandlerFunc := fun w _ e => w ++ ["error: " ++ e]
    JSON := fun _ sr => .ok sr
    Write := fun w b => w ++ [b] }

/-- Some marshal configuration. -/
def demoConfig : Config :=
  { FilterProtoJson := true, FilterProtoJsonEmitZeroValues := false,
    FilterProtoJsonInt64AsNumber := false }

/-- A naming translator for the examples: an underscore before every upper-case
letter but the first, everything in lower case. -/
def demoSnakeChars : Bool → List Char → List Char
  | _, [] => []
  | first, c :: cs =>
    if c.isUpper then
      (if first then [c.toLower] else ['_', c.toLower]) ++ demoSnakeChars false cs
    else c :: demoSnakeChars false cs

/-- The naming translator of the examples, on strings. -/
def demoSnake (s : String) : String := String.mk (demoSnakeChars true s.data)

/-- A runtime for the examples: no convertor registered, a float parser that
knows two literals, quoting by double quotes. -/
def demoRuntime : Runtime :=
  { ToSnakeCase := demoSnake
    MessageFieldConvertor := fun _ => none
    ParseFloat := fun s =>
      if s = "0" then some 0 else if s = "1.5" then some 0x3FF8000000000000 else none
    toFloat32 := fun b => b
    Quote := fun s => "\"" ++ s ++ "\"" }

/-- A request with the form values `id_value=notanumber`, `name=bob`, `age=41`
and `tags=a`, and an empty context. -/
def demoRequest : Request :=
  { Form := fun k =>
      if k = "id_value" then some ["notanumber"]
      else if k = "name" then some ["bob"]
      else if k = "age" then some ["41"]
      else if k = "tags" then some ["a"]
      else none
    Context := fun _ => none }

/-- A by-name constructor that knows no type, like the default branch of a
generated one. -/
def demoBuildStructArg (typeName : String) (_ : Request) : Value × Option String :=
  (Value.invalid, some ("unknown typeName[" ++ typeName ++ "]"))

/-- Argument descriptors `(Age int32, Name string)` with zero field values. -/
def demoArgsType : GoType :=
  GoType.struct "SayHelloArgs" [("Age", GoType.basic Kind.Int32), ("Name", GoType.basic Kind.String)]

/-- The zero value of `demoArgsType`. -/
def demoArgsValue : Value := Value.mk demoArgsType (Data.struct [Data.int 0, Data.str ""])

/-- Argument descriptors with one pointer to a struct. -/
def demoNestedArgsType : GoType :=
  GoType.struct "SayHelloArgs" [("Req", GoType.ptr (GoType.struct "HelloRequest" []))]

/-- The zero value of `demoNestedArgsType`. -/
def demoNestedArgsValue : Value := Value.mk demoNestedArgsType (Data.struct [Data.nil])

/-- A struct type with one field of slice kind. -/
def demoTagsType : GoType := GoType.struct "TagRequest" [("Tags", GoType.basic Kind.Slice)]

/-- The zero value of `demoTagsType`. -/
def demoTagsValue : Value := Value.mk demoTagsType (Data.struct [Data.other])

/-- The nested message type of the examples. -/
def demoCommonValues : GoType := GoType.struct "CommonValues" [("Age", GoType.basic Kind.Int32)]

/-- A request struct with a string field, a pointer to `CommonValues` and an
integer field declared after it. -/
def demoHelloType : GoType :=
  GoType.struct "HelloRequest"
    [("Name", GoType.basic Kind.String), ("Values", GoType.ptr demoCommonValues),
     ("IdValue", GoType.basic Kind.Int64)]

/-- A `HelloRequest` whose pointer already refers to a zero `CommonValues`. -/
def demoHelloValue : Value :=
  Value.mk demoHelloType (Data.struct [Data.str "", Data.ref (Data.struct [Data.int 0]), Data.int 0])

/-- A convertor for `CommonValues` that ignores the request and returns a
pointer to a struct whose `Age` is 7. -/
def demoConvertor (_ : Request) : Value :=
  Value.mk (GoType.ptr demoCommonValues) (Data.ref (Data.struct [Data.int 7]))

/-- The runtime of the examples with `demoConvertor` registered for the struct
type named `CommonValues`. -/
def demoConvRuntime : Runtime :=
  { demoRuntime with
    MessageFieldConvertor := fun t =>
      match t with
      | .struct "CommonValues" _ => some demoConvertor
      | _ => none }

/-- An interceptor whose hooks succeed but whose `After` hook reports an error. -/
def grumbleHook (tag : String) : Interceptor (List String) Nat :=
  { Before := fun w r => (w ++ [tag ++ ".Before"], r, none)
    After := fun w r => (w ++ [tag ++ ".After"], r, some (tag ++ " grumbles")) }

/-- An interceptor whose `Before` hook returns the request `out`, failing when
`fails` is set, and whose `After` hook succeeds. -/
def stampHook (out : Nat) (fails : Bool) : Interceptor (List String) Nat :=
  { Before := fun w _ => (w, out, if fails then some "stamp failed" else none)
    After := fun w r => (w, r, none) }

/-- Components like `demoComponents` without interceptors, carrying every
request-scoped override at once. -/
def demoOverrides : Components (List String) Nat String :=
  { demoComponents [] false with
    Hijacker := fun _ => some (fun w _ => w ++ ["hijacked"])
    Preprocessor := fun _ => some (fun w _ => (w ++ ["pre"], none))
    Postprocessor := fun _ => some (fun w _ sr _ => w ++ ["post " ++ sr]) }

/-- Components without hijacker whose preprocessor rejects every request. -/
def demoRejecting : Components (List String) Nat String :=
  { demoComponents [] false with
    Preprocessor := fun _ => some (fun w _ => (w ++ ["pre"], some "rejected"))
    Postprocessor := fun _ => some (fun w _ sr _ => w ++ ["post " ++ sr]) }

/-- A request whose form is empty and whose context holds `UserId` under both
the untranslated and the translated key. -/
def demoContextRequest : Request :=
  { Form := fun _ => none
    Context := fun k =>
      if k = "UserId" then some "plain" else if k = "user_id" then some "snake" else none }

/-- A route table with the single operation `SayHello`. -/
def demoUrlServiceMap : List (String × String × String) := [("GET", "/hello", "SayHello")]

/-- A client stub that answers every call with the same text. -/
def demoCall (_ : String) (_ : Nat) : String × Option String := ("message:\"hi\" ", none)

/-- A struct with a pointer to `CommonValues` and a string field declared after it. -/
def demoNilType : GoType :=
  GoType.struct "NilRequest"
    [("Values", GoType.ptr demoCommonValues), ("Name", GoType.basic Kind.String)]

/-- The zero value of `demoNilType`: the pointer is nil. -/
def demoNilValue : Value := Value.mk demoNilType (Data.struct [Data.nil, Data.str ""])

/-- Argument descriptors with a single 8-bit integer. -/
def demoInt8ArgsType : GoType := GoType.struct "FlagArgs" [("Flag", GoType.basic Kind.Int8)]

/-- The zero value of `demoInt8ArgsType`. -/
def demoInt8ArgsValue : Value := Value.mk demoInt8ArgsType (Data.struct [Data.int 0])

/-! ## Theorems: request pipeline -/

section Pipeline

variable {W Req R : Type}

theorem emit_trace (s : PState W Req R) (w : W) (e : Event Req R) :
    (s.emit w e).trace = s.trace ++ [e] := rfl

theorem emit_resp (s : PState W Req R) (w : W) (e : Event Req R) :
    (s.emit w e).resp = w := rfl

/-- Shape of what `doBeforeLoop` does from loop index `index` on. -/
theorem doBeforeLoop_spec (all : List (Interceptor W Req)) :
    ∀ (rest : List (Interceptor W Req)) (index : Nat) (s : PState W Req R) (req : Req),
      ∃ evs : List (Event Req R),
        (doBeforeLoop all rest index s req).1.trace = s.trace ++ evs ∧
        beforeCalls evs =
          ((List.range (firstFailure rest s.resp req)).map (fun i => (index + i, false))) ++
            (if firstFailure rest s.resp req < rest.length
              then [(index + firstFailure rest s.resp req, true)] else []) ∧
        afterCalls evs = [] ∧ dispatchEvents evs = [] ∧
        (doBeforeLoop all rest index s req).2.1 =
          (if firstFailure rest s.resp req < rest.length
            then all.take (index + firstFailure rest s.resp req) else all) ∧
        ((doBeforeLoop all rest index s req).2.2.2 = none ↔
          firstFailure rest s.resp req = rest.length) ∧
        (∀ e, (doBeforeLoop all rest index s req).2.2.2 = some e →
          ∃ pre r, evs = pre ++ [.before (index + firstFailure rest s.resp req) r (some e)]) := by
  intro rest
  induction rest with
  | nil =>
    intro index s req
    exact ⟨[], by simp [doBeforeLoop], by simp [firstFailure, beforeCalls], rfl, rfl,
      by simp [doBeforeLoop, firstFailure], by simp [doBeforeLoop, firstFailure],
      by simp [doBeforeLoop]⟩
  | cons i rest ih =>
    intro index s req
    rcases hB : i.Before s.resp req with ⟨w, req1, err⟩
    cases err with
    | some e =>
      refine ⟨[.before index req (some e)], ?_, ?_, rfl, rfl, ?_, ?_, ?_⟩
      · simp [doBeforeLoop, hB, emit_trace]
      · simp [firstFailure, hB, beforeCalls, Event.beforeCall]
      · simp [doBeforeLoop, hB, firstFailure]
      · simp [doBeforeLoop, hB, firstFailure]
      · intro e1 he1
        refine ⟨[], req, ?_⟩
        simp only [doBeforeLoop, hB, Option.some.injEq] at he1
        simp [firstFailure, hB, he1]
    | none =>
      obtain ⟨evs, h1, h2, h3, h4, h5, h6, h7⟩ :=
        ih (index + 1) (s.emit w (.before index req none)) req1
      simp only [emit_resp, emit_trace] at h1 h2 h5 h6 h7
      refine ⟨.before index req none :: evs, ?_, ?_, ?_, ?_, ?_, ?_, ?_⟩
      · simp [doBeforeLoop, hB, h1]
      · simp only [beforeCalls, List.filterMap_cons, Event.beforeCall, firstFailure, hB,
          Option.isSome_none, List.length_cons, Nat.add_lt_add_iff_right]
        simp only [beforeCalls] at h2
        rw [h2, List.range_succ_eq_map]
        simp [Nat.add_assoc, Nat.add_comm 1, Function.comp_def]
      · simpa [afterCalls, Event.afterCall] using h3
      · simpa [dispatchEvents, Event.isDispatch] using h4
      · simp only [doBeforeLoop, hB, firstFailure, List.length_cons, Nat.add_lt_add_iff_right]
        rw [h5]
        simp [Nat.add_assoc, Nat.add_comm 1]
      · simp only [doBeforeLoop, hB, firstFailure, List.length_cons, Nat.add_right_cancel_iff]
        exact h6
      · intro e1 he1
        simp only [doBeforeLoop, hB] at he1
        obtain ⟨pre, r, hpre⟩ := h7 e1 he1
        refine ⟨.before index req none :: pre, r, ?_⟩
        simp [hpre, firstFailure, hB, Nat.add_assoc, Nat.add_comm 1]

theorem firstFailure_le : ∀ (l : List (Interceptor W Req)) (w : W) (req : Req),
    firstFailure l w req ≤ l.length := by
  intro l
  induction l with
  | nil => intro w req; simp [firstFailure]
  | cons i rest ih =>
    intro w req
    rcases hB : i.Before w req with ⟨w1, req1, err⟩
    cases err with
    | some e => simp [firstFailure, hB]
    | none => simpa [firstFailure, hB] using ih w1 req1

/-- When no `Before` hook of the list can fail, there is no first failure. -/
theorem firstFailure_all_ok : ∀ (l : List (Interceptor W Req)) (w : W) (req : Req),
    (∀ i ∈ l, ∀ w r, (i.Before w r).2.2 = none) → firstFailure l w req = l.length := by
  intro l
  induction l with
  | nil => intro w req _; simp [firstFailure]
  | cons i rest ih =>
    intro w req h
    rcases hB : i.Before w req with ⟨w1, req1, err⟩
    have h0 := h i (List.mem_cons_self _ _) w req
    rw [hB] at h0
    simp only at h0
    subst h0
    simp only [firstFailure, hB, List.length_cons, Nat.add_right_cancel_iff]
    exact ih w1 req1 (fun j hj => h j (List.mem_cons_of_mem _ hj))

/-- When the hooks of `pre` cannot fail and the hook of `x` always fails, the
first failure is at the position of `x`. -/
theorem firstFailure_append_fail : ∀ (pre : List (Interceptor W Req)) (x : Interceptor W Req)
    (post : List (Interceptor W Req)) (w : W) (req : Req),
    (∀ i ∈ pre, ∀ w r, (i.Before w r).2.2 = none) → (∀ w r, (x.Before w r).2.2 ≠ none) →
    firstFailure (pre ++ x :: post) w req = pre.length := by
  intro pre
  induction pre with
  | nil =>
    intro x post w req _ hx
    rcases hB : x.Before w req with ⟨w1, req1, err⟩
    have h0 := hx w req
    rw [hB] at h0
    cases err with
    | some e => simp [firstFailure, hB]
    | none => exact absurd rfl h0
  | cons i rest ih =>
    intro x post w req h hx
    rcases hB : i.Before w req with ⟨w1, req1, err⟩
    have h0 := h i (List.mem_cons_self _ _) w req
    rw [hB] at h0
    simp only at h0
    subst h0
    simp only [List.cons_append, firstFailure, hB, List.length_cons, Nat.add_right_cancel_iff]
    exact ih x post w1 req1 (fun j hj => h j (List.mem_cons_of_mem _ hj)) hx

/-- Shape of what `doAfterLoop` does when started at `n ≤ len`. -/
theorem doAfterLoop_spec (l : List (Interceptor W Req)) :
    ∀ (n : Nat) (s : PState W Req R) (req : Req), n ≤ l.length →
      ∃ evs : List (Event Req R),
        (doAfterLoop l n s req).1.trace = s.trace ++ evs ∧
        afterCalls evs = (List.range n).reverse ∧
        beforeCalls evs = [] ∧ dispatchEvents evs = [] := by
  intro n
  induction n with
  | zero =>
    intro s req _
    exact ⟨[], by simp [doAfterLoop], rfl, rfl, rfl⟩
  | succ i ih =>
    intro s req hn
    have hi : i < l.length := hn
    rcases hA : (l[i]).After s.resp req with ⟨w, req1, err⟩
    obtain ⟨evs, h1, h2, h3, h4⟩ := ih (s.emit w (.after i req err)) req1 (Nat.le_of_lt hi)
    refine ⟨.after i req err :: evs, ?_, ?_, ?_, ?_⟩
    · simp [doAfterLoop, List.getElem?_eq_getElem hi, hA, h1, emit_trace]
    · simp only [afterCalls] at h2
      simp [afterCalls, Event.afterCall, h2, List.range_succ]
    · simpa [beforeCalls, Event.beforeCall] using h3
    · simpa [dispatchEvents, Event.isDispatch] using h4

/-- Shape of what `doRequest` does: one entry event, then dispatch-stage events only. -/
theorem doRequest_spec (c : Components W Req R) (cfg : Config) (methodName : String)
    (s : PState W Req R) (req : Req) :
    ∃ evs : List (Event Req R),
      (doRequest c cfg methodName s req).trace = s.trace ++ evs ∧
      beforeCalls evs = [] ∧ afterCalls evs = [] ∧ dispatchEvents evs = evs ∧
      doRequestCount evs = 1 := by
  unfold doRequest
  simp only
  cases hH : c.Hijacker req with
  | some hijack =>
    exact ⟨[.doRequest methodName req, .hijack req], by simp [emit_trace], rfl, rfl, rfl, rfl⟩
  | none =>
    simp only
    unfold doPreprocessor
    cases hP : c.Preprocessor req with
    | some pre =>
      simp only
      rcases hpre : pre (s.emit s.resp (Event.doRequest methodName req)).resp req with ⟨w, e⟩
      cases e with
      | some e =>
        exact ⟨[.doRequest methodName req, .preprocessor req (some e), .errorHandler req e],
          by simp [emit_trace], rfl, rfl, rfl, rfl⟩
      | none =>
        simp only
        rcases hS : c.switcherFunc methodName
          ((s.emit s.resp (Event.doRequest methodName req)).emit w
            (Event.preprocessor req none)).resp req with ⟨w2, sr, e⟩
        cases e with
        | some e =>
          exact ⟨[.doRequest methodName req, .preprocessor req none,
            .switcher methodName req (some e), .errorHandler req e],
            by simp [emit_trace], rfl, rfl, rfl, rfl⟩
        | none =>
          simp only
          unfold doPostprocessor
          cases hPost : c.Postprocessor req with
          | some post =>
            exact ⟨[.doRequest methodName req, .preprocessor req none,
              .switcher methodName req none, .postprocessor req sr none],
              by simp [emit_trace], rfl, rfl, rfl, rfl⟩
          | none =>
            simp only
            cases hJ : c.JSON _ sr with
            | ok b =>
              exact ⟨[.doRequest methodName req, .preprocessor req none,
                .switcher methodName req none, .marshal ⟨cfg.FilterProtoJson, cfg.FilterProtoJsonEmitZeroValues,
                cfg.FilterProtoJsonInt64AsNumber⟩ sr, .write b],
                by simp [emit_trace], rfl, rfl, rfl, rfl⟩
            | error b =>
              exact ⟨[.doRequest methodName req, .preprocessor req none,
                .switcher methodName req none, .marshal ⟨cfg.FilterProtoJson, cfg.FilterProtoJsonEmitZeroValues,
                cfg.FilterProtoJsonInt64AsNumber⟩ sr, .write b],
                by simp [emit_trace], rfl, rfl, rfl, rfl⟩
    | none =>
      simp only
      rcases hS : c.switcherFunc methodName
        (s.emit s.resp (Event.doRequest methodName req)).resp req with ⟨w2, sr, e⟩
      cases e with
      | some e =>
        exact ⟨[.doRequest methodName req,
          .switcher methodName req (some e), .errorHandler req e],
          by simp [emit_trace], rfl, rfl, rfl, rfl⟩
      | none =>
        simp only
        unfold doPostprocessor
        cases hPost : c.Postprocessor req with
        | some post =>
          exact ⟨[.doRequest methodName req,
            .switcher methodName req none, .postprocessor req sr none],
            by simp [emit_trace], rfl, rfl, rfl, rfl⟩
        | none =>
          simp only
          cases hJ : c.JSON _ sr with
          | ok b =>
            exact ⟨[.doRequest methodName req,
              .switcher methodName req none, .marshal ⟨cfg.FilterProtoJson, cfg.FilterProtoJsonEmitZeroValues,
                cfg.FilterProtoJsonInt64AsNumber⟩ sr, .write b],
              by simp [emit_trace], rfl, rfl, rfl, rfl⟩
          | error b =>
            exact ⟨[.doRequest methodName req,
              .switcher methodName req none, .marshal ⟨cfg.FilterProtoJson, cfg.FilterProtoJsonEmitZeroValues,
                cfg.FilterProtoJsonInt64AsNumber⟩ sr, .write b],
              by simp [emit_trace], rfl, rfl, rfl, rfl⟩

theorem beforeCalls_append (a b : List (Event Req R)) :
    beforeCalls (a ++ b) = beforeCalls a ++ beforeCalls b := by
  simp [beforeCalls]

theorem afterCalls_append (a b : List (Event Req R)) :
    afterCalls (a ++ b) = afterCalls a ++ afterCalls b := by
  simp [afterCalls]

theorem dispatchEvents_append (a b : List (Event Req R)) :
    dispatchEvents (a ++ b) = dispatchEvents a ++ dispatchEvents b := by
  simp [dispatchEvents]

theorem doRequestCount_append (a b : List (Event Req R)) :
    doRequestCount (a ++ b) = doRequestCount a + doRequestCount b := by
  simp [doRequestCount]

theorem doRequestCount_of_dispatchEvents_nil (a : List (Event Req R))
    (h : dispatchEvents a = []) : doRequestCount a = 0 := by
  induction a with
  | nil => rfl
  | cons e rest ih =>
    cases e <;>
      simp_all [dispatchEvents, doRequestCount, Event.isDispatch, Event.isDoRequest,
        List.filter_cons]

/-- What `doBefore` does, in terms of the position of the first failure. -/
theorem doBefore_spec (l : List (Interceptor W Req)) (s : PState W Req R) (req : Req) :
    ∃ evs : List (Event Req R),
      (doBefore l s req).1.trace = s.trace ++ evs ∧
      beforeCalls evs = expectedBeforeCalls (firstFailure l s.resp req) l.length ∧
      afterCalls evs = [] ∧ dispatchEvents evs = [] ∧
      (doBefore l s req).2.1 = l.take (firstFailure l s.resp req) ∧
      ((doBefore l s req).2.2.2 = none ↔ firstFailure l s.resp req = l.length) ∧
      (∀ e, (doBefore l s req).2.2.2 = some e →
        ∃ pre r, evs = pre ++ [.before (firstFailure l s.resp req) r (some e)]) := by
  obtain ⟨evs, h1, h2, h3, h4, h5, h6, h7⟩ := doBeforeLoop_spec l l 0 s req
  refine ⟨evs, h1, ?_, h3, h4, ?_, h6, ?_⟩
  · simpa [expectedBeforeCalls] using h2
  · unfold doBefore
    rw [h5]
    split
    · simp
    · have := firstFailure_le l s.resp req
      rw [List.take_of_length_le (by omega)]
  · simpa using h7

/-- Decomposition of a run of `handler` into its three phases. -/
theorem handler_spec (c : Components W Req R) (cfg : Config) (methodName : String)
    (s : PState W Req R) (req : Req) :
    ∃ bs ds as : List (Event Req R),
      (handler c cfg methodName s req).trace = s.trace ++ (bs ++ ds ++ as) ∧
      beforeCalls bs = expectedBeforeCalls
        (firstFailure (getInterceptors c (c.ParseRequestForm req)) s.resp (c.ParseRequestForm req))
        (getInterceptors c (c.ParseRequestForm req)).length ∧
      afterCalls bs = [] ∧ dispatchEvents bs = [] ∧
      beforeCalls ds = [] ∧ afterCalls ds = [] ∧ dispatchEvents ds = ds ∧
      (firstFailure (getInterceptors c (c.ParseRequestForm req)) s.resp (c.ParseRequestForm req)
          = (getInterceptors c (c.ParseRequestForm req)).length → doRequestCount ds = 1) ∧
      (firstFailure (getInterceptors c (c.ParseRequestForm req)) s.resp (c.ParseRequestForm req)
          < (getInterceptors c (c.ParseRequestForm req)).length → ds = []) ∧
      beforeCalls as = [] ∧ dispatchEvents as = [] ∧
      afterCalls as = (List.range
        (firstFailure (getInterceptors c (c.ParseRequestForm req)) s.resp
          (c.ParseRequestForm req))).reverse := by
  generalize hl : getInterceptors c (c.ParseRequestForm req) = l
  generalize hr : c.ParseRequestForm req = req0 at hl ⊢
  obtain ⟨bs, h1, h2, h3, h4, h5, h6, -⟩ := doBefore_spec (R := R) l s req0
  have hk := firstFailure_le l s.resp req0
  have hlen : (List.take (firstFailure l s.resp req0) l).length = firstFailure l s.resp req0 := by
    simp [hk]
  unfold handler
  simp only [hr, hl]
  rcases hB : doBefore l s req0 with ⟨s1, l1, req1, err⟩
  rw [hB] at h1 h5 h6
  simp only at h1 h5 h6
  subst h5
  cases err with
  | none =>
    have hfull := h6.mp rfl
    obtain ⟨ds, d1, d2, d3, d4, d5⟩ := doRequest_spec c cfg methodName s1 req1
    obtain ⟨as, a1, a2, a3, a4⟩ :=
      doAfterLoop_spec (List.take (firstFailure l s.resp req0) l)
        (List.take (firstFailure l s.resp req0) l).length
        (doRequest c cfg methodName s1 req1) req1 (Nat.le_refl _)
    rw [hlen] at a2
    refine ⟨bs, ds, as, ?_, h2, h3, h4, d2, d3, d4, fun _ => d5, ?_, a3, a4, a2⟩
    · simp only [doAfter]
      rw [a1, d1, h1]
      simp [List.append_assoc]
    · intro hlt
      omega
  | some e =>
    have hne : firstFailure l s.resp req0 ≠ l.length := by
      intro h
      have := h6.mpr h
      simp at this
    obtain ⟨as, a1, a2, a3, a4⟩ :=
      doAfterLoop_spec (List.take (firstFailure l s.resp req0) l)
        (List.take (firstFailure l s.resp req0) l).length s1 req1 (Nat.le_refl _)
    rw [hlen] at a2
    refine ⟨bs, [], as, ?_, h2, h3, h4, rfl, rfl, rfl, fun h => absurd h hne, fun _ => rfl,
      a3, a4, a2⟩
    simp only [doAfter]
    rw [a1, h1]
    simp [List.append_assoc]

end Pipeline

/-! ## Claims about the interceptor pipeline -/

section PipelineClaims

variable {W Req R : Type}

theorem getInterceptors_congr (c c' : Components W Req R)
    (h1 : c'.Interceptors = c.Interceptors) (h2 : c'.CommonInterceptors = c.CommonInterceptors)
    (req : Req) : getInterceptors c' req = getInterceptors c req := by
  simp only [getInterceptors]
  rw [h1, h2]

/-- The hook at the position of the first failure is the one whose error
`doBeforeLoop` returns. -/
theorem doBeforeLoop_err_hook (all : List (Interceptor W Req)) :
    ∀ (rest : List (Interceptor W Req)) (index : Nat) (s : PState W Req R) (req : Req) (e : String),
      (doBeforeLoop all rest index s req).2.2.2 = some e →
        ∃ i w q, rest[firstFailure rest s.resp req]? = some i ∧ (i.Before w q).2.2 = some e := by
  intro rest
  induction rest with
  | nil => intro index s req e h; simp [doBeforeLoop] at h
  | cons i rest ih =>
    intro index s req e h
    rcases hB : i.Before s.resp req with ⟨w, req1, err⟩
    cases err with
    | some e1 =>
      simp only [doBeforeLoop, hB, Option.some.injEq] at h
      exact ⟨i, s.resp, req, by simp [firstFailure, hB], by simp [hB, h]⟩
    | none =>
      simp only [doBeforeLoop, hB] at h
      obtain ⟨j, w1, q, hj, hq⟩ := ih _ _ _ e h
      exact ⟨j, w1, q, by simpa [firstFailure, hB] using hj, hq⟩

/-- C2: `doBefore` calls the Before hooks in registration order up to and
including the first failing one, at position `k`; it then leaves the first `k`
interceptors in the caller's list and returns the error of that hook.  When no
hook fails all hooks are called once each, the list is unchanged and no error
is returned. -/
theorem doBefore_truncates (l : List (Interceptor W Req)) (w : W) (req : Req) :
    beforeCalls (doBefore (R := R) l ⟨w, []⟩ req).1.trace =
      expectedBeforeCalls (firstFailure l w req) l.length ∧
    (firstFailure l w req < l.length →
      (doBefore (R := R) l ⟨w, []⟩ req).2.1 = l.take (firstFailure l w req) ∧
      (doBefore (R := R) l ⟨w, []⟩ req).2.1.length = firstFailure l w req ∧
      ∃ e, (doBefore (R := R) l ⟨w, []⟩ req).2.2.2 = some e ∧
        (∃ q, (doBefore (R := R) l ⟨w, []⟩ req).1.trace.getLast? =
          some (.before (firstFailure l w req) q (some e))) ∧
        ∃ i w1 q, l[firstFailure l w req]? = some i ∧ (i.Before w1 q).2.2 = some e) ∧
    (firstFailure l w req = l.length →
      (doBefore (R := R) l ⟨w, []⟩ req).2.1 = l ∧
      (doBefore (R := R) l ⟨w, []⟩ req).2.2.2 = none) := by
  obtain ⟨evs, h1, h2, -, -, h5, h6, h7⟩ := doBefore_spec (R := R) l ⟨w, []⟩ req
  simp only [List.nil_append] at h1
  rw [h1]
  refine ⟨h2, ?_, ?_⟩
  · intro hlt
    have hne : (doBefore (R := R) l ⟨w, []⟩ req).2.2.2 ≠ none := by
      intro h
      have := h6.mp h
      simp only at this
      omega
    obtain ⟨e, he⟩ := Option.ne_none_iff_exists'.mp hne
    obtain ⟨pre, r, hpre⟩ := h7 e he
    refine ⟨h5, ?_, e, he, ⟨r, ?_⟩, doBeforeLoop_err_hook l l 0 ⟨w, []⟩ req e he⟩
    · rw [h5]
      simp only [List.length_take]
      omega
    · simp only at hpre
      rw [hpre]
      simp
  · intro heq
    refine ⟨?_, h6.mpr heq⟩
    rw [h5]
    simp only at heq ⊢
    rw [heq]
    exact List.take_length l

/-- Witness for C2: with `[A, B, C]` where the Before hook of `B` fails, one
interceptor is left in the list and the error of `B` is returned. -/
theorem doBefore_truncates_witness :
    (doBefore (R := String) [passHook "A", denyHook "B", passHook "C"] ⟨[], []⟩ 7).2.1.length = 1 ∧
    (doBefore (R := String) [passHook "A", denyHook "B", passHook "C"] ⟨[], []⟩ 7).2.2.2 =
      some "B denied" :=
  ⟨((doBefore_truncates (R := String) [passHook "A", denyHook "B", passHook "C"] [] 7).2.1
    (by decide)).2.1.trans rfl, rfl⟩

/-- C3: in a run of `handler`, `doRequest` is entered exactly once when every
Before hook succeeds, and no event of the dispatch stage (hijacker,
preprocessor, switcher, error handler, postprocessor, marshal, write) occurs
when some Before hook fails.  For `[A, B]` with the Before hook of `A` failing,
the only hook call of the whole run is the Before call at position 0. -/
theorem handler_dispatch_gate (c : Components W Req R) (cfg : Config) (methodName : String)
    (w : W) (req : Req) :
    (firstFailure (getInterceptors c (c.ParseRequestForm req)) w (c.ParseRequestForm req)
        = (getInterceptors c (c.ParseRequestForm req)).length →
      doRequestCount (handler c cfg methodName ⟨w, []⟩ req).trace = 1) ∧
    (firstFailure (getInterceptors c (c.ParseRequestForm req)) w (c.ParseRequestForm req)
        < (getInterceptors c (c.ParseRequestForm req)).length →
      doRequestCount (handler c cfg methodName ⟨w, []⟩ req).trace = 0 ∧
      dispatchEvents (handler c cfg methodName ⟨w, []⟩ req).trace = []) ∧
    (∀ A B : Interceptor W Req, getInterceptors c (c.ParseRequestForm req) = [A, B] →
      (∀ w r, (A.Before w r).2.2 ≠ none) →
      beforeCalls (handler c cfg methodName ⟨w, []⟩ req).trace = [(0, true)] ∧
      dispatchEvents (handler c cfg methodName ⟨w, []⟩ req).trace = [] ∧
      afterCalls (handler c cfg methodName ⟨w, []⟩ req).trace = []) := by
  obtain ⟨bs, ds, as, h, b1, b2, b3, d1, d2, d3, d4, d5, a1, a2, a3⟩ :=
    handler_spec c cfg methodName ⟨w, []⟩ req
  simp only [List.nil_append] at h
  have hlt : firstFailure (getInterceptors c (c.ParseRequestForm req)) w (c.ParseRequestForm req)
        < (getInterceptors c (c.ParseRequestForm req)).length →
      doRequestCount (handler c cfg methodName ⟨w, []⟩ req).trace = 0 ∧
      dispatchEvents (handler c cfg methodName ⟨w, []⟩ req).trace = [] := by
    intro hk
    have hd : dispatchEvents (handler c cfg methodName ⟨w, []⟩ req).trace = [] := by
      rw [h, d5 hk]
      simp [dispatchEvents_append, b3, a2]
    exact ⟨doRequestCount_of_dispatchEvents_nil _ hd, hd⟩
  refine ⟨?_, hlt, ?_⟩
  · intro hk
    rw [h]
    simp only [doRequestCount_append, d4 hk, doRequestCount_of_dispatchEvents_nil _ b3,
      doRequestCount_of_dispatchEvents_nil _ a2]
  · intro A B hL hA
    have hk := firstFailure_append_fail [] A [B] w (c.ParseRequestForm req)
      (by intro i hi; simp at hi) hA
    simp only [List.nil_append, List.length_nil] at hk
    rw [← hL] at hk
    refine ⟨?_, (hlt (by rw [hk, hL]; simp)).2, ?_⟩
    · rw [h]
      simp only [beforeCalls_append, b1, d1, a1]
      rw [hk, hL]
      rfl
    · rw [h]
      simp only [afterCalls_append, b2, d2, a3]
      rw [hk]
      rfl

/-- Witness for C3: with `[A, B]` where the Before hook of `A` fails, the run
consists of the single Before call at position 0. -/
theorem handler_dispatch_gate_witness :
    beforeCalls (handler (demoComponents [denyHook "A", passHook "B"] false)
      demoConfig "SayHello" ⟨[], []⟩ 7).trace = [(0, true)] ∧
    dispatchEvents (handler (demoComponents [denyHook "A", passHook "B"] false)
      demoConfig "SayHello" ⟨[], []⟩ 7).trace = [] ∧
    afterCalls (handler (demoComponents [denyHook "A", passHook "B"] false)
      demoConfig "SayHello" ⟨[], []⟩ 7).trace = [] :=
  (handler_dispatch_gate (demoComponents [denyHook "A", passHook "B"] false)
    demoConfig "SayHello" [] 7).2.2 (denyHook "A") (passHook "B") rfl
    (fun _ _ => by simp [denyHook])

end PipelineClaims

/-! ## `strconv`: parsing decimal literals -/

section Parsing

theorem decVal_ge : ∀ (cs : List Char) (acc : Nat), acc ≤ decVal cs acc := by
  intro cs
  induction cs with
  | nil => intro acc; exact Nat.le_refl _
  | cons c cs ih =>
    intro acc
    have := ih (acc * 10 + (c.toNat - '0'.toNat))
    simp only [decVal]
    omega

theorem decVal_append : ∀ (xs ys : List Char) (acc : Nat),
    decVal (xs ++ ys) acc = decVal ys (decVal xs acc) := by
  intro xs
  induction xs with
  | nil => intro ys acc; rfl
  | cons c cs ih => intro ys acc; simp [decVal, ih]

/-- Digits whose value fits are read in full. -/
theorem parseUintLoop_ok (maxVal : Nat) (hM : maxVal < 2 ^ 64) :
    ∀ (cs : List Char) (acc : Nat), (∀ c ∈ cs, IsDigit c) → decVal cs acc ≤ maxVal →
      parseUintLoop maxVal cs acc = .ok (decVal cs acc) := by
  intro cs
  induction cs with
  | nil => intro acc _ _; rfl
  | cons c cs ih =>
    intro acc hd hv
    have hc : '0' ≤ c ∧ c ≤ '9' := hd c (List.mem_cons_self _ _)
    have hge := decVal_ge cs (acc * 10 + (c.toNat - '0'.toNat))
    simp only [decVal] at hv
    have h1 : ¬ acc ≥ (2 ^ 64 - 1) / 10 + 1 := by
      norm_num at hM ⊢
      omega
    have h2 : ¬ acc * 10 + (c.toNat - '0'.toNat) > maxVal := by omega
    simp only [parseUintLoop, hc, and_self, if_true, h1, if_false, h2, decVal]
    exact ih _ (fun x hx => hd x (List.mem_cons_of_mem _ hx)) hv

/-- Digits whose value does not fit are refused with a range error. -/
theorem parseUintLoop_range (maxVal : Nat) :
    ∀ (cs : List Char) (acc : Nat), (∀ c ∈ cs, IsDigit c) → acc ≤ maxVal →
      maxVal < decVal cs acc → parseUintLoop maxVal cs acc = .error .outOfRange := by
  intro cs
  induction cs with
  | nil =>
    intro acc _ h1 h2
    simp only [decVal] at h2
    omega
  | cons c cs ih =>
    intro acc hd hacc hv
    have hc : '0' ≤ c ∧ c ≤ '9' := hd c (List.mem_cons_self _ _)
    simp only [decVal] at hv
    simp only [parseUintLoop, hc, and_self, if_true]
    split
    · rfl
    · split
      · rfl
      · exact ih _ (fun x hx => hd x (List.mem_cons_of_mem _ hx)) (by omega) hv

/-- What a successful run of the digit loop tells about its input. -/
theorem parseUintLoop_inv (maxVal : Nat) :
    ∀ (cs : List Char) (acc n : Nat), parseUintLoop maxVal cs acc = .ok n →
      (∀ c ∈ cs, IsDigit c) ∧ n = decVal cs acc ∧ (cs ≠ [] → n ≤ maxVal) := by
  intro cs
  induction cs with
  | nil =>
    intro acc n h
    simp only [parseUintLoop, Except.ok.injEq] at h
    simp [decVal, h]
  | cons c cs ih =>
    intro acc n h
    simp only [parseUintLoop] at h
    split at h
    · rename_i hc
      split at h
      · cases h
      · split at h
        · cases h
        · rename_i hle
          obtain ⟨h1, h2, h3⟩ := ih _ _ h
          refine ⟨?_, h2, fun _ => ?_⟩
          · intro x hx
            rcases List.mem_cons.mp hx with rfl | hx
            · exact hc
            · exact h1 x hx
          · by_cases hcs : cs = []
            · subst hcs
              simp only [decVal] at h2
              omega
            · exact h3 hcs
    · cases h

theorem digitChar_spec (d : Nat) (h : d < 10) :
    IsDigit (Nat.digitChar d) ∧ (Nat.digitChar d).toNat - '0'.toNat = d := by
  interval_cases d <;> exact ⟨by decide, by decide⟩

theorem toDigitsCore_append : ∀ (fuel n : Nat) (ds : List Char),
    Nat.toDigitsCore 10 fuel n ds = Nat.toDigitsCore 10 fuel n [] ++ ds := by
  intro fuel
  induction fuel with
  | zero => intro n ds; simp [Nat.toDigitsCore]
  | succ fuel ih =>
    intro n ds
    simp only [Nat.toDigitsCore]
    split
    · simp
    · rw [ih (n / 10) (Nat.digitChar (n % 10) :: ds), ih (n / 10) [Nat.digitChar (n % 10)]]
      simp

/-- The decimal digits printed for `n` are digits, denote `n`, and are not empty. -/
theorem toDigitsCore_spec : ∀ (fuel n : Nat), n < fuel →
    (∀ c ∈ Nat.toDigitsCore 10 fuel n [], IsDigit c) ∧
    decVal (Nat.toDigitsCore 10 fuel n []) 0 = n ∧
    Nat.toDigitsCore 10 fuel n [] ≠ [] := by
  intro fuel
  induction fuel with
  | zero => intro n h; omega
  | succ fuel ih =>
    intro n hn
    have hd := digitChar_spec (n % 10) (Nat.mod_lt _ (by decide))
    simp only [Nat.toDigitsCore]
    split
    · rename_i h0
      refine ⟨?_, ?_, by simp⟩
      · intro c hc
        simp only [List.mem_singleton] at hc
        subst hc
        exact hd.1
      · simp only [decVal, hd.2]
        omega
    · rename_i h0
      obtain ⟨i1, i2, i3⟩ := ih (n / 10) (by omega)
      rw [toDigitsCore_append]
      refine ⟨?_, ?_, by simp [i3]⟩
      · intro c hc
        rcases List.mem_append.mp hc with hc | hc
        · exact i1 c hc
        · simp only [List.mem_singleton] at hc
          subst hc
          exact hd.1
      · rw [decVal_append, i2]
        simp only [decVal, hd.2]
        omega

theorem repr_data (n : Nat) : (Nat.repr n).data = Nat.toDigitsCore 10 (n + 1) n [] := rfl

/-- `ParseUint` reads back the decimal text of every natural number that fits. -/
theorem ParseUint_repr (n : Nat) (h : n < 2 ^ 64) : ParseUint (Nat.repr n) 64 = .ok n := by
  obtain ⟨h1, h2, h3⟩ := toDigitsCore_spec (n + 1) n (Nat.lt_succ_self n)
  unfold ParseUint
  rw [repr_data, if_neg h3, parseUintLoop_ok _ (by norm_num) _ _ h1 (by rw [h2]; omega), h2]

theorem isDigit_not_sign (c : Char) (h : IsDigit c) : ¬ (c = '+' ∨ c = '-') := by
  rintro (rfl | rfl) <;> revert h <;> decide

theorem ParseUint_mk (digits : List Char) (b : Nat) :
    ParseUint (String.mk digits) b =
      if digits = [] then .error .badSyntax else parseUintLoop (2 ^ b - 1) digits 0 := rfl

theorem ParseInt_cons (s : String) (c : Char) (cs : List Char) (hs : s.data = c :: cs) (b : Nat) :
    ParseInt s b =
      match ParseUint (String.mk (if c = '+' ∨ c = '-' then cs else c :: cs)) b with
      | .error .badSyntax => .error .badSyntax
      | .error .outOfRange => .error .outOfRange
      | .ok un =>
        if ¬ c = '-' ∧ un ≥ 2 ^ (b - 1) then .error .outOfRange
        else if c = '-' ∧ un > 2 ^ (b - 1) then .error .outOfRange
        else .ok (if c = '-' then - (un : Int) else (un : Int)) := by
  unfold ParseInt
  rw [hs]

/-- A successful `ParseInt` exposes the sign, the digits and their value. -/
theorem ParseInt_inv (s : String) (b : Nat) (n : Int) (h : ParseInt s b = .ok n) :
    ∃ (c : Char) (cs : List Char) (un : Nat), s.data = c :: cs ∧
      (if c = '+' ∨ c = '-' then cs else c :: cs) ≠ [] ∧
      (∀ x ∈ (if c = '+' ∨ c = '-' then cs else c :: cs), IsDigit x) ∧
      un = decVal (if c = '+' ∨ c = '-' then cs else c :: cs) 0 ∧
      un ≤ 2 ^ b - 1 ∧
      ¬ (¬ c = '-' ∧ un ≥ 2 ^ (b - 1)) ∧ ¬ (c = '-' ∧ un > 2 ^ (b - 1)) ∧
      n = (if c = '-' then - (un : Int) else (un : Int)) := by
  cases hs : s.data with
  | nil =>
    unfold ParseInt at h
    rw [hs] at h
    cases h
  | cons c cs =>
    rw [ParseInt_cons s c cs hs, ParseUint_mk] at h
    by_cases hd : (if c = '+' ∨ c = '-' then cs else c :: cs) = []
    · rw [if_pos hd] at h
      cases h
    · rw [if_neg hd] at h
      cases hU : parseUintLoop (2 ^ b - 1) (if c = '+' ∨ c = '-' then cs else c :: cs) 0 with
      | error e =>
        rw [hU] at h
        cases e <;> cases h
      | ok un =>
        rw [hU] at h
        obtain ⟨h1, h2, h3⟩ := parseUintLoop_inv _ _ _ _ hU
        simp only at h
        split at h
        · cases h
        · split at h
          · cases h
          · rename_i hn1 hn2
            simp only [Except.ok.injEq] at h
            exact ⟨c, cs, un, rfl, hd, h1, h2, h3 hd, hn1, hn2, h.symm⟩

/-- Re-parsing, at 16 or 32 bits, a literal that parses at 64 bits: the same
number when it fits the narrower type, a range error otherwise. -/
theorem ParseInt_narrow (s : String) (n : Int) (h : ParseInt s 64 = .ok n) (b : Nat)
    (hb : b = 16 ∨ b = 32 ∨ b = 64) :
    (InIntRange b n → ParseInt s b = .ok n) ∧
    (¬ InIntRange b n → ParseInt s b = .error .outOfRange) := by
  obtain ⟨c, cs, un, hs, hd, hdig, hun, hle, hn1, hn2, hn⟩ := ParseInt_inv s 64 n h
  rw [ParseInt_cons s c cs hs, ParseUint_mk, if_neg hd]
  have hM : 2 ^ b - 1 < 2 ^ 64 := by
    rcases hb with rfl | rfl | rfl <;> norm_num
  have hInt : ((2 : Int) ^ (b - 1)) = ((2 ^ (b - 1) : Nat) : Int) := by norm_cast
  have hQ : 2 ^ b = 2 * 2 ^ (b - 1) := by
    rcases hb with rfl | rfl | rfl <;> norm_num
  have hP : 0 < 2 ^ (b - 1) := Nat.pow_pos (by decide)
  simp only [InIntRange, hInt]
  rw [hQ]
  rw [hQ] at hM
  generalize 2 ^ (b - 1) = P at hM hP ⊢
  by_cases hfit : un ≤ 2 * P - 1
  · rw [parseUintLoop_ok _ hM _ _ hdig (by rw [← hun]; exact hfit), ← hun]
    by_cases hneg : c = '-'
    · simp only [hneg, not_true_eq_false, false_and, if_false, true_and, if_true] at hn ⊢
      subst hn
      constructor <;> intro hr <;> split_ifs <;> first | rfl | (exfalso; omega)
    · simp only [hneg, not_false_eq_true, true_and, false_and, if_false] at hn ⊢
      subst hn
      constructor <;> intro hr <;> split_ifs <;> first | rfl | (exfalso; omega)
  · rw [parseUintLoop_range _ _ _ hdig (Nat.zero_le _) (by rw [← hun]; omega)]
    refine ⟨fun hr => ?_, fun _ => rfl⟩
    exfalso
    by_cases hneg : c = '-'
    · simp only [hneg, if_true] at hn
      subst hn
      omega
    · simp only [hneg, if_false] at hn
      subst hn
      omega

/-- `ParseInt` reads back the decimal text of every 64-bit integer. -/
theorem ParseInt_repr (i : Int) (h : InIntRange 64 i) : ParseInt (Int.repr i) 64 = .ok i := by
  simp only [InIntRange] at h
  cases i with
  | ofNat m =>
    obtain ⟨h1, h2, h3⟩ := toDigitsCore_spec (m + 1) m (Nat.lt_succ_self m)
    have hdata : (Int.repr (Int.ofNat m)).data = Nat.toDigitsCore 10 (m + 1) m [] := rfl
    obtain ⟨c, cs, hcs⟩ := List.exists_cons_of_ne_nil h3
    rw [hcs] at hdata h1 h2
    have hc := isDigit_not_sign c (h1 c (List.mem_cons_self _ _))
    have hc2 : ¬ c = '-' := fun e => hc (Or.inr e)
    rw [ParseInt_cons _ c cs hdata, ParseUint_mk, if_neg hc, if_neg (by simp),
      parseUintLoop_ok _ (by norm_num) _ _ h1 (by rw [h2]; norm_num at h ⊢; omega), h2]
    simp only [hc2, not_false_eq_true, true_and, false_and, if_false]
    rw [if_neg (by norm_num at h ⊢; omega)]
    rfl
  | negSucc m =>
    obtain ⟨h1, h2, h3⟩ := toDigitsCore_spec (m + 1 + 1) (m + 1) (Nat.lt_succ_self _)
    have hdata : (Int.repr (Int.negSucc m)).data =
        '-' :: Nat.toDigitsCore 10 (m + 1 + 1) (m + 1) [] := rfl
    rw [ParseInt_cons _ '-' _ hdata, ParseUint_mk, if_pos (Or.inr rfl), if_neg h3,
      parseUintLoop_ok _ (by norm_num) _ _ h1
        (by rw [h2]; norm_num [Int.negSucc_eq] at h ⊢; omega), h2]
    simp only [not_true_eq_false, false_and, if_false, true_and, if_true]
    rw [if_neg (by norm_num [Int.negSucc_eq] at h ⊢; omega)]
    simp [Int.negSucc_eq]

end Parsing

/-! ## Claims about the converters -/

section Converters

theorem unsupportedKindError_ne (k : Kind) :
    "error int" ≠ unsupportedKindError k ∧ "error bool" ≠ unsupportedKindError k ∧
    "error float" ≠ unsupportedKindError k ∧ "error uint" ≠ unsupportedKindError k := by
  cases k <;> decide

theorem SetValue_unsupported_iff (rt : Runtime) (fieldValue : Value) (v : String) :
    (SetValue rt fieldValue v).2 = some (unsupportedKindError fieldValue.kind) ↔
      fieldValue.kind ∉ supportedKinds := by
  have hne := unsupportedKindError_ne fieldValue.kind
  generalize hk : fieldValue.kind = k at hne
  unfold SetValue
  cases k <;> simp only [hk] <;> first
    | (simp [supportedKinds, unsupportedKindError]; done)
    | (split <;> simp [supportedKinds, hne.1, hne.2.1, hne.2.2.1, hne.2.2.2])

theorem numError_ne_unsupported (rt : Runtime) (fn num : String) (e : ParseErr) (k : Kind) :
    numError rt fn num e ≠ unsupportedKindError k := by
  intro h
  have h1 := congrArg (fun s => s.data.head?) h
  simp [numError, unsupportedKindError, String.data_append] at h1

theorem errorFloat_ne_unsupported (k : Kind) : "error float" ≠ unsupportedKindError k :=
  (unsupportedKindError_ne k).2.2.1

theorem ReflectValue_unsupported_iff (rt : Runtime) (fieldValue : Value) (v : String) :
    (ReflectValue rt fieldValue v).2 = some (unsupportedKindError fieldValue.kind) ↔
      fieldValue.kind ∉ reflectValueKinds := by
  have hne := errorFloat_ne_unsupported fieldValue.kind
  have hnum := fun fn e => numError_ne_unsupported rt fn v e fieldValue.kind
  generalize hk : fieldValue.kind = k at hne hnum
  unfold ReflectValue
  cases k <;> simp only [hk] <;> first
    | (simp [reflectValueKinds, unsupportedKindError]; done)
    | (split <;> simp [reflectValueKinds, hne, hnum])

/-- C6 (as the code has it): `SetValue` returns the unsupported-kind error
exactly for the kinds outside the fourteen supported ones, while `ReflectValue`
returns it exactly for the kinds outside `Int16`, `Int32`, `Int64`, `String`,
`Bool` and `Float64`. -/
theorem converters_unsupported_kinds (rt : Runtime) (fieldValue : Value) (v : String) :
    ((SetValue rt fieldValue v).2 = some (unsupportedKindError fieldValue.kind) ↔
      fieldValue.kind ∉ supportedKinds) ∧
    ((ReflectValue rt fieldValue v).2 = some (unsupportedKindError fieldValue.kind) ↔
      fieldValue.kind ∉ reflectValueKinds) :=
  ⟨SetValue_unsupported_iff rt fieldValue v, ReflectValue_unsupported_iff rt fieldValue v⟩

/-- C6 fails as stated: `Int8` is one of the fourteen supported kinds, yet
`ReflectValue` answers an `int8` target with the unsupported-kind error. -/
theorem ReflectValue_rejects_int8 :
    Kind.Int8 ∈ supportedKinds ∧
    (ReflectValue demoRuntime (Value.mk (GoType.basic Kind.Int8) (Data.int 0)) "5").2 =
      some "not supported kind[int8]" := by
  constructor
  · decide
  · rfl

/-- Narrowing leaves the integers of the target type unchanged. -/
theorem wrapInt_of_inRange (b : Nat) (hb : 1 ≤ b) (n : Int) (h : InIntRange b n) :
    wrapInt b n = n := by
  have hQ : (2 : Int) ^ b = 2 * 2 ^ (b - 1) := by
    obtain ⟨m, rfl⟩ : ∃ m, b = m + 1 := ⟨b - 1, by omega⟩
    simp [pow_succ, mul_comm]
  simp only [InIntRange] at h
  unfold wrapInt
  rw [hQ, Int.emod_eq_of_lt (by omega) (by omega)]
  omega

theorem kindBits_sized (k : Kind) (hk : k ∈ intKinds) :
    1 ≤ kindBits k ∧ (kindBits k = 8 ∨ kindBits k = 16 ∨ kindBits k = 32 ∨ kindBits k = 64) := by
  simp only [intKinds, List.mem_cons, List.mem_singleton, List.not_mem_nil, or_false] at hk
  rcases hk with rfl | rfl | rfl | rfl | rfl <;> simp [kindBits]

theorem inIntRange_64 (b : Nat) (hb : b = 8 ∨ b = 16 ∨ b = 32 ∨ b = 64) (n : Int)
    (h : InIntRange b n) : InIntRange 64 n := by
  simp only [InIntRange] at h ⊢
  rcases hb with rfl | rfl | rfl | rfl <;> norm_num at h ⊢ <;> omega

theorem SetValue_int (rt : Runtime) (k : Kind) (hk : k ∈ intKinds) (d : Data) (s : String)
    (n : Int) (h : ParseInt s 64 = .ok n) :
    SetValue rt (Value.mk (GoType.basic k) d) s =
      (Value.mk (GoType.basic k) (Data.int (wrapInt (kindBits k) n)), none) := by
  simp only [intKinds, List.mem_cons, List.mem_singleton, List.not_mem_nil, or_false] at hk
  rcases hk with rfl | rfl | rfl | rfl | rfl <;>
    simp [SetValue, Value.kind, GoType.kind, h, Value.SetInt]

theorem SetValue_uint (rt : Runtime) (k : Kind) (hk : k ∈ uintKinds) (d : Data) (s : String)
    (n : Nat) (h : ParseUint s 64 = .ok n) :
    SetValue rt (Value.mk (GoType.basic k) d) s =
      (Value.mk (GoType.basic k) (Data.uint (wrapUint (kindBits k) n)), none) := by
  simp only [uintKinds, List.mem_cons, List.mem_singleton, List.not_mem_nil, or_false] at hk
  rcases hk with rfl | rfl | rfl | rfl | rfl <;>
    simp [SetValue, Value.kind, GoType.kind, h, Value.SetUint]

theorem ReflectValue_int (rt : Runtime) (k : Kind)
    (hk : k = Kind.Int16 ∨ k = Kind.Int32 ∨ k = Kind.Int64) (d : Data) (s : String) :
    ReflectValue rt (Value.mk (GoType.basic k) d) s =
      match ParseInt s (kindBits k) with
      | .error e => (valueOfInt k 0, some (numError rt "ParseInt" s e))
      | .ok i => (valueOfInt k i, none) := by
  rcases hk with rfl | rfl | rfl <;> simp only [ReflectValue, Value.kind, GoType.kind, kindBits]

/-- C7 (as the code has it): for a literal that `ParseInt` accepts at 64 bits
as `n`, `SetValue` stores `n` narrowed to the declared width of the field, for
each of the widths 8, 16, 32 and 64.  `ReflectValue` handles the widths 16, 32
and 64 only and parses at the declared width: it returns `n` when `n` fits that
width, and otherwise the value 0 together with a range error. -/
theorem int_conversion_by_width (rt : Runtime) (d : Data) (s : String) (n : Int)
    (h : ParseInt s 64 = .ok n) :
    (∀ k ∈ sizedIntKinds,
      SetValue rt (Value.mk (GoType.basic k) d) s =
        (Value.mk (GoType.basic k) (Data.int (wrapInt (kindBits k) n)), none)) ∧
    (∀ k, k = Kind.Int16 ∨ k = Kind.Int32 ∨ k = Kind.Int64 →
      (InIntRange (kindBits k) n →
        ReflectValue rt (Value.mk (GoType.basic k) d) s =
          (Value.mk (GoType.basic k) (Data.int n), none) ∧ wrapInt (kindBits k) n = n) ∧
      (¬ InIntRange (kindBits k) n →
        ReflectValue rt (Value.mk (GoType.basic k) d) s =
          (Value.mk (GoType.basic k) (Data.int 0),
            some (numError rt "ParseInt" s ParseErr.outOfRange)))) := by
  constructor
  · intro k hk
    refine SetValue_int rt k ?_ d s n h
    simp only [sizedIntKinds, intKinds, List.mem_cons, List.mem_singleton, List.not_mem_nil,
      or_false] at hk ⊢
    exact Or.inr hk
  · intro k hk
    have hb : kindBits k = 16 ∨ kindBits k = 32 ∨ kindBits k = 64 := by
      rcases hk with rfl | rfl | rfl <;> simp [kindBits]
    have hb1 : 1 ≤ kindBits k := by omega
    obtain ⟨p1, p2⟩ := ParseInt_narrow s n h (kindBits k) hb
    rw [ReflectValue_int rt k hk d s]
    constructor
    · intro hr
      have hw := wrapInt_of_inRange (kindBits k) hb1 n hr
      rw [p1 hr]
      simp only [valueOfInt, hw, and_self]
    · intro hr
      have h0 : wrapInt (kindBits k) 0 = 0 :=
        wrapInt_of_inRange (kindBits k) hb1 0 (by
          simp only [InIntRange]
          constructor
          · have : (0 : Int) < 2 ^ (kindBits k - 1) := by positivity
            omega
          · positivity)
      rw [p2 hr]
      simp only [valueOfInt, h0]

/-- Witness for C7: `"70000"` bound to a 16-bit field by `SetValue` is narrowed. -/
theorem int_conversion_by_width_witness :
    SetValue demoRuntime (Value.mk (GoType.basic Kind.Int16) (Data.int 0)) "70000" =
      (Value.mk (GoType.basic Kind.Int16) (Data.int (wrapInt (kindBits Kind.Int16) 70000)), none) :=
  (int_conversion_by_width demoRuntime (Data.int 0) "70000" 70000 rfl).1 Kind.Int16 (by decide)

/-- C7 fails as stated for `ReflectValue`: `"70000"` is a valid 64-bit literal,
`SetValue` narrows it to the 16-bit value 4464, but `ReflectValue` rejects it
for a 16-bit target with a range error and the value 0. -/
theorem ReflectValue_int16_out_of_range :
    ParseInt "70000" 64 = .ok 70000 ∧ wrapInt 16 70000 = 4464 ∧
    SetValue demoRuntime (Value.mk (GoType.basic Kind.Int16) (Data.int 0)) "70000" =
      (Value.mk (GoType.basic Kind.Int16) (Data.int 4464), none) ∧
    ReflectValue demoRuntime (Value.mk (GoType.basic Kind.Int16) (Data.int 0)) "70000" =
      (Value.mk (GoType.basic Kind.Int16) (Data.int 0),
        some "strconv.ParseInt: parsing \"70000\": value out of range") := by
  refine ⟨rfl, by decide, rfl, rfl⟩

/-- C8: `SetValue` reads back the canonical decimal text of every integer of a
signed kind and of every natural number of an unsigned kind, reads `"true"` and
`"false"` as the booleans, and stores any string unchanged; in particular
`"42"` gives the integer 42. -/
theorem SetValue_roundtrip (rt : Runtime) (d : Data) :
    (∀ k ∈ intKinds, ∀ n : Int, InIntRange (kindBits k) n →
      SetValue rt (Value.mk (GoType.basic k) d) (Int.repr n) =
        (Value.mk (GoType.basic k) (Data.int n), none)) ∧
    (∀ k ∈ uintKinds, ∀ n : Nat, n < 2 ^ kindBits k →
      SetValue rt (Value.mk (GoType.basic k) d) (Nat.repr n) =
        (Value.mk (GoType.basic k) (Data.uint n), none)) ∧
    SetValue rt (Value.mk (GoType.basic Kind.Bool) d) "true" =
      (Value.mk (GoType.basic Kind.Bool) (Data.bool true), none) ∧
    SetValue rt (Value.mk (GoType.basic Kind.Bool) d) "false" =
      (Value.mk (GoType.basic Kind.Bool) (Data.bool false), none) ∧
    (∀ s : String, SetValue rt (Value.mk (GoType.basic Kind.String) d) s =
      (Value.mk (GoType.basic Kind.String) (Data.str s), none)) ∧
    SetValue rt (Value.mk (GoType.basic Kind.Int) d) "42" =
      (Value.mk (GoType.basic Kind.Int) (Data.int 42), none) := by
  have hint : ∀ k ∈ intKinds, ∀ n : Int, InIntRange (kindBits k) n →
      SetValue rt (Value.mk (GoType.basic k) d) (Int.repr n) =
        (Value.mk (GoType.basic k) (Data.int n), none) := by
    intro k hk n hn
    obtain ⟨hb1, hb⟩ := kindBits_sized k hk
    rw [SetValue_int rt k hk d _ n (ParseInt_repr n (inIntRange_64 _ hb n hn)),
      wrapInt_of_inRange _ hb1 n hn]
  refine ⟨hint, ?_, rfl, rfl, fun s => rfl, ?_⟩
  · intro k hk n hn
    have h64 : n < 2 ^ 64 := by
      simp only [uintKinds, List.mem_cons, List.mem_singleton, List.not_mem_nil, or_false] at hk
      rcases hk with rfl | rfl | rfl | rfl | rfl <;> simp only [kindBits] at hn <;> omega
    rw [SetValue_uint rt k hk d _ n (ParseUint_repr n h64), wrapUint, Nat.mod_eq_of_lt hn]
  · exact hint Kind.Int (by decide) 42 (by simp only [InIntRange, kindBits]; decide)

/-- Witness for C8: the text of 42 bound to a 32-bit field gives the integer 42. -/
theorem SetValue_roundtrip_witness :
    SetValue demoRuntime (Value.mk (GoType.basic Kind.Int32) (Data.int 0)) "42" =
      (Value.mk (GoType.basic Kind.Int32) (Data.int 42), none) :=
  (SetValue_roundtrip demoRuntime (Data.int 0)).1 Kind.Int32 (by decide) 42
    (by simp only [InIntRange, kindBits]; decide)

end Converters

/-! ## The struct binder -/

section StructBinder

theorem lookupField_append_cons (n : String) (t : GoType) (d : Data)
    (post : List (String × GoType)) (dpost : List Data) :
    ∀ (pre : List (String × GoType)) (dpre : List Data), dpre.length = pre.length →
      n ∉ pre.map Prod.fst →
      lookupField n (pre ++ (n, t) :: post) (dpre ++ d :: dpost) = some (t, d) := by
  intro pre
  induction pre with
  | nil =>
    intro dpre hlen _
    cases dpre with
    | nil => simp [lookupField]
    | cons x xs => simp at hlen
  | cons p pre ih =>
    intro dpre hlen hn
    cases dpre with
    | nil => simp at hlen
    | cons x xs =>
      obtain ⟨m, t1⟩ := p
      simp only [List.map_cons, List.mem_cons, not_or] at hn
      simp only [List.length_cons, Nat.add_right_cancel_iff] at hlen
      have hmn : ¬ m = n := fun h => hn.1 h.symm
      have := ih xs hlen hn.2
      simp [lookupField, hmn, this]

theorem updateField_append_cons (n : String) (new : Data) (t : GoType) (d : Data)
    (post : List (String × GoType)) (dpost : List Data) :
    ∀ (pre : List (String × GoType)) (dpre : List Data), dpre.length = pre.length →
      n ∉ pre.map Prod.fst →
      updateField n new (pre ++ (n, t) :: post) (dpre ++ d :: dpost) = dpre ++ new :: dpost := by
  intro pre
  induction pre with
  | nil =>
    intro dpre hlen _
    cases dpre with
    | nil => simp [updateField]
    | cons x xs => simp at hlen
  | cons p pre ih =>
    intro dpre hlen hn
    cases dpre with
    | nil => simp at hlen
    | cons x xs =>
      obtain ⟨m, t1⟩ := p
      simp only [List.map_cons, List.mem_cons, not_or] at hn
      simp only [List.length_cons, Nat.add_right_cancel_iff] at hlen
      have hmn : ¬ m = n := fun h => hn.1 h.symm
      have := ih xs hlen hn.2
      simp [updateField, hmn, this]

/-- `SetValue` never changes the type of the field it is given. -/
theorem SetValue_typ (rt : Runtime) (t : GoType) (d : Data) (v : String) :
    (SetValue rt (Value.mk t d) v).1 = Value.mk t (SetValue rt (Value.mk t d) v).1.data := by
  unfold SetValue
  split <;> first
    | rfl
    | (split <;> rfl)

/-- The field loop of `BuildStruct` over non-pointer fields: each field is
visited once and receives `scalarStep`; no error is returned. -/
theorem buildStructLoop_scalar (rt : Runtime)
    (recurse : GoType → Value → Request → Except Fault (Value × Option String))
    (req : Request) (nm : String) :
    ∀ (post pre : List (String × GoType)) (dpre dpost : List Data),
      dpre.length = pre.length → dpost.length = post.length →
      ((pre ++ post).map Prod.fst).Nodup → (∀ f ∈ post, f.2.kind ≠ Kind.Ptr) →
      buildStructLoop rt recurse req post
          (Value.mk (GoType.struct nm (pre ++ post)) (Data.struct (dpre ++ dpost))) =
        .ok (Value.mk (GoType.struct nm (pre ++ post))
          (Data.struct (dpre ++ List.zipWith (scalarStep rt req) post dpost)), none) := by
  intro post
  induction post with
  | nil =>
    intro pre dpre dpost _ h2 _ _
    cases dpost with
    | nil => simp [buildStructLoop]
    | cons x xs => simp at h2
  | cons f post ih =>
    intro pre dpre dpost h1 h2 hnd hk
    obtain ⟨n, t⟩ := f
    cases dpost with
    | nil => simp at h2
    | cons d dpost =>
      simp only [List.length_cons, Nat.add_right_cancel_iff] at h2
      have hnpre : n ∉ pre.map Prod.fst := by
        intro hmem
        rw [List.map_append, List.nodup_append] at hnd
        exact hnd.2.2 hmem (by simp)
      have hkt : t.kind ≠ Kind.Ptr := hk (n, t) (List.mem_cons_self _ _)
      have hlook := lookupField_append_cons n t d post dpost pre dpre h1 hnpre
      have hassoc : pre ++ (n, t) :: post = (pre ++ [(n, t)]) ++ post := by simp
      have key : ∀ d1 : Data,
          buildStructLoop rt recurse req post
            (Value.mk (GoType.struct nm (pre ++ (n, t) :: post)) (Data.struct (dpre ++ d1 :: dpost))) =
          .ok (Value.mk (GoType.struct nm (pre ++ (n, t) :: post))
            (Data.struct (dpre ++ d1 :: List.zipWith (scalarStep rt req) post dpost)), none) := by
        intro d1
        have := ih (pre ++ [(n, t)]) (dpre ++ [d1]) dpost (by simp [h1]) h2
          (by rw [← hassoc]; exact hnd) (fun f hf => hk f (List.mem_cons_of_mem _ hf))
        simpa using this
      simp only [buildStructLoop, Value.fieldByName, hlook, Value.kind, if_neg hkt,
        List.zipWith_cons_cons, scalarStep]
      rcases hfv : findValue rt n req with ⟨v, found⟩
      cases found with
      | false => exact key d
      | true =>
        simp only
        rw [SetValue_typ]
        simp only [Value.setField, updateField_append_cons n _ t d post dpost pre dpre h1 hnpre]
        exact key _

/-- `BuildStruct` on a struct of non-pointer fields. -/
theorem BuildStruct_scalar (rt : Runtime) (fuel : Nat) (req : Request) (nm : String)
    (fs : List (String × GoType)) (ds : List Data) (hlen : ds.length = fs.length)
    (hnd : (fs.map Prod.fst).Nodup) (hk : ∀ f ∈ fs, f.2.kind ≠ Kind.Ptr) :
    BuildStruct rt (fuel + 1) (GoType.struct nm fs) (Value.mk (GoType.struct nm fs) (Data.struct ds))
        req =
      .ok (Value.mk (GoType.struct nm fs)
        (Data.struct (List.zipWith (scalarStep rt req) fs ds)), none) := by
  have := buildStructLoop_scalar rt (BuildStruct rt fuel) req nm fs [] [] ds rfl hlen
    (by simpa using hnd) hk
  simpa [BuildStruct, Value.kind, GoType.kind, GoType.fields] using this

theorem scalarStep_zero (rt : Runtime) (req : Request) (n : String) (k : Kind)
    (hk : k ∈ supportedKinds) :
    scalarStep rt req (n, GoType.basic k) (zeroData k) = boundData rt req n k := by
  unfold scalarStep boundData
  rcases findValue rt n req with ⟨v, found⟩
  cases found with
  | false => rfl
  | true =>
    simp only [supportedKinds, List.mem_cons, List.mem_singleton, List.not_mem_nil,
      or_false] at hk
    rcases hk with rfl | rfl | rfl | rfl | rfl | rfl | rfl | rfl | rfl | rfl | rfl | rfl | rfl | rfl <;>
      simp only [SetValue, Value.kind, GoType.kind, convert] <;>
      first
        | rfl
        | (cases ParseInt v 64 <;> rfl)
        | (cases ParseUint v 64 <;> rfl)
        | (cases ParseBool v <;> rfl)
        | (cases rt.ParseFloat v <;> rfl)

/-- C4: binding a struct of scalar fields of supported kinds, starting from its
zero value, returns no error; afterwards every field holds `boundData`: the
zero value of its kind when no raw value is found or the raw value does not
parse, and the converted value otherwise, whatever happened to the fields
declared before it. -/
theorem BuildStruct_scalar_fields (rt : Runtime) (fuel : Nat) (req : Request) (nm : String)
    (fields : List (String × Kind)) (hnd : (fields.map Prod.fst).Nodup)
    (hk : ∀ f ∈ fields, f.2 ∈ supportedKinds) :
    BuildStruct rt (fuel + 1) (scalarStruct nm fields) (scalarZero nm fields) req =
      .ok (Value.mk (scalarStruct nm fields)
        (Data.struct (fields.map (fun f => boundData rt req f.1 f.2))), none) := by
  have hstep : ∀ (l : List (String × Kind)), (∀ f ∈ l, f.2 ∈ supportedKinds) →
      List.zipWith (scalarStep rt req) (l.map (fun f => (f.1, GoType.basic f.2)))
        (l.map (fun f => zeroData f.2)) = l.map (fun f => boundData rt req f.1 f.2) := by
    intro l
    induction l with
    | nil => intro _; rfl
    | cons f l ih =>
      intro h
      simp only [List.map_cons, List.zipWith_cons_cons]
      rw [scalarStep_zero rt req f.1 f.2 (h f (List.mem_cons_self _ _)),
        ih (fun g hg => h g (List.mem_cons_of_mem _ hg))]
  unfold scalarStruct scalarZero scalarStruct
  rw [BuildStruct_scalar rt fuel req nm _ _ (by simp) (by simpa [Function.comp_def] using hnd)
    (by
      intro f hf
      simp only [List.mem_map] at hf
      obtain ⟨g, hg, rfl⟩ := hf
      have := hk g hg
      simp only [GoType.kind]
      intro h
      rw [h] at this
      revert this
      decide), hstep fields hk]

/-- Witness for C4: `id_value=notanumber` leaves the integer field at zero and
the string field declared after it is still bound. -/
theorem BuildStruct_scalar_fields_witness :
    BuildStruct demoRuntime 1
        (scalarStruct "HelloRequest" [("IdValue", Kind.Int64), ("Name", Kind.String)])
        (scalarZero "HelloRequest" [("IdValue", Kind.Int64), ("Name", Kind.String)]) demoRequest =
      .ok (Value.mk (scalarStruct "HelloRequest" [("IdValue", Kind.Int64), ("Name", Kind.String)])
        (Data.struct [Data.int 0, Data.str "bob"]), none) :=
  (BuildStruct_scalar_fields demoRuntime 0 demoRequest "HelloRequest"
    [("IdValue", Kind.Int64), ("Name", Kind.String)] (by decide) (by decide)).trans rfl

end StructBinder

/-! ## The positional binder -/

section ArgsBinder

theorem set_at_length (v x : Value) (rest : List Value) :
    ∀ (done : List Value), (done ++ x :: rest).set done.length v = done ++ v :: rest := by
  intro done
  induction done with
  | nil => rfl
  | cons a done ih => simp [List.set, ih]

/-- When the kind test of `BuildArgs` does not send a descriptor to the
nested-struct branch, `buildArg` is what `ReflectValue` returns. -/
theorem buildArg_of_not_ptr (rt : Runtime) (req : Request)
    (bsa : String → Request → Value × Option String) (n : String) (t : GoType) (d : Data)
    (h : t.kind ≠ Kind.Ptr) :
    buildArg rt req bsa (n, t) d =
      ((ReflectValue rt (Value.mk t d) (findValue rt n req).1).1, none) := by
  cases t with
  | ptr e => exact absurd rfl h
  | basic k => rfl
  | struct nm fs => rfl

/-- The argument loop of `BuildArgs` computes `buildArgsSpec`. -/
theorem buildArgsLoop_spec (rt : Runtime) (req : Request)
    (bsa : String → Request → Value × Option String) (nm : String) :
    ∀ (post pre : List (String × GoType)) (dpre dpost : List Data) (done : List Value),
      dpre.length = pre.length → dpost.length = post.length → done.length = pre.length →
      ((pre ++ post).map Prod.fst).Nodup → (∀ f ∈ post, f.2 ≠ GoType.basic Kind.Ptr) →
      buildArgsLoop rt (Value.mk (GoType.struct nm (pre ++ post)) (Data.struct (dpre ++ dpost)))
          req bsa post pre.length (done ++ List.replicate post.length Value.invalid) =
        match buildArgsSpec rt req bsa post dpost with
        | (vs, none) => .ok (done ++ vs, none)
        | (_, some err) => .ok ([], some err) := by
  intro post
  induction post with
  | nil =>
    intro pre dpre dpost done _ h2 _ _ _
    cases dpost with
    | nil => simp [buildArgsLoop, buildArgsSpec]
    | cons x xs => simp at h2
  | cons f post ih =>
    intro pre dpre dpost done h1 h2 h3 hnd hwf
    obtain ⟨n, t⟩ := f
    cases dpost with
    | nil => simp at h2
    | cons d dpost =>
      simp only [List.length_cons, Nat.add_right_cancel_iff] at h2
      have hnpre : n ∉ pre.map Prod.fst := by
        intro hmem
        rw [List.map_append, List.nodup_append] at hnd
        exact hnd.2.2 hmem (by simp)
      have hlook := lookupField_append_cons n t d post dpost pre dpre h1 hnpre
      have hassoc : pre ++ (n, t) :: post = (pre ++ [(n, t)]) ++ post := by simp
      have hset : ∀ v : Value,
          (done ++ List.replicate (post.length + 1) Value.invalid).set pre.length v =
            (done ++ [v]) ++ List.replicate post.length Value.invalid := by
        intro v
        rw [← h3, List.replicate_succ, set_at_length]
        simp
      have key : ∀ v : Value,
          buildArgsLoop rt
            (Value.mk (GoType.struct nm (pre ++ (n, t) :: post)) (Data.struct (dpre ++ d :: dpost)))
            req bsa post (pre.length + 1)
            ((done ++ List.replicate (post.length + 1) Value.invalid).set pre.length v) =
          match buildArgsSpec rt req bsa post dpost with
          | (vs, none) => .ok (done ++ v :: vs, none)
          | (_, some err) => .ok ([], some err) := by
        intro v
        have := ih (pre ++ [(n, t)]) (dpre ++ [d]) dpost (done ++ [v]) (by simp [h1]) h2
          (by simp [h3]) (by rw [← hassoc]; exact hnd)
          (fun f hf => hwf f (List.mem_cons_of_mem _ hf))
        rw [hset]
        simpa using this
      have hscalar : t.kind ≠ Kind.Ptr →
          buildArgsLoop rt
            (Value.mk (GoType.struct nm (pre ++ (n, t) :: post)) (Data.struct (dpre ++ d :: dpost)))
            req bsa ((n, t) :: post) pre.length
            (done ++ List.replicate ((n, t) :: post).length Value.invalid) =
          match buildArgsSpec rt req bsa ((n, t) :: post) (d :: dpost) with
          | (vs, none) => .ok (done ++ vs, none)
          | (_, some err) => .ok ([], some err) := by
        intro hk
        simp only [buildArgsLoop, Value.fieldByName, hlook, bind, Except.bind, Value.typeOf,
          if_neg hk, List.length_cons, buildArgsSpec, buildArg_of_not_ptr rt req bsa n t d hk]
        rw [key]
        rcases buildArgsSpec rt req bsa post dpost with ⟨vs, e⟩
        cases e <;> rfl
      cases t with
      | basic k =>
        exact hscalar (by
          intro h
          simp only [GoType.kind] at h
          exact hwf (n, GoType.basic k) (List.mem_cons_self _ _) (by rw [h]))
      | struct nm1 fs1 => exact hscalar (by simp [GoType.kind])
      | ptr e =>
        have hp : (GoType.ptr e).kind = Kind.Ptr := rfl
        simp only [buildArgsLoop, Value.fieldByName, hlook, bind, Except.bind, Value.typeOf,
          hp, if_true, GoType.elem, List.length_cons, buildArgsSpec, buildArg]
        by_cases hs : e.kind = Kind.Struct
        · simp only [if_pos hs]
          cases hc : rt.MessageFieldConvertor e with
          | some conv =>
            simp only
            rw [key]
            rcases buildArgsSpec rt req bsa post dpost with ⟨vs, e1⟩
            cases e1 <;> rfl
          | none =>
            simp only
            rcases hb : bsa e.name req with ⟨v, err⟩
            cases err with
            | some e1 => rfl
            | none =>
              simp only
              rw [key]
              rcases buildArgsSpec rt req bsa post dpost with ⟨vs, e1⟩
              cases e1 <;> rfl
        · simp only [if_neg hs]
          rw [key]
          rcases buildArgsSpec rt req bsa post dpost with ⟨vs, e1⟩
          cases e1 <;> rfl

/-- `BuildArgs` computes `buildArgsSpec`. -/
theorem BuildArgs_spec (rt : Runtime) (req : Request)
    (bsa : String → Request → Value × Option String) (nm : String)
    (fs : List (String × GoType)) (ds : List Data) (hlen : ds.length = fs.length)
    (hnd : (fs.map Prod.fst).Nodup) (hwf : ∀ f ∈ fs, f.2 ≠ GoType.basic Kind.Ptr) :
    BuildArgs rt (GoType.struct nm fs) (Value.mk (GoType.struct nm fs) (Data.struct ds)) req bsa =
      match buildArgsSpec rt req bsa fs ds with
      | (vs, none) => .ok (vs, none)
      | (_, some err) => .ok ([], some err) := by
  have := buildArgsLoop_spec rt req bsa nm fs [] [] ds [] rfl hlen rfl (by simpa using hnd) hwf
  simpa [BuildArgs, GoType.fields] using this

/-- When no by-name constructor fails, `buildArgsSpec` is the list of the
arguments built from the descriptors, in order. -/
theorem buildArgsSpec_ok (rt : Runtime) (req : Request)
    (bsa : String → Request → Value × Option String) :
    ∀ (fs : List (String × GoType)) (ds : List Data), ds.length = fs.length →
      (∀ p ∈ List.zip fs ds, (buildArg rt req bsa p.1 p.2).2 = none) →
      buildArgsSpec rt req bsa fs ds =
        (List.zipWith (fun f d => (buildArg rt req bsa f d).1) fs ds, none) := by
  intro fs
  induction fs with
  | nil => intro ds _ _; cases ds <;> rfl
  | cons f fs ih =>
    intro ds hlen h
    cases ds with
    | nil => simp at hlen
    | cons d ds =>
      simp only [List.length_cons, Nat.add_right_cancel_iff] at hlen
      have h0 := h (f, d) (by simp)
      have := ih ds hlen (fun p hp => h p (by simp [List.zip_cons_cons, hp]))
      rcases hb : buildArg rt req bsa f d with ⟨v, e⟩
      rw [hb] at h0
      simp only at h0
      subst h0
      simp [buildArgsSpec, hb, this]

/-- When the first by-name constructor to fail is the one for descriptor `f`,
`buildArgsSpec` is the empty list with that error. -/
theorem buildArgsSpec_fail (rt : Runtime) (req : Request)
    (bsa : String → Request → Value × Option String) (f : String × GoType) (d : Data)
    (err : String) (p2 : List (String × GoType)) (d2 : List Data)
    (hf : (buildArg rt req bsa f d).2 = some err) :
    ∀ (p1 : List (String × GoType)) (d1 : List Data), d1.length = p1.length →
      (∀ p ∈ List.zip p1 d1, (buildArg rt req bsa p.1 p.2).2 = none) →
      buildArgsSpec rt req bsa (p1 ++ f :: p2) (d1 ++ d :: d2) = ([], some err) := by
  intro p1
  induction p1 with
  | nil =>
    intro d1 hlen _
    cases d1 with
    | nil =>
      rcases hb : buildArg rt req bsa f d with ⟨v, e⟩
      rw [hb] at hf
      simp only at hf
      subst hf
      simp [buildArgsSpec, hb]
    | cons x xs => simp at hlen
  | cons g p1 ih =>
    intro d1 hlen h
    cases d1 with
    | nil => simp at hlen
    | cons x d1 =>
      simp only [List.length_cons, Nat.add_right_cancel_iff] at hlen
      have h0 := h (g, x) (by simp)
      have := ih d1 hlen (fun p hp => h p (by simp [List.zip_cons_cons, hp]))
      rcases hb : buildArg rt req bsa g x with ⟨v, e⟩
      rw [hb] at h0
      simp only at h0
      subst h0
      simp [buildArgsSpec, hb, this]

/-- C10 (as the code has it): when no by-name constructor fails, `BuildArgs`
returns without error exactly one argument per descriptor, slot `i` holding the
argument built from descriptor `i`, also for the empty descriptor list; when
the by-name constructor fails for some descriptor, `BuildArgs` returns the nil
list together with the error of the first such failure. -/
theorem BuildArgs_positional (rt : Runtime) (req : Request)
    (bsa : String → Request → Value × Option String) (nm : String)
    (fs : List (String × GoType)) (ds : List Data) (hlen : ds.length = fs.length)
    (hnd : (fs.map Prod.fst).Nodup) (hwf : ∀ f ∈ fs, f.2 ≠ GoType.basic Kind.Ptr) :
    ((∀ p ∈ List.zip fs ds, (buildArg rt req bsa p.1 p.2).2 = none) →
      BuildArgs rt (GoType.struct nm fs) (Value.mk (GoType.struct nm fs) (Data.struct ds)) req bsa =
        .ok (List.zipWith (fun f d => (buildArg rt req bsa f d).1) fs ds, none) ∧
      (List.zipWith (fun f d => (buildArg rt req bsa f d).1) fs ds).length = fs.length) ∧
    (∀ (p1 p2 : List (String × GoType)) (f : String × GoType) (d1 d2 : List Data) (d : Data)
        (err : String),
      fs = p1 ++ f :: p2 → ds = d1 ++ d :: d2 → d1.length = p1.length →
      (∀ p ∈ List.zip p1 d1, (buildArg rt req bsa p.1 p.2).2 = none) →
      (buildArg rt req bsa f d).2 = some err →
      BuildArgs rt (GoType.struct nm fs) (Value.mk (GoType.struct nm fs) (Data.struct ds)) req bsa =
        .ok ([], some err)) := by
  have hspec := BuildArgs_spec rt req bsa nm fs ds hlen hnd hwf
  constructor
  · intro hok
    rw [hspec, buildArgsSpec_ok rt req bsa fs ds hlen hok]
    exact ⟨rfl, by simp [hlen]⟩
  · intro p1 p2 f d1 d2 d err hfs hds hl hok hf
    rw [hspec, hfs, hds, buildArgsSpec_fail rt req bsa f d err p2 d2 hf p1 d1 hl hok]

/-- Witness for C10: two scalar descriptors give two arguments, in order. -/
theorem BuildArgs_positional_witness :
    BuildArgs demoRuntime demoArgsType demoArgsValue demoRequest demoBuildStructArg =
      .ok ([Value.mk (GoType.basic Kind.Int32) (Data.int 41),
            Value.mk (GoType.basic Kind.String) (Data.str "bob")], none) :=
  ((BuildArgs_positional demoRuntime demoRequest demoBuildStructArg "SayHelloArgs"
    [("Age", GoType.basic Kind.Int32), ("Name", GoType.basic Kind.String)]
    [Data.int 0, Data.str ""] rfl (by decide) (by simp)).1
      (by
        intro p hp
        simp only [List.zip_cons_cons, List.zip_nil_right, List.mem_cons, List.mem_singleton,
          List.not_mem_nil, or_false] at hp
        rcases hp with rfl | rfl <;> rfl)).1.trans rfl

/-- C10 fails as stated: with one descriptor, a pointer to a struct without
convertor, and a by-name constructor that fails, `BuildArgs` returns the nil
list, of length 0, for a descriptor list of length 1. -/
theorem BuildArgs_nil_on_constructor_error :
    demoNestedArgsType.fields.toOption.map List.length = some 1 ∧
    BuildArgs demoRuntime demoNestedArgsType demoNestedArgsValue demoRequest demoBuildStructArg =
      .ok ([], some "unknown typeName[HelloRequest]") := by
  constructor <;> rfl

theorem SetValue_unsupported (rt : Runtime) (fieldValue : Value) (v : String)
    (h : fieldValue.kind ∉ supportedKinds) :
    SetValue rt fieldValue v = (fieldValue, some (unsupportedKindError fieldValue.kind)) := by
  generalize hk : fieldValue.kind = k at h
  unfold SetValue
  cases k <;> simp only [hk] <;> first
    | rfl
    | (exfalso; revert h; decide)

theorem ReflectValue_unsupported (rt : Runtime) (fieldValue : Value) (v : String)
    (h : fieldValue.kind ∉ reflectValueKinds) :
    ReflectValue rt fieldValue v =
      (valueOfInt Kind.Int 0, some (unsupportedKindError fieldValue.kind)) := by
  generalize hk : fieldValue.kind = k at h
  unfold ReflectValue
  cases k <;> simp only [hk] <;> first
    | rfl
    | (exfalso; revert h; decide)

theorem not_reflectValueKinds_of_not_supported (k : Kind) (h : k ∉ supportedKinds) :
    k ∉ reflectValueKinds := by
  revert h
  cases k <;> decide

theorem buildArgsSpec_scalar (rt : Runtime) (req : Request)
    (bsa : String → Request → Value × Option String) :
    ∀ (fs : List (String × GoType)) (ds : List Data), ds.length = fs.length →
      (∀ f ∈ fs, f.2.kind ≠ Kind.Ptr) →
      buildArgsSpec rt req bsa fs ds =
        (List.zipWith (fun f d => (ReflectValue rt (Value.mk f.2 d) (findValue rt f.1 req).1).1)
          fs ds, none) := by
  intro fs
  induction fs with
  | nil => intro ds _ _; cases ds <;> rfl
  | cons f fs ih =>
    intro ds hlen h
    cases ds with
    | nil => simp at hlen
    | cons d ds =>
      simp only [List.length_cons, Nat.add_right_cancel_iff] at hlen
      obtain ⟨n, t⟩ := f
      have h0 := buildArg_of_not_ptr rt req bsa n t d (h (n, t) (List.mem_cons_self _ _))
      have := ih ds hlen (fun g hg => h g (List.mem_cons_of_mem _ hg))
      simp [buildArgsSpec, h0, this]

/-- C5 (as the code has it): for a struct of non-pointer fields of any kinds,
`BuildStruct` and `BuildArgs` both return no error.  A field of a kind without
converter, for which a raw value is found, makes `SetValue` and `ReflectValue`
report the unsupported-kind error, but the binders drop it: `BuildStruct`
leaves the field as it is and `BuildArgs` fills the slot with the integer 0. -/
theorem unsupported_kind_not_fatal (rt : Runtime) (fuel : Nat) (req : Request)
    (bsa : String → Request → Value × Option String) (nm : String)
    (fs : List (String × GoType)) (ds : List Data) (hlen : ds.length = fs.length)
    (hnd : (fs.map Prod.fst).Nodup) (hk : ∀ f ∈ fs, f.2.kind ≠ Kind.Ptr) :
    BuildStruct rt (fuel + 1) (GoType.struct nm fs) (Value.mk (GoType.struct nm fs) (Data.struct ds))
        req =
      .ok (Value.mk (GoType.struct nm fs)
        (Data.struct (List.zipWith (scalarStep rt req) fs ds)), none) ∧
    BuildArgs rt (GoType.struct nm fs) (Value.mk (GoType.struct nm fs) (Data.struct ds)) req bsa =
      .ok (List.zipWith
        (fun f d => (ReflectValue rt (Value.mk f.2 d) (findValue rt f.1 req).1).1) fs ds, none) ∧
    (∀ (n : String) (t : GoType) (d : Data) (v : String),
      t.kind ∉ supportedKinds → findValue rt n req = (v, true) →
      (SetValue rt (Value.mk t d) v).2 = some (unsupportedKindError t.kind) ∧
      scalarStep rt req (n, t) d = d ∧
      ReflectValue rt (Value.mk t d) (findValue rt n req).1 =
        (Value.mk (GoType.basic Kind.Int) (Data.int 0), some (unsupportedKindError t.kind))) := by
  refine ⟨BuildStruct_scalar rt fuel req nm fs ds hlen hnd hk, ?_, ?_⟩
  · rw [BuildArgs_spec rt req bsa nm fs ds hlen hnd (by
      intro f hf h
      exact hk f hf (by rw [h]; rfl)), buildArgsSpec_scalar rt req bsa fs ds hlen hk]
  · intro n t d v hns hfv
    have hs := SetValue_unsupported rt (Value.mk t d) v hns
    have hr := ReflectValue_unsupported rt (Value.mk t d) v
      (not_reflectValueKinds_of_not_supported _ hns)
    refine ⟨by rw [hs]; rfl, ?_, ?_⟩
    · simp only [scalarStep, hfv, hs, Value.data]
    · rw [hfv, hr]
      rfl

/-- Witness for C5: a struct with one slice field, bound from `tags=a`. -/
theorem unsupported_kind_not_fatal_witness :
    BuildStruct demoRuntime 1 demoTagsType demoTagsValue demoRequest = .ok (demoTagsValue, none) :=
  (unsupported_kind_not_fatal demoRuntime 0 demoRequest demoBuildStructArg "TagRequest"
    [("Tags", GoType.basic Kind.Slice)] [Data.other] rfl (by decide)
    (by
      intro f hf
      simp only [List.mem_singleton] at hf
      subst hf
      decide)).1.trans rfl

/-- C5 fails as stated: the field `Tags` has slice kind, for which there is no
converter, and the raw value `a` is found for it; `SetValue` reports the
unsupported-kind error, yet `BuildStruct` and `BuildArgs` both return a nil
error. -/
theorem binders_swallow_unsupported_kind :
    findValue demoRuntime "Tags" demoRequest = ("a", true) ∧
    (SetValue demoRuntime (Value.mk (GoType.basic Kind.Slice) Data.other) "a").2 =
      some "not supported kind[slice]" ∧
    BuildStruct demoRuntime 1 demoTagsType demoTagsValue demoRequest =
      .ok (demoTagsValue, none) ∧
    BuildArgs demoRuntime demoTagsType demoTagsValue demoRequest demoBuildStructArg =
      .ok ([Value.mk (GoType.basic Kind.Int) (Data.int 0)], none) := by
  refine ⟨rfl, rfl, rfl, rfl⟩

end ArgsBinder

/-! ## The struct binder and registered convertors -/

section Convertors

theorem updateField_length (n : String) (new : Data) :
    ∀ (fs : List (String × GoType)) (ds : List Data),
      (updateField n new fs ds).length = ds.length := by
  intro fs
  induction fs with
  | nil => intro ds; cases ds <;> rfl
  | cons f fs ih =>
    intro ds
    obtain ⟨m, t⟩ := f
    cases ds with
    | nil => rfl
    | cons d ds =>
      by_cases h : m = n
      · simp [updateField, h]
      · simp [updateField, h, ih]

theorem lookupField_updateField_ne (n m : String) (new : Data) (h : m ≠ n) :
    ∀ (fs : List (String × GoType)) (ds : List Data),
      lookupField m fs (updateField n new fs ds) = lookupField m fs ds := by
  intro fs
  induction fs with
  | nil => intro ds; cases ds <;> rfl
  | cons f fs ih =>
    intro ds
    obtain ⟨k, t⟩ := f
    cases ds with
    | nil => rfl
    | cons d ds =>
      by_cases hk : k = n
      · subst hk
        have hkm : ¬ k = m := fun e => h e.symm
        simp [updateField, lookupField, hkm]
      · by_cases hkm : k = m
        · subst hkm
          simp [updateField, lookupField, hk]
        · simp [updateField, lookupField, hk, hkm, ih]

theorem lookupField_updateField_eq (n : String) (new : Data) :
    ∀ (fs : List (String × GoType)) (ds : List Data) (t : GoType) (d : Data),
      lookupField n fs ds = some (t, d) →
      lookupField n fs (updateField n new fs ds) = some (t, new) := by
  intro fs
  induction fs with
  | nil => intro ds t d h; cases ds <;> simp [lookupField] at h
  | cons f fs ih =>
    intro ds t d h
    obtain ⟨k, t1⟩ := f
    cases ds with
    | nil => simp [lookupField] at h
    | cons d1 ds =>
      by_cases hk : k = n
      · simp only [lookupField, hk, if_true, Option.some.injEq, Prod.mk.injEq] at h
        simp [updateField, lookupField, hk, h.1]
      · simp only [lookupField, hk, if_false] at h
        simp [updateField, lookupField, hk, ih ds t d h]

/-- A store into a field of a struct keeps the struct's shape and every other
field. -/
theorem setField_struct (nm : String) (all : List (String × GoType)) (ds : List Data)
    (fn : String) (x : Value) :
    ∃ ds1, (Value.mk (GoType.struct nm all) (Data.struct ds)).setField fn x =
        Value.mk (GoType.struct nm all) (Data.struct ds1) ∧
      ds1.length = ds.length ∧
      ∀ m, m ≠ fn → lookupField m all ds1 = lookupField m all ds := by
  cases x with
  | invalid => exact ⟨ds, rfl, rfl, fun _ _ => rfl⟩
  | mk t d =>
    exact ⟨updateField fn d all ds, rfl, updateField_length fn d all ds,
      fun m hm => lookupField_updateField_ne fn m d hm all ds⟩

/-- One pass of the field loop of `BuildStruct` that does not stop the call
stores something in the visited field, or nothing at all, and goes on with the
remaining fields. -/
theorem buildStructLoop_step (rt : Runtime)
    (recurse : GoType → Value → Request → Except Fault (Value × Option String)) (req : Request)
    (hrec : ∀ T V v e, recurse T V req = .ok (v, e) → e = none)
    (fn : String) (ft : GoType) (rest : List (String × GoType)) (V : Value)
    (res : Value × Option String)
    (h : buildStructLoop rt recurse req ((fn, ft) :: rest) V = .ok res) :
    ∃ V1, (V1 = V ∨ ∃ x, V1 = V.setField fn x) ∧
      buildStructLoop rt recurse req rest V1 = .ok res := by
  simp only [buildStructLoop] at h
  split at h
  · cases h
  · split at h
    · split at h
      · cases h
      · split at h
        · split at h
          · split at h
            · cases h
            · exact ⟨_, Or.inr ⟨_, rfl⟩, h⟩
          · split at h
            · cases h
            · split at h
              · cases h
              · rename_i hr
                have := hrec _ _ _ _ hr
                cases this
              · exact ⟨_, Or.inr ⟨_, rfl⟩, h⟩
        · split at h
          · exact ⟨_, Or.inl rfl, h⟩
          · exact ⟨_, Or.inr ⟨_, rfl⟩, h⟩
    · split at h
      · exact ⟨_, Or.inl rfl, h⟩
      · exact ⟨_, Or.inr ⟨_, rfl⟩, h⟩

/-- The field loop of `BuildStruct` never returns an error when the recursive
calls do not. -/
theorem buildStructLoop_err_none (rt : Runtime)
    (recurse : GoType → Value → Request → Except Fault (Value × Option String)) (req : Request)
    (hrec : ∀ T V v e, recurse T V req = .ok (v, e) → e = none) :
    ∀ (rest : List (String × GoType)) (V : Value) (res : Value × Option String),
      buildStructLoop rt recurse req rest V = .ok res → res.2 = none := by
  intro rest
  induction rest with
  | nil =>
    intro V res h
    simp only [buildStructLoop, Except.ok.injEq] at h
    rw [← h]
  | cons f rest ih =>
    intro V res h
    obtain ⟨fn, ft⟩ := f
    obtain ⟨V1, -, h1⟩ := buildStructLoop_step rt recurse req hrec fn ft rest V res h
    exact ih V1 res h1

/-- `BuildStruct` never returns an error. -/
theorem BuildStruct_err_none (rt : Runtime) (req : Request) :
    ∀ (fuel : Nat) (T : GoType) (V v : Value) (e : Option String),
      BuildStruct rt fuel T V req = .ok (v, e) → e = none := by
  intro fuel
  induction fuel with
  | zero => intro T V v e h; simp [BuildStruct] at h
  | succ fuel ih =>
    intro T V v e h
    simp only [BuildStruct] at h
    split at h
    · simp only [Except.ok.injEq, Prod.mk.injEq] at h
      exact h.2.symm
    · split at h
      · cases h
      · exact buildStructLoop_err_none rt (BuildStruct rt fuel) req
          (fun T V v e => ih T V v e) _ _ _ h

/-- The field loop of `BuildStruct` keeps the shape of the struct and leaves
alone every field it is not asked to visit. -/
theorem buildStructLoop_frame (rt : Runtime)
    (recurse : GoType → Value → Request → Except Fault (Value × Option String)) (req : Request)
    (hrec : ∀ T V v e, recurse T V req = .ok (v, e) → e = none)
    (nm : String) (all : List (String × GoType)) :
    ∀ (rest : List (String × GoType)) (ds : List Data) (res : Value × Option String),
      buildStructLoop rt recurse req rest (Value.mk (GoType.struct nm all) (Data.struct ds)) =
        .ok res →
      ∃ ds1, res = (Value.mk (GoType.struct nm all) (Data.struct ds1), none) ∧
        ds1.length = ds.length ∧
        ∀ m, m ∉ rest.map Prod.fst → lookupField m all ds1 = lookupField m all ds := by
  intro rest
  induction rest with
  | nil =>
    intro ds res h
    simp only [buildStructLoop, Except.ok.injEq] at h
    exact ⟨ds, h.symm, rfl, fun _ _ => rfl⟩
  | cons f rest ih =>
    intro ds res h
    obtain ⟨fn, ft⟩ := f
    obtain ⟨V1, hV1, h1⟩ := buildStructLoop_step rt recurse req hrec fn ft rest _ res h
    have hshape : ∃ ds0, V1 = Value.mk (GoType.struct nm all) (Data.struct ds0) ∧
        ds0.length = ds.length ∧ ∀ m, m ≠ fn → lookupField m all ds0 = lookupField m all ds := by
      rcases hV1 with rfl | ⟨x, rfl⟩
      · exact ⟨ds, rfl, rfl, fun _ _ => rfl⟩
      · exact setField_struct nm all ds fn x
    obtain ⟨ds0, rfl, hl0, hf0⟩ := hshape
    obtain ⟨ds1, hres, hl1, hf1⟩ := ih ds0 res h1
    refine ⟨ds1, hres, hl1.trans hl0, ?_⟩
    intro m hm
    simp only [List.map_cons, List.mem_cons, not_or] at hm
    rw [hf1 m hm.2, hf0 m hm.1]

/-- The field loop of `BuildStruct`, asked to visit a pointer field whose struct
type has a registered convertor, leaves the convertor's result in that field. -/
theorem buildStructLoop_convertor (rt : Runtime)
    (recurse : GoType → Value → Request → Except Fault (Value × Option String)) (req : Request)
    (hrec : ∀ T V v e, recurse T V req = .ok (v, e) → e = none)
    (nm : String) (all : List (String × GoType)) (n : String) (e : GoType)
    (convertor : Request → Value) (t : GoType) (d : Data) (tdecl : GoType)
    (r2 : List (String × GoType))
    (hE : e.kind = Kind.Struct) (hc : rt.MessageFieldConvertor e = some convertor)
    (hconv : convertor req = Value.mk t d) (hn2 : n ∉ r2.map Prod.fst) :
    ∀ (r1 : List (String × GoType)) (ds : List Data) (d0 : Data) (res : Value × Option String),
      n ∉ r1.map Prod.fst → lookupField n all ds = some (GoType.ptr e, d0) →
      buildStructLoop rt recurse req (r1 ++ (n, tdecl) :: r2)
        (Value.mk (GoType.struct nm all) (Data.struct ds)) = .ok res →
      ∃ ds1, res = (Value.mk (GoType.struct nm all) (Data.struct ds1), none) ∧
        ds1.length = ds.length ∧ lookupField n all ds1 = some (GoType.ptr e, d) := by
  intro r1
  induction r1 with
  | nil =>
    intro ds d0 res _ hlook h
    have hp : (GoType.ptr e).kind = Kind.Ptr := rfl
    simp only [List.nil_append, buildStructLoop, Value.fieldByName, hlook, Value.kind, hp,
      if_true, Value.typeOf, bind, Except.bind, GoType.elem, hE, hc, hconv, Value.setField] at h
    obtain ⟨ds1, hres, hl1, hf1⟩ := buildStructLoop_frame rt recurse req hrec nm all r2 _ res h
    refine ⟨ds1, hres, hl1.trans (updateField_length n d all ds), ?_⟩
    rw [hf1 n hn2]
    exact lookupField_updateField_eq n d all ds _ _ hlook
  | cons f r1 ih =>
    intro ds d0 res hn1 hlook h
    obtain ⟨fn, ft⟩ := f
    simp only [List.map_cons, List.mem_cons, not_or] at hn1
    obtain ⟨V1, hV1, h1⟩ :=
      buildStructLoop_step rt recurse req hrec fn ft (r1 ++ (n, tdecl) :: r2) _ res h
    have hshape : ∃ ds0, V1 = Value.mk (GoType.struct nm all) (Data.struct ds0) ∧
        ds0.length = ds.length ∧ ∀ m, m ≠ fn → lookupField m all ds0 = lookupField m all ds := by
      rcases hV1 with rfl | ⟨x, rfl⟩
      · exact ⟨ds, rfl, rfl, fun _ _ => rfl⟩
      · exact setField_struct nm all ds fn x
    obtain ⟨ds0, rfl, hl0, hf0⟩ := hshape
    obtain ⟨ds1, hres, hl1, hf1⟩ := ih ds0 d0 res hn1.2 (by rw [hf0 n hn1.1]; exact hlook) h1
    exact ⟨ds1, hres, hl1.trans hl0, hf1⟩

end Convertors

section ConvertorClaims

theorem simpleStep_of_not_ptr (rt : Runtime) (req : Request) (n : String) (t : GoType) (d : Data)
    (h : t.kind ≠ Kind.Ptr) : simpleStep rt req (n, t) d = scalarStep rt req (n, t) d := by
  cases t with
  | ptr e => exact absurd rfl h
  | basic k => rfl
  | struct nm fs => rfl

/-- The field loop of `BuildStruct` over fields that need no recursion: each
field is visited once and receives `simpleStep`; no error is returned and
`recurse` is never consulted. -/
theorem buildStructLoop_simple (rt : Runtime)
    (recurse : GoType → Value → Request → Except Fault (Value × Option String))
    (req : Request) (nm : String) :
    ∀ (post pre : List (String × GoType)) (dpre dpost : List Data),
      dpre.length = pre.length → dpost.length = post.length →
      ((pre ++ post).map Prod.fst).Nodup → (∀ f ∈ post, SimpleField rt req f) →
      buildStructLoop rt recurse req post
          (Value.mk (GoType.struct nm (pre ++ post)) (Data.struct (dpre ++ dpost))) =
        .ok (Value.mk (GoType.struct nm (pre ++ post))
          (Data.struct (dpre ++ List.zipWith (simpleStep rt req) post dpost)), none) := by
  intro post
  induction post with
  | nil =>
    intro pre dpre dpost _ h2 _ _
    cases dpost with
    | nil => simp [buildStructLoop]
    | cons x xs => simp at h2
  | cons f post ih =>
    intro pre dpre dpost h1 h2 hnd hk
    obtain ⟨n, t⟩ := f
    cases dpost with
    | nil => simp at h2
    | cons d dpost =>
      simp only [List.length_cons, Nat.add_right_cancel_iff] at h2
      have hnpre : n ∉ pre.map Prod.fst := by
        intro hmem
        rw [List.map_append, List.nodup_append] at hnd
        exact hnd.2.2 hmem (by simp)
      have hlook := lookupField_append_cons n t d post dpost pre dpre h1 hnpre
      have hassoc : pre ++ (n, t) :: post = (pre ++ [(n, t)]) ++ post := by simp
      have key : ∀ d1 : Data,
          buildStructLoop rt recurse req post
            (Value.mk (GoType.struct nm (pre ++ (n, t) :: post)) (Data.struct (dpre ++ d1 :: dpost))) =
          .ok (Value.mk (GoType.struct nm (pre ++ (n, t) :: post))
            (Data.struct (dpre ++ d1 :: List.zipWith (simpleStep rt req) post dpost)), none) := by
        intro d1
        have := ih (pre ++ [(n, t)]) (dpre ++ [d1]) dpost (by simp [h1]) h2
          (by rw [← hassoc]; exact hnd) (fun f hf => hk f (List.mem_cons_of_mem _ hf))
        simpa using this
      rcases hk (n, t) (List.mem_cons_self _ _) with hkt | ⟨e, conv, ht, hE, hc, hconv⟩
      · simp only at hkt
        simp only [buildStructLoop, Value.fieldByName, hlook, Value.kind, if_neg hkt,
          List.zipWith_cons_cons, simpleStep_of_not_ptr rt req n t d hkt, scalarStep]
        rcases hfv : findValue rt n req with ⟨v, found⟩
        cases found with
        | false => exact key d
        | true =>
          simp only
          rw [SetValue_typ]
          simp only [Value.setField, updateField_append_cons n _ t d post dpost pre dpre h1 hnpre]
          exact key _
      · simp only at ht
        subst ht
        have hp : (GoType.ptr e).kind = Kind.Ptr := rfl
        rcases hcr : conv req with _ | ⟨t1, d1⟩
        · exact absurd hcr hconv
        · simp only [buildStructLoop, Value.fieldByName, hlook, Value.kind, hp, if_true,
            Value.typeOf, bind, Except.bind, GoType.elem, hE, hc, hcr, Value.setField,
            updateField_append_cons n _ (GoType.ptr e) d post dpost pre dpre h1 hnpre,
            List.zipWith_cons_cons, simpleStep, Value.data]
          exact key d1

/-- C9: when the struct type of a pointer field has a registered convertor,
any call of `BuildStruct` that returns leaves exactly the convertor's result in
that field and returns no error, whatever the other fields are and whatever the
request carries.  When the other fields need no recursion either, the call
returns already with a recursion budget of one, so the recursive binder is not
applied to the nested type, and the result is as displayed. -/
theorem BuildStruct_convertor_field (rt : Runtime) (req : Request) (nm : String)
    (pre post : List (String × GoType)) (n : String) (e : GoType) (convertor : Request → Value)
    (t : GoType) (d : Data) (dpre dpost : List Data) (d0 : Data)
    (hnd : ((pre ++ (n, GoType.ptr e) :: post).map Prod.fst).Nodup)
    (hl1 : dpre.length = pre.length) (hl2 : dpost.length = post.length)
    (hE : e.kind = Kind.Struct) (hc : rt.MessageFieldConvertor e = some convertor)
    (hconv : convertor req = Value.mk t d) :
    (∀ (fuel : Nat) (v : Value) (err : Option String),
      BuildStruct rt fuel (GoType.struct nm (pre ++ (n, GoType.ptr e) :: post))
        (Value.mk (GoType.struct nm (pre ++ (n, GoType.ptr e) :: post))
          (Data.struct (dpre ++ d0 :: dpost))) req = .ok (v, err) →
      err = none ∧ v.fieldByName n = .ok (Value.mk (GoType.ptr e) d)) ∧
    ((∀ f ∈ pre ++ post, SimpleField rt req f) →
      ∀ fuel : Nat,
        BuildStruct rt (fuel + 1) (GoType.struct nm (pre ++ (n, GoType.ptr e) :: post))
          (Value.mk (GoType.struct nm (pre ++ (n, GoType.ptr e) :: post))
            (Data.struct (dpre ++ d0 :: dpost))) req =
        .ok (Value.mk (GoType.struct nm (pre ++ (n, GoType.ptr e) :: post))
          (Data.struct (List.zipWith (simpleStep rt req) pre dpre ++ d ::
            List.zipWith (simpleStep rt req) post dpost)), none)) := by
  have hnd' := hnd
  rw [List.map_append, List.map_cons, List.nodup_append] at hnd'
  obtain ⟨-, hnd2, hdisj⟩ := hnd'
  have hn1 : n ∉ pre.map Prod.fst := fun hm => hdisj hm (by simp)
  have hn2 : n ∉ post.map Prod.fst := (List.nodup_cons.mp hnd2).1
  constructor
  · intro fuel v err h
    cases fuel with
    | zero => simp [BuildStruct] at h
    | succ fuel =>
      simp only [BuildStruct, Value.kind, GoType.kind, GoType.fields] at h
      rw [if_neg (by decide)] at h
      obtain ⟨ds1, hres, -, hlook⟩ :=
        buildStructLoop_convertor rt (BuildStruct rt fuel) req
          (fun T V v e => BuildStruct_err_none rt req fuel T V v e) nm _ n e convertor t d
          (GoType.ptr e) post hE hc hconv hn2 pre _ d0 (v, err) hn1
          (lookupField_append_cons n (GoType.ptr e) d0 post dpost pre dpre hl1 hn1) h
      simp only [Prod.mk.injEq] at hres
      obtain ⟨rfl, rfl⟩ := hres
      exact ⟨rfl, by simp only [Value.fieldByName, hlook]⟩
  · intro hs fuel
    have hall : ∀ f ∈ pre ++ (n, GoType.ptr e) :: post, SimpleField rt req f := by
      intro f hf
      rcases List.mem_append.mp hf with hf | hf
      · exact hs f (List.mem_append_left _ hf)
      · rcases List.mem_cons.mp hf with rfl | hf
        · exact Or.inr ⟨e, convertor, rfl, hE, hc, by rw [hconv]; simp⟩
        · exact hs f (List.mem_append_right _ hf)
    have := buildStructLoop_simple rt (BuildStruct rt fuel) req nm
      (pre ++ (n, GoType.ptr e) :: post) [] [] (dpre ++ d0 :: dpost) rfl (by simp [hl1, hl2])
      (by simpa using hnd) hall
    simp only [List.nil_append] at this
    simp only [BuildStruct, Value.kind, GoType.kind, GoType.fields]
    rw [if_neg (by decide), this, List.zipWith_append _ _ _ _ _ hl1.symm]
    simp [simpleStep, hc, hconv, Value.data]

/-- Witness for C9: the request carries `age=41`, a well-formed value for the
field of the nested struct, yet the pointer field ends up holding the
convertor's struct, whose `Age` is 7; the fields around it are bound as usual.
Without the convertor the recursive binder sets `Age` to 41. -/
theorem BuildStruct_convertor_field_witness :
    BuildStruct demoConvRuntime 1 demoHelloType demoHelloValue demoRequest =
      .ok (Value.mk demoHelloType
        (Data.struct [Data.str "bob", Data.ref (Data.struct [Data.int 7]), Data.int 0]), none) ∧
    BuildStruct demoRuntime 2 demoHelloType demoHelloValue demoRequest =
      .ok (Value.mk demoHelloType
        (Data.struct [Data.str "bob", Data.ref (Data.struct [Data.int 41]), Data.int 0]), none) :=
  ⟨((BuildStruct_convertor_field demoConvRuntime demoRequest "HelloRequest"
    [("Name", GoType.basic Kind.String)] [("IdValue", GoType.basic Kind.Int64)] "Values"
    demoCommonValues demoConvertor (GoType.ptr demoCommonValues)
    (Data.ref (Data.struct [Data.int 7])) [Data.str ""] [Data.int 0]
    (Data.ref (Data.struct [Data.int 0])) (by decide) rfl rfl rfl rfl rfl).2
      (by
        intro f hf
        simp only [List.cons_append, List.nil_append, List.mem_cons, List.mem_singleton,
          List.not_mem_nil, or_false] at hf
        rcases hf with rfl | rfl <;> exact Or.inl (by decide)) 0).trans rfl, rfl⟩

end ConvertorClaims

/-! ## Claims about the dispatch stage -/

section DispatchClaims

variable {W Req R : Type}

/-- C13: when the request carries a Hijacker, `doRequest` calls it, once, and
calls nothing else: after the entry event the only event is the hijack call,
and the world is the one the Hijacker leaves, whatever Preprocessor,
Postprocessor, switcher or error handler are configured. -/
theorem doRequest_hijacked (c : Components W Req R) (cfg : Config) (methodName : String)
    (s : PState W Req R) (req : Req) (hijack : W → Req → W) (h : c.Hijacker req = some hijack) :
    doRequest c cfg methodName s req =
      { resp := hijack s.resp req
        trace := s.trace ++ [Event.doRequest methodName req, Event.hijack req] } := by
  simp [doRequest, h, PState.emit]

/-- Witness for C13: a request carrying a Hijacker, a Preprocessor and a
Postprocessor at once is served by the Hijacker alone. -/
theorem doRequest_hijacked_witness :
    doRequest demoOverrides demoConfig "SayHello" ⟨[], []⟩ 7 =
      { resp := ["hijacked"]
        trace := [Event.doRequest "SayHello" 7, Event.hijack 7] } :=
  doRequest_hijacked demoOverrides demoConfig "SayHello" ⟨[], []⟩ 7
    (fun w _ => w ++ ["hijacked"]) rfl

/-- C14: without a Hijacker, a failing Preprocessor makes `doRequest` call the
error handler once with the Preprocessor's error and nothing after it; a
failing switcher (after a Preprocessor that is absent or succeeds) makes it
call the error handler once with the switcher's error and nothing after it.
In neither case is there a postprocessor, marshal or write event. -/
theorem doRequest_error_routing (c : Components W Req R) (cfg : Config) (methodName : String)
    (s : PState W Req R) (req : Req) (hH : c.Hijacker req = none) :
    (∀ (pre : W → Req → W × Option String) (w : W) (e : String),
      c.Preprocessor req = some pre → pre s.resp req = (w, some e) →
      doRequest c cfg methodName s req =
        { resp := c.errorHandlerFunc w req e
          trace := s.trace ++ [Event.doRequest methodName req,
            Event.preprocessor req (some e), Event.errorHandler req e] }) ∧
    (∀ (w : W) (sr : R) (e : String),
      c.Preprocessor req = none → c.switcherFunc methodName s.resp req = (w, sr, some e) →
      doRequest c cfg methodName s req =
        { resp := c.errorHandlerFunc w req e
          trace := s.trace ++ [Event.doRequest methodName req,
            Event.switcher methodName req (some e), Event.errorHandler req e] }) ∧
    (∀ (pre : W → Req → W × Option String) (w1 w : W) (sr : R) (e : String),
      c.Preprocessor req = some pre → pre s.resp req = (w1, none) →
      c.switcherFunc methodName w1 req = (w, sr, some e) →
      doRequest c cfg methodName s req =
        { resp := c.errorHandlerFunc w req e
          trace := s.trace ++ [Event.doRequest methodName req, Event.preprocessor req none,
            Event.switcher methodName req (some e), Event.errorHandler req e] }) := by
  refine ⟨?_, ?_, ?_⟩
  · intro pre w e hP hpre
    simp [doRequest, hH, doPreprocessor, hP, PState.emit, hpre]
  · intro w sr e hP hS
    simp [doRequest, hH, doPreprocessor, hP, PState.emit, hS]
  · intro pre w1 w sr e hP hpre hS
    simp [doRequest, hH, doPreprocessor, hP, PState.emit, hpre, hS]

/-- Witness for C14: a rejecting Preprocessor; the switcher and the configured
Postprocessor are not called. -/
theorem doRequest_error_routing_witness :
    doRequest demoRejecting demoConfig "SayHello" ⟨[], []⟩ 7 =
      { resp := ["pre", "error: rejected"]
        trace := [Event.doRequest "SayHello" 7, Event.preprocessor 7 (some "rejected"),
          Event.errorHandler 7 "rejected"] } :=
  (doRequest_error_routing demoRejecting demoConfig "SayHello" ⟨[], []⟩ 7 rfl).1
    (fun w _ => (w ++ ["pre"], some "rejected")) ["pre"] "rejected" rfl rfl

/-- C17: with a Postprocessor present, `doPostprocessor` calls it once with the
switcher's result and does nothing else (no marshal, no write); without one it
marshals the result with the three options of the configuration and writes
the serialized bytes, or the text of the marshal error, in a single write. -/
theorem doPostprocessor_spec (c : Components W Req R) (cfg : Config) (s : PState W Req R)
    (req : Req) (serviceResponse : R) (err : Option String) :
    (∀ post : W → Req → R → Option String → W, c.Postprocessor req = some post →
      doPostprocessor c cfg s req serviceResponse err =
        { resp := post s.resp req serviceResponse err
          trace := s.trace ++ [Event.postprocessor req serviceResponse err] }) ∧
    (∀ jsonBytes : String, c.Postprocessor req = none →
      c.JSON ⟨cfg.FilterProtoJson, cfg.FilterProtoJsonEmitZeroValues,
        cfg.FilterProtoJsonInt64AsNumber⟩ serviceResponse = .ok jsonBytes →
      doPostprocessor c cfg s req serviceResponse err =
        { resp := c.Write s.resp jsonBytes
          trace := s.trace ++
            [Event.marshal ⟨cfg.FilterProtoJson, cfg.FilterProtoJsonEmitZeroValues,
              cfg.FilterProtoJsonInt64AsNumber⟩ serviceResponse, Event.write jsonBytes] }) ∧
    (∀ e : String, c.Postprocessor req = none →
      c.JSON ⟨cfg.FilterProtoJson, cfg.FilterProtoJsonEmitZeroValues,
        cfg.FilterProtoJsonInt64AsNumber⟩ serviceResponse = .error e →
      doPostprocessor c cfg s req serviceResponse err =
        { resp := c.Write s.resp e
          trace := s.trace ++
            [Event.marshal ⟨cfg.FilterProtoJson, cfg.FilterProtoJsonEmitZeroValues,
              cfg.FilterProtoJsonInt64AsNumber⟩ serviceResponse, Event.write e] }) := by
  refine ⟨?_, ?_, ?_⟩
  · intro post hP
    simp [doPostprocessor, hP, PState.emit]
  · intro b hP hJ
    simp [doPostprocessor, hP, PState.emit, hJ]
  · intro e hP hJ
    simp [doPostprocessor, hP, PState.emit, hJ]

/-- Witness for C17: without a Postprocessor the marshaled reply is written. -/
theorem doPostprocessor_spec_witness :
    doPostprocessor (demoComponents [] false) demoConfig ⟨[], []⟩ 7 "reply" none =
      { resp := ["reply"]
        trace := [Event.marshal ⟨true, false, false⟩ "reply", Event.write "reply"] } :=
  (doPostprocessor_spec (demoComponents [] false) demoConfig ⟨[], []⟩ 7 "reply" none).2.1
    "reply" rfl rfl

/-- A trace without Before calls and dispatch events consists of After calls. -/
theorem afterCalls_length_of_only_after :
    ∀ (evs : List (Event Req R)), beforeCalls evs = [] → dispatchEvents evs = [] →
      (afterCalls evs).length = evs.length := by
  intro evs
  induction evs with
  | nil => intro _ _; rfl
  | cons e evs ih =>
    intro hb hd
    cases e with
    | after i r err =>
      have := ih (by simpa [beforeCalls, Event.beforeCall] using hb)
        (by simpa [dispatchEvents, Event.isDispatch] using hd)
      simp [afterCalls, Event.afterCall] at this ⊢
      exact this
    | before i r err => simp [beforeCalls, Event.beforeCall] at hb
    | doRequest m r => simp [dispatchEvents, Event.isDispatch] at hd
    | hijack r => simp [dispatchEvents, Event.isDispatch] at hd
    | preprocessor r err => simp [dispatchEvents, Event.isDispatch] at hd
    | switcher m r err => simp [dispatchEvents, Event.isDispatch] at hd
    | errorHandler r err => simp [dispatchEvents, Event.isDispatch] at hd
    | postprocessor r sr err => simp [dispatchEvents, Event.isDispatch] at hd
    | marshal m sr => simp [dispatchEvents, Event.isDispatch] at hd
    | write b => simp [dispatchEvents, Event.isDispatch] at hd

end DispatchClaims

/-! ## Claims about the value lookup and the generated dispatchers -/

section LookupClaims

/-- C12: `findValue` returns the first form value under the translated key when
the form has one; otherwise the context value under the untranslated name;
otherwise the context value under the translated key; otherwise the empty
string and `false`.  It reports `false` exactly when all three lookups miss. -/
theorem findValue_search_order (rt : Runtime) (fieldName : String) (req : Request) :
    (∀ (v0 : String) (more : List String), req.Form (rt.ToSnakeCase fieldName) = some (v0 :: more) →
      findValue rt fieldName req = (v0, true)) ∧
    (∀ c : String, formMisses req (rt.ToSnakeCase fieldName) → req.Context fieldName = some c →
      findValue rt fieldName req = (c, true)) ∧
    (∀ c : String, formMisses req (rt.ToSnakeCase fieldName) → req.Context fieldName = none →
      req.Context (rt.ToSnakeCase fieldName) = some c → findValue rt fieldName req = (c, true)) ∧
    (formMisses req (rt.ToSnakeCase fieldName) → req.Context fieldName = none →
      req.Context (rt.ToSnakeCase fieldName) = none → findValue rt fieldName req = ("", false)) ∧
    ((findValue rt fieldName req).2 = false ↔
      (formMisses req (rt.ToSnakeCase fieldName) ∧ req.Context fieldName = none ∧
        req.Context (rt.ToSnakeCase fieldName) = none)) := by
  have hmiss : ∀ c1 c2, formMisses req (rt.ToSnakeCase fieldName) →
      req.Context fieldName = c1 → req.Context (rt.ToSnakeCase fieldName) = c2 →
      findValue rt fieldName req =
        match c1, c2 with
        | some c, _ => (c, true)
        | none, some c => (c, true)
        | none, none => ("", false) := by
    intro c1 c2 hf h1 h2
    unfold findValue
    rcases hf with hf | hf <;> simp only [hf, h1, h2] <;> cases c1 <;> cases c2 <;> rfl
  refine ⟨?_, ?_, ?_, ?_, ?_⟩
  · intro v0 more h
    simp [findValue, h]
  · intro c hf h1
    rw [hmiss _ _ hf h1 rfl]
  · intro c hf h1 h2
    rw [hmiss _ _ hf h1 h2]
  · intro hf h1 h2
    rw [hmiss _ _ hf h1 h2]
  · constructor
    · intro h
      rcases hF : req.Form (rt.ToSnakeCase fieldName) with _ | l
      · have hf : formMisses req (rt.ToSnakeCase fieldName) := Or.inl hF
        rw [hmiss _ _ hf rfl rfl] at h
        refine ⟨hf, ?_⟩
        cases h1 : req.Context fieldName <;> cases h2 : req.Context (rt.ToSnakeCase fieldName) <;>
          simp_all
      · cases l with
        | nil =>
          have hf : formMisses req (rt.ToSnakeCase fieldName) := Or.inr hF
          rw [hmiss _ _ hf rfl rfl] at h
          refine ⟨hf, ?_⟩
          cases h1 : req.Context fieldName <;>
            cases h2 : req.Context (rt.ToSnakeCase fieldName) <;> simp_all
        | cons v0 more =>
          simp [findValue, hF] at h
    · rintro ⟨hf, h1, h2⟩
      rw [hmiss _ _ hf h1 h2]

/-- Witness for C12: with an empty form and both context keys set, the value
under the untranslated name wins. -/
theorem findValue_search_order_witness :
    findValue demoRuntime "UserId" demoContextRequest = ("plain", true) :=
  (findValue_search_order demoRuntime "UserId" demoContextRequest).2.1 "plain" (Or.inl rfl) rfl

theorem getLast_append_bracket (s : String) :
    ("No such grpc method[" ++ s ++ "]").data.getLast? = some ']' := by
  have h : ("No such grpc method[" ++ s ++ "]").data =
      ("No such grpc method[" ++ s).data ++ [']'] := by
    rw [String.data_append]
  rw [h]
  exact List.getLast?_concat _

/-- C18: for an operation name that is not the operation name of any route
entry, the generated `Switcher`, and likewise the generated `Handler` of the
demo framework, performs exactly one write, of `No such grpc method[` followed
by the name and `]`; the last byte written is the bracket, not a newline. -/
theorem Switcher_default_branch {Req : Type} (UrlServiceMap : List (String × String × String))
    (ParseRequestForm : Req → Req) (call : String → Req → String × Option String)
    (methodName : String) (req : Req)
    (h : ∀ v ∈ UrlServiceMap, v.2.2 ≠ methodName) :
    Switcher UrlServiceMap call methodName req = ["No such grpc method[" ++ methodName ++ "]"] ∧
    Handler UrlServiceMap ParseRequestForm call methodName req =
      ["No such grpc method[" ++ methodName ++ "]"] ∧
    ("No such grpc method[" ++ methodName ++ "]").data.getLast? = some ']' := by
  have hn : methodName ∉ generatedCases UrlServiceMap := by
    intro hm
    simp only [generatedCases, List.mem_map] at hm
    obtain ⟨v, hv, hv2⟩ := hm
    exact h v hv hv2
  refine ⟨?_, ?_, getLast_append_bracket methodName⟩
  · simp [Switcher, hn]
  · simp [Handler, hn]

/-- Witness for C18: `SayBye` is not in the route table. -/
theorem Switcher_default_branch_witness :
    Switcher demoUrlServiceMap demoCall "SayBye" 7 = ["No such grpc method[SayBye]"] :=
  (Switcher_default_branch demoUrlServiceMap (fun r => r) demoCall "SayBye" 7
    (by decide)).1.trans rfl

end LookupClaims

/-! ## Claims about Before errors and positional defaults -/

section DefaultsClaims

/-- In a run of `handler` in which some Before hook fails, the error handler
is never called. -/
theorem handler_before_error_unrouted {W Req R : Type} (c : Components W Req R) (cfg : Config)
    (methodName : String) (w : W) (req : Req)
    (hk : firstFailure (getInterceptors c (c.ParseRequestForm req)) w (c.ParseRequestForm req)
      < (getInterceptors c (c.ParseRequestForm req)).length) :
    ∀ (r : Req) (e : String),
      Event.errorHandler r e ∉ (handler c cfg methodName ⟨w, []⟩ req).trace := by
  obtain ⟨bs, ds, as, h, -, -, b3, -, -, -, -, d5, -, a2, -⟩ :=
    handler_spec c cfg methodName ⟨w, []⟩ req
  simp only [List.nil_append] at h
  have hd : dispatchEvents (handler c cfg methodName ⟨w, []⟩ req).trace = [] := by
    rw [h, d5 hk]
    simp [dispatchEvents_append, b3, a2]
  intro r e hmem
  have : Event.errorHandler r e ∈ dispatchEvents (handler c cfg methodName ⟨w, []⟩ req).trace := by
    simp only [dispatchEvents, List.mem_filter]
    exact ⟨hmem, rfl⟩
  rw [hd] at this
  simp at this

/-- C15 fails on the code: with the single interceptor `A` whose Before hook
fails with `A denied`, the whole run of `handler` is that one Before call; the
error handler is not called and the world is left as it was, although the
configured error handler would have written `error: A denied`. -/
theorem handler_drops_before_error :
    handler (demoComponents [denyHook "A"] false) demoConfig "SayHello" ⟨[], []⟩ 7 =
      { resp := [], trace := [Event.before 0 7 (some "A denied")] } ∧
    (demoComponents [denyHook "A"] false).errorHandlerFunc [] 7 "A denied" =
      ["error: A denied"] := by
  constructor <;> rfl

theorem findValue_missing (rt : Runtime) (n : String) (req : Request)
    (h : (findValue rt n req).2 = false) : (findValue rt n req).1 = "" := by
  unfold findValue at h ⊢
  rcases hF : req.Form (rt.ToSnakeCase n) with _ | l
  · cases h1 : req.Context n <;> cases h2 : req.Context (rt.ToSnakeCase n) <;>
      simp_all
  · cases l with
    | nil =>
      cases h1 : req.Context n <;> cases h2 : req.Context (rt.ToSnakeCase n) <;>
        simp_all
    | cons v0 more => simp_all

/-- For the kinds it has a case for, `ReflectValue` returns the zero value of
the kind whenever it returns an error. -/
theorem ReflectValue_error_zero (rt : Runtime) (k : Kind) (hk : k ∈ reflectValueKinds)
    (d : Data) (v : String)
    (h : (ReflectValue rt (Value.mk (GoType.basic k) d) v).2 ≠ none) :
    (ReflectValue rt (Value.mk (GoType.basic k) d) v).1 = Value.mk (GoType.basic k) (zeroData k) := by
  simp only [reflectValueKinds, List.mem_cons, List.mem_singleton, List.not_mem_nil,
    or_false] at hk
  rcases hk with rfl | rfl | rfl | rfl | rfl | rfl <;>
    simp only [ReflectValue, Value.kind, GoType.kind] at h ⊢
  · cases hp : ParseInt v 16 <;> rw [hp] at h <;> first | rfl | exact (h rfl).elim
  · cases hp : ParseInt v 32 <;> rw [hp] at h <;> first | rfl | exact (h rfl).elim
  · cases hp : ParseInt v 64 <;> rw [hp] at h <;> first | rfl | exact (h rfl).elim
  · exact (h rfl).elim
  · cases hp : ParseBool v <;> rw [hp] at h <;> first | rfl | exact (h rfl).elim
  · cases hp : rt.ParseFloat v <;> rw [hp] at h <;> first | rfl | exact (h rfl).elim

/-- For the kinds it has a case for, `ReflectValue` turns the empty string into
the zero value of the kind. -/
theorem ReflectValue_empty_zero (rt : Runtime) (hF : rt.ParseFloat "" = none) (k : Kind)
    (hk : k ∈ reflectValueKinds) (d : Data) :
    (ReflectValue rt (Value.mk (GoType.basic k) d) "").1 = Value.mk (GoType.basic k) (zeroData k) := by
  simp only [reflectValueKinds, List.mem_cons, List.mem_singleton, List.not_mem_nil,
    or_false] at hk
  rcases hk with rfl | rfl | rfl | rfl | rfl | rfl <;>
    simp only [ReflectValue, Value.kind, GoType.kind, hF] <;> rfl

/-- C11 (as the code has it): when no by-name constructor fails, `BuildArgs`
completes without error, and the slot of a scalar argument of one of the kinds
`ReflectValue` has a case for (`Int16`, `Int32`, `Int64`, `String`, `Bool`,
`Float64`) holds the zero value of the argument's own kind whenever no raw
value is found for its name or `ReflectValue` fails on the raw value.  For a
scalar argument of any other kind the slot holds the `int` value 0. -/
theorem BuildArgs_scalar_defaults (rt : Runtime) (req : Request)
    (bsa : String → Request → Value × Option String) (nm : String)
    (fs : List (String × GoType)) (ds : List Data) (hlen : ds.length = fs.length)
    (hnd : (fs.map Prod.fst).Nodup) (hwf : ∀ f ∈ fs, f.2 ≠ GoType.basic Kind.Ptr)
    (hok : ∀ p ∈ List.zip fs ds, (buildArg rt req bsa p.1 p.2).2 = none)
    (hF : rt.ParseFloat "" = none) :
    ∃ vs : List Value,
      BuildArgs rt (GoType.struct nm fs) (Value.mk (GoType.struct nm fs) (Data.struct ds)) req bsa =
        .ok (vs, none) ∧
      vs.length = fs.length ∧
      (∀ (i : Nat) (n : String) (k : Kind) (d : Data),
        fs[i]? = some (n, GoType.basic k) → ds[i]? = some d → k ∈ reflectValueKinds →
        ((findValue rt n req).2 = false ∨
          (ReflectValue rt (Value.mk (GoType.basic k) d) (findValue rt n req).1).2 ≠ none) →
        vs[i]? = some (Value.mk (GoType.basic k) (zeroData k))) ∧
      (∀ (i : Nat) (n : String) (k : Kind) (d : Data),
        fs[i]? = some (n, GoType.basic k) → ds[i]? = some d → k ∉ reflectValueKinds →
        vs[i]? = some (Value.mk (GoType.basic Kind.Int) (Data.int 0))) := by
  refine ⟨List.zipWith (fun f d => (buildArg rt req bsa f d).1) fs ds, ?_, by simp [hlen], ?_, ?_⟩
  · rw [BuildArgs_spec rt req bsa nm fs ds hlen hnd hwf,
      buildArgsSpec_ok rt req bsa fs ds hlen hok]
  · intro i n k d hf hd hk hcase
    have hkp : (GoType.basic k).kind ≠ Kind.Ptr := by
      intro h
      simp only [GoType.kind] at h
      rw [h] at hk
      revert hk
      decide
    rw [List.getElem?_zipWith, hf, hd]
    simp only [buildArg_of_not_ptr rt req bsa n (GoType.basic k) d hkp, Option.some.injEq]
    rcases hcase with hmiss | herr
    · rw [findValue_missing rt n req hmiss]
      exact ReflectValue_empty_zero rt hF k hk d
    · exact ReflectValue_error_zero rt k hk d _ herr
  · intro i n k d hf hd hk
    have hkp : (GoType.basic k).kind ≠ Kind.Ptr := by
      intro h
      simp only [GoType.kind] at h
      exact hwf (n, GoType.basic k) (List.getElem?_mem hf) (by rw [h])
    rw [List.getElem?_zipWith, hf, hd]
    simp only [buildArg_of_not_ptr rt req bsa n (GoType.basic k) d hkp, Option.some.injEq]
    rw [ReflectValue_unsupported rt (Value.mk (GoType.basic k) d) _ hk]
    rfl

/-- Witness for C11: no raw value is found for either argument, and the slots
hold the zero values of the declared kinds. -/
theorem BuildArgs_scalar_defaults_witness :
    ∃ vs : List Value,
      BuildArgs demoRuntime demoArgsType demoArgsValue demoContextRequest demoBuildStructArg =
        .ok (vs, none) ∧
      vs[0]? = some (Value.mk (GoType.basic Kind.Int32) (Data.int 0)) ∧
      vs[1]? = some (Value.mk (GoType.basic Kind.String) (Data.str "")) := by
  obtain ⟨vs, h1, -, h3, -⟩ :=
    BuildArgs_scalar_defaults demoRuntime demoContextRequest demoBuildStructArg "SayHelloArgs"
      [("Age", GoType.basic Kind.Int32), ("Name", GoType.basic Kind.String)]
      [Data.int 0, Data.str ""] rfl (by decide) (by simp)
      (by
        intro p hp
        simp only [List.zip_cons_cons, List.zip_nil_right, List.mem_cons, List.mem_singleton,
          List.not_mem_nil, or_false] at hp
        rcases hp with rfl | rfl <;> rfl) rfl
  exact ⟨vs, h1, h3 0 "Age" Kind.Int32 (Data.int 0) rfl rfl (by decide) (Or.inl rfl),
    h3 1 "Name" Kind.String (Data.str "") rfl rfl (by decide) (Or.inl rfl)⟩

/-- C11 fails as stated: for an argument of declared kind `Int8` for which no
raw value is found, `BuildArgs` fills the slot with a value of kind `Int`, not
with the zero value of the declared 8-bit type. -/
theorem BuildArgs_int8_default_is_int :
    findValue demoRuntime "Flag" demoRequest = ("", false) ∧
    BuildArgs demoRuntime demoInt8ArgsType demoInt8ArgsValue demoRequest demoBuildStructArg =
      .ok ([Value.mk (GoType.basic Kind.Int) (Data.int 0)], none) ∧
    (Value.mk (GoType.basic Kind.Int) (Data.int 0)).kind ≠ Kind.Int8 := by
  refine ⟨rfl, rfl, by decide⟩

end DefaultsClaims

/-! ## Claims about request threading -/

section Threading

variable {W Req R : Type}

/-- The `range` loop of `doBefore` hands every hook what the previous one
returned. -/
theorem doBeforeLoop_thread (all : List (Interceptor W Req)) :
    ∀ (rest : List (Interceptor W Req)) (index : Nat) (s : PState W Req R) (req : Req),
      (doBeforeLoop all rest index s req).1 =
        ⟨(beforeThread (R := R) rest index s.resp req).2.1,
          s.trace ++ (beforeThread (R := R) rest index s.resp req).1⟩ ∧
      (doBeforeLoop all rest index s req).2.2.1 =
        (beforeThread (R := R) rest index s.resp req).2.2 := by
  intro rest
  induction rest with
  | nil => intro index s req; simp [doBeforeLoop, beforeThread, threadCalls]
  | cons i rest ih =>
    intro index s req
    rcases hB : i.Before s.resp req with ⟨w, req1, err⟩
    cases err with
    | some e => simp [doBeforeLoop, beforeThread, threadCalls, hB, PState.emit]
    | none =>
      obtain ⟨h1, h2⟩ := ih (index + 1) (s.emit w (.before index req none)) req1
      simp only [emit_resp, emit_trace, beforeThread] at h1 h2
      simp only [doBeforeLoop, hB, beforeThread, List.enumFrom_cons, threadCalls,
        Option.isSome_none, Bool.and_false, Bool.false_eq_true, if_false, h1, h2]
      simp

theorem enum_take_succ (l : List (Interceptor W Req)) (i : Nat) (hi : i < l.length) :
    ((l.take (i + 1)).enum).reverse = (i, l[i]) :: ((l.take i).enum).reverse := by
  rw [List.take_succ, List.getElem?_eq_getElem hi, List.enum_append]
  simp [List.length_take, Nat.min_eq_left (Nat.le_of_lt hi)]

/-- The countdown loop of `doAfter` hands every hook what the hook called
before it returned. -/
theorem doAfterLoop_thread (l : List (Interceptor W Req)) :
    ∀ (n : Nat) (s : PState W Req R) (req : Req), n ≤ l.length →
      doAfterLoop l n s req =
        (⟨(afterThread (R := R) (l.take n) s.resp req).2.1,
          s.trace ++ (afterThread (R := R) (l.take n) s.resp req).1⟩,
         (afterThread (R := R) (l.take n) s.resp req).2.2) := by
  intro n
  induction n with
  | zero => intro s req _; simp [doAfterLoop, afterThread, threadCalls]
  | succ i ih =>
    intro s req hn
    have hi : i < l.length := hn
    rcases hA : (l[i]).After s.resp req with ⟨w, req1, err⟩
    have := ih (s.emit w (.after i req err)) req1 (Nat.le_of_lt hi)
    simp only [emit_resp, emit_trace, afterThread] at this
    simp only [doAfterLoop, List.getElem?_eq_getElem hi, hA, this, afterThread,
      enum_take_succ l i hi, threadCalls, Bool.false_and, Bool.false_eq_true, if_false]
    simp

/-- When the Before phase stops at a failing hook, what it returns is what that
hook returned. -/
theorem beforeThread_failure :
    ∀ (l : List (Interceptor W Req)) (index : Nat) (w : W) (req : Req),
      firstFailure l w req < l.length →
      ∃ (i : Interceptor W Req) (wk : W) (qk : Req) (e : String),
        l[firstFailure l w req]? = some i ∧
        i.Before wk qk =
          ((beforeThread (R := R) l index w req).2.1, (beforeThread (R := R) l index w req).2.2,
            some e) := by
  intro l
  induction l with
  | nil => intro index w req h; simp [firstFailure] at h
  | cons i rest ih =>
    intro index w req h
    rcases hB : i.Before w req with ⟨w1, req1, err⟩
    cases err with
    | some e =>
      exact ⟨i, w, req, e, by simp [firstFailure, hB],
        by simp [beforeThread, threadCalls, hB]⟩
    | none =>
      simp only [firstFailure, hB, List.length_cons, Nat.add_lt_add_iff_right] at h
      obtain ⟨j, wk, qk, e, hj, hk⟩ := ih (index + 1) w1 req1 h
      refine ⟨j, wk, qk, e, by simpa [firstFailure, hB] using hj, ?_⟩
      rw [hk]
      simp [beforeThread, threadCalls, hB]

/-- C19: `doBefore` and `doAfter` thread the request from hook to hook, and
`handler` hands the request returned by `doBefore` to `doRequest` and to
`doAfter`.  When a Before hook fails, that request is the one the failing hook
returned, and it is the one the After hook of the last surviving interceptor
receives. -/
theorem request_threading (c : Components W Req R) (cfg : Config) (methodName : String)
    (w : W) (req : Req) :
    (∀ (l : List (Interceptor W Req)) (w : W) (req : Req),
      (doBefore (R := R) l ⟨w, []⟩ req).1 =
        ⟨(beforeThread (R := R) l 0 w req).2.1, (beforeThread (R := R) l 0 w req).1⟩ ∧
      (doBefore (R := R) l ⟨w, []⟩ req).2.2.1 = (beforeThread (R := R) l 0 w req).2.2) ∧
    (∀ (l : List (Interceptor W Req)) (w : W) (req : Req),
      (doAfter (R := R) l ⟨w, []⟩ req).1 =
        ⟨(afterThread (R := R) l w req).2.1, (afterThread (R := R) l w req).1⟩) ∧
    (firstFailure (getInterceptors c (c.ParseRequestForm req)) w (c.ParseRequestForm req)
        = (getInterceptors c (c.ParseRequestForm req)).length →
      handler c cfg methodName ⟨w, []⟩ req =
        ⟨(afterThread (R := R) (getInterceptors c (c.ParseRequestForm req))
            (doRequest c cfg methodName
              ⟨(beforeThread (R := R) (getInterceptors c (c.ParseRequestForm req)) 0 w
                  (c.ParseRequestForm req)).2.1,
                (beforeThread (R := R) (getInterceptors c (c.ParseRequestForm req)) 0 w
                  (c.ParseRequestForm req)).1⟩
              (beforeThread (R := R) (getInterceptors c (c.ParseRequestForm req)) 0 w
                (c.ParseRequestForm req)).2.2).resp
            (beforeThread (R := R) (getInterceptors c (c.ParseRequestForm req)) 0 w
              (c.ParseRequestForm req)).2.2).2.1,
          (doRequest c cfg methodName
              ⟨(beforeThread (R := R) (getInterceptors c (c.ParseRequestForm req)) 0 w
                  (c.ParseRequestForm req)).2.1,
                (beforeThread (R := R) (getInterceptors c (c.ParseRequestForm req)) 0 w
                  (c.ParseRequestForm req)).1⟩
              (beforeThread (R := R) (getInterceptors c (c.ParseRequestForm req)) 0 w
                (c.ParseRequestForm req)).2.2).trace ++
            (afterThread (R := R) (getInterceptors c (c.ParseRequestForm req))
              (doRequest c cfg methodName
                ⟨(beforeThread (R := R) (getInterceptors c (c.ParseRequestForm req)) 0 w
                    (c.ParseRequestForm req)).2.1,
                  (beforeThread (R := R) (getInterceptors c (c.ParseRequestForm req)) 0 w
                    (c.ParseRequestForm req)).1⟩
                (beforeThread (R := R) (getInterceptors c (c.ParseRequestForm req)) 0 w
                  (c.ParseRequestForm req)).2.2).resp
              (beforeThread (R := R) (getInterceptors c (c.ParseRequestForm req)) 0 w
                (c.ParseRequestForm req)).2.2).1⟩) ∧
    (firstFailure (getInterceptors c (c.ParseRequestForm req)) w (c.ParseRequestForm req)
        < (getInterceptors c (c.ParseRequestForm req)).length →
      handler c cfg methodName ⟨w, []⟩ req =
        ⟨(afterThread (R := R)
            ((getInterceptors c (c.ParseRequestForm req)).take
              (firstFailure (getInterceptors c (c.ParseRequestForm req)) w
                (c.ParseRequestForm req)))
            (beforeThread (R := R) (getInterceptors c (c.ParseRequestForm req)) 0 w
              (c.ParseRequestForm req)).2.1
            (beforeThread (R := R) (getInterceptors c (c.ParseRequestForm req)) 0 w
              (c.ParseRequestForm req)).2.2).2.1,
          (beforeThread (R := R) (getInterceptors c (c.ParseRequestForm req)) 0 w
              (c.ParseRequestForm req)).1 ++
            (afterThread (R := R)
              ((getInterceptors c (c.ParseRequestForm req)).take
                (firstFailure (getInterceptors c (c.ParseRequestForm req)) w
                  (c.ParseRequestForm req)))
              (beforeThread (R := R) (getInterceptors c (c.ParseRequestForm req)) 0 w
                (c.ParseRequestForm req)).2.1
              (beforeThread (R := R) (getInterceptors c (c.ParseRequestForm req)) 0 w
                (c.ParseRequestForm req)).2.2).1⟩ ∧
      ∃ (i : Interceptor W Req) (wk : W) (qk : Req) (e : String),
        (getInterceptors c (c.ParseRequestForm req))[firstFailure
          (getInterceptors c (c.ParseRequestForm req)) w (c.ParseRequestForm req)]? = some i ∧
        i.Before wk qk =
          ((beforeThread (R := R) (getInterceptors c (c.ParseRequestForm req)) 0 w
              (c.ParseRequestForm req)).2.1,
            (beforeThread (R := R) (getInterceptors c (c.ParseRequestForm req)) 0 w
              (c.ParseRequestForm req)).2.2, some e)) := by
  have hbefore : ∀ (l : List (Interceptor W Req)) (w : W) (req : Req),
      (doBefore (R := R) l ⟨w, []⟩ req).1 =
        ⟨(beforeThread (R := R) l 0 w req).2.1, (beforeThread (R := R) l 0 w req).1⟩ ∧
      (doBefore (R := R) l ⟨w, []⟩ req).2.2.1 = (beforeThread (R := R) l 0 w req).2.2 := by
    intro l w req
    have := doBeforeLoop_thread (R := R) l l 0 ⟨w, []⟩ req
    simpa [doBefore] using this
  have hafter : ∀ (l : List (Interceptor W Req)) (s : PState W Req R) (req : Req),
      (doAfter l s req).1 =
        ⟨(afterThread (R := R) l s.resp req).2.1,
          s.trace ++ (afterThread (R := R) l s.resp req).1⟩ := by
    intro l s req
    have := doAfterLoop_thread (R := R) l l.length s req (Nat.le_refl _)
    simp only [List.take_length] at this
    simp only [doAfter, this]
  generalize hl : getInterceptors c (c.ParseRequestForm req) = l
  generalize hr : c.ParseRequestForm req = req0 at hl ⊢
  obtain ⟨evs, -, -, -, -, h5, h6, -⟩ := doBefore_spec (R := R) l ⟨w, []⟩ req0
  obtain ⟨hb1, hb2⟩ := hbefore l w req0
  refine ⟨hbefore, fun l w req => by simpa using hafter l ⟨w, []⟩ req, ?_, ?_⟩
  · intro hk
    have hnone := h6.mpr hk
    unfold handler
    simp only [hr, hl]
    rcases hB : doBefore l ⟨w, []⟩ req0 with ⟨s1, l1, req1, err⟩
    rw [hB] at hb1 hb2 h5 hnone
    simp only at hb1 hb2 h5 hnone
    subst hnone hb1 hb2 h5
    simp only [hafter]
    rw [hk, List.take_length]
  · intro hk
    have hne : (doBefore (R := R) l ⟨w, []⟩ req0).2.2.2 ≠ none := by
      intro h
      have := h6.mp h
      simp only at this
      omega
    refine ⟨?_, beforeThread_failure (R := R) l 0 w req0 hk⟩
    unfold handler
    simp only [hr, hl]
    rcases hB : doBefore l ⟨w, []⟩ req0 with ⟨s1, l1, req1, err⟩
    rw [hB] at hb1 hb2 h5 hne
    simp only at hb1 hb2 h5 hne
    cases err with
    | none => exact absurd rfl hne
    | some e =>
      subst hb1 hb2 h5
      simp only [hafter]

/-- Witness for C19: `A` passes on request 1 and `B`, handed request 1, fails
returning request 2; the After hook of `A` then receives request 2, not 1. -/
theorem request_threading_witness :
    handler (demoComponents [stampHook 1 false, stampHook 2 true] false) demoConfig "SayHello"
        ⟨[], []⟩ 7 =
      ⟨[], [Event.before 0 7 none, Event.before 1 1 (some "stamp failed"),
        Event.after 0 2 none]⟩ :=
  ((request_threading (demoComponents [stampHook 1 false, stampHook 2 true] false) demoConfig
    "SayHello" [] 7).2.2.2 (by decide)).1.trans rfl

end Threading

/-! ## The struct binder and nil pointers -/

section NilPointers

/-- A call of `BuildStruct` on the zero Value returns at once, without error. -/
theorem BuildStruct_invalid (rt : Runtime) (fuel : Nat) (T : GoType) (req : Request) :
    BuildStruct rt (fuel + 1) T Value.invalid req = .ok (Value.invalid, none) := by
  simp [BuildStruct, Value.kind]

/-- A call of `BuildStruct` on a struct runs the field loop, with one unit less
of recursion budget for the nested structs. -/
theorem BuildStruct_struct (rt : Runtime) (fuel : Nat) (nm : String)
    (fs : List (String × GoType)) (d : Data) (req : Request) :
    BuildStruct rt (fuel + 1) (GoType.struct nm fs) (Value.mk (GoType.struct nm fs) d) req =
      buildStructLoop rt (BuildStruct rt fuel) req fs (Value.mk (GoType.struct nm fs) d) := by
  simp [BuildStruct, Value.kind, GoType.kind, GoType.fields]

theorem BuildStruct_invalid_inv (rt : Runtime) (req : Request) (fuel : Nat) (T : GoType)
    (v : Value) (e : Option String) (h : BuildStruct rt fuel T Value.invalid req = .ok (v, e)) :
    v = Value.invalid := by
  cases fuel with
  | zero => simp [BuildStruct] at h
  | succ fuel =>
    rw [BuildStruct_invalid] at h
    simp only [Except.ok.injEq, Prod.mk.injEq] at h
    exact h.1.symm

/-- The field loop of `BuildStruct` over fields that are settled without
descending into a struct: each field is visited once and receives
`simpleStep`, which leaves a nil pointer nil; no error is returned. -/
theorem buildStructLoop_settled (rt : Runtime)
    (recurse : GoType → Value → Request → Except Fault (Value × Option String))
    (req : Request) (nm : String)
    (hrec : ∀ T, recurse T Value.invalid req = .ok (Value.invalid, none)) :
    ∀ (post pre : List (String × GoType)) (dpre dpost : List Data),
      dpre.length = pre.length → dpost.length = post.length →
      ((pre ++ post).map Prod.fst).Nodup →
      (∀ p ∈ List.zip post dpost, SettledField rt req p.1 p.2) →
      buildStructLoop rt recurse req post
          (Value.mk (GoType.struct nm (pre ++ post)) (Data.struct (dpre ++ dpost))) =
        .ok (Value.mk (GoType.struct nm (pre ++ post))
          (Data.struct (dpre ++ List.zipWith (simpleStep rt req) post dpost)), none) := by
  intro post
  induction post with
  | nil =>
    intro pre dpre dpost _ h2 _ _
    cases dpost with
    | nil => simp [buildStructLoop]
    | cons x xs => simp at h2
  | cons f post ih =>
    intro pre dpre dpost h1 h2 hnd hk
    obtain ⟨n, t⟩ := f
    cases dpost with
    | nil => simp at h2
    | cons d dpost =>
      simp only [List.length_cons, Nat.add_right_cancel_iff] at h2
      have hnpre : n ∉ pre.map Prod.fst := by
        intro hmem
        rw [List.map_append, List.nodup_append] at hnd
        exact hnd.2.2 hmem (by simp)
      have hlook := lookupField_append_cons n t d post dpost pre dpre h1 hnpre
      have hassoc : pre ++ (n, t) :: post = (pre ++ [(n, t)]) ++ post := by simp
      have key : ∀ d1 : Data,
          buildStructLoop rt recurse req post
            (Value.mk (GoType.struct nm (pre ++ (n, t) :: post)) (Data.struct (dpre ++ d1 :: dpost))) =
          .ok (Value.mk (GoType.struct nm (pre ++ (n, t) :: post))
            (Data.struct (dpre ++ d1 :: List.zipWith (simpleStep rt req) post dpost)), none) := by
        intro d1
        have := ih (pre ++ [(n, t)]) (dpre ++ [d1]) dpost (by simp [h1]) h2
          (by rw [← hassoc]; exact hnd)
          (fun p hp => hk p (by simp [List.zip_cons_cons, hp]))
        simpa using this
      rcases hk ((n, t), d) (by simp) with (hkt | ⟨e, conv, ht, hE, hc, hconv⟩) |
        ⟨e, ht, hE, hc, hd⟩
      · simp only at hkt
        simp only [buildStructLoop, Value.fieldByName, hlook, Value.kind, if_neg hkt,
          List.zipWith_cons_cons, simpleStep_of_not_ptr rt req n t d hkt, scalarStep]
        rcases hfv : findValue rt n req with ⟨v, found⟩
        cases found with
        | false => exact key d
        | true =>
          simp only
          rw [SetValue_typ]
          simp only [Value.setField, updateField_append_cons n _ t d post dpost pre dpre h1 hnpre]
          exact key _
      · simp only at ht
        subst ht
        have hp : (GoType.ptr e).kind = Kind.Ptr := rfl
        rcases hcr : conv req with _ | ⟨t1, d1⟩
        · exact absurd hcr hconv
        · simp only [buildStructLoop, Value.fieldByName, hlook, Value.kind, hp, if_true,
            Value.typeOf, bind, Except.bind, GoType.elem, hE, hc, hcr, Value.setField,
            updateField_append_cons n _ (GoType.ptr e) d post dpost pre dpre h1 hnpre,
            List.zipWith_cons_cons, simpleStep, Value.data]
          exact key d1
      · simp only at ht hd
        subst ht hd
        have hp : (GoType.ptr e).kind = Kind.Ptr := rfl
        simp only [buildStructLoop, Value.fieldByName, hlook, Value.kind, hp, if_true,
          Value.typeOf, bind, Except.bind, GoType.elem, hE, hc, Value.elem, hrec,
          Value.setElem, Value.setField,
          updateField_append_cons n _ (GoType.ptr e) Data.nil post dpost pre dpre h1 hnpre,
          List.zipWith_cons_cons, simpleStep]
        exact key Data.nil

/-- The field loop of `BuildStruct`, asked to visit a nil pointer to a struct
whose type has no convertor, leaves the pointer nil. -/
theorem buildStructLoop_nil_pointer (rt : Runtime)
    (recurse : GoType → Value → Request → Except Fault (Value × Option String)) (req : Request)
    (hrec : ∀ T V v e, recurse T V req = .ok (v, e) → e = none)
    (hinv : ∀ T v e, recurse T Value.invalid req = .ok (v, e) → v = Value.invalid)
    (nm : String) (all : List (String × GoType)) (n : String) (e : GoType) (tdecl : GoType)
    (r2 : List (String × GoType))
    (hE : e.kind = Kind.Struct) (hc : rt.MessageFieldConvertor e = none)
    (hn2 : n ∉ r2.map Prod.fst) :
    ∀ (r1 : List (String × GoType)) (ds : List Data) (res : Value × Option String),
      n ∉ r1.map Prod.fst → lookupField n all ds = some (GoType.ptr e, Data.nil) →
      buildStructLoop rt recurse req (r1 ++ (n, tdecl) :: r2)
        (Value.mk (GoType.struct nm all) (Data.struct ds)) = .ok res →
      ∃ ds1, res = (Value.mk (GoType.struct nm all) (Data.struct ds1), none) ∧
        ds1.length = ds.length ∧ lookupField n all ds1 = some (GoType.ptr e, Data.nil) := by
  intro r1
  induction r1 with
  | nil =>
    intro ds res _ hlook h
    have hp : (GoType.ptr e).kind = Kind.Ptr := rfl
    simp only [List.nil_append, buildStructLoop, Value.fieldByName, hlook, Value.kind, hp,
      if_true, Value.typeOf, bind, Except.bind, GoType.elem, hE, hc, Value.elem] at h
    rcases hr : recurse e Value.invalid req with f | ⟨t1, eo⟩
    · rw [hr] at h
      cases h
    · have h1 := hinv e t1 eo hr
      have h2 := hrec e Value.invalid t1 eo hr
      subst h1 h2
      rw [hr] at h
      simp only [Value.setElem, Value.setField] at h
      obtain ⟨ds1, hres, hl1, hf1⟩ := buildStructLoop_frame rt recurse req hrec nm all r2 _ res h
      refine ⟨ds1, hres, hl1.trans (updateField_length n Data.nil all ds), ?_⟩
      rw [hf1 n hn2]
      exact lookupField_updateField_eq n Data.nil all ds _ _ hlook
  | cons f r1 ih =>
    intro ds res hn1 hlook h
    obtain ⟨fn, ft⟩ := f
    simp only [List.map_cons, List.mem_cons, not_or] at hn1
    obtain ⟨V1, hV1, h1⟩ :=
      buildStructLoop_step rt recurse req hrec fn ft (r1 ++ (n, tdecl) :: r2) _ res h
    have hshape : ∃ ds0, V1 = Value.mk (GoType.struct nm all) (Data.struct ds0) ∧
        ds0.length = ds.length ∧ ∀ m, m ≠ fn → lookupField m all ds0 = lookupField m all ds := by
      rcases hV1 with rfl | ⟨x, rfl⟩
      · exact ⟨ds, rfl, rfl, fun _ _ => rfl⟩
      · exact setField_struct nm all ds fn x
    obtain ⟨ds0, rfl, hl0, hf0⟩ := hshape
    obtain ⟨ds1, hres, hl1, hf1⟩ := ih ds0 res hn1.2 (by rw [hf0 n hn1.1]; exact hlook) h1
    exact ⟨ds1, hres, hl1.trans hl0, hf1⟩

/-- C20: for a nil pointer to a struct whose type has no convertor, the
recursive call of `BuildStruct` is made on the zero Value and returns at once
without error; any call of `BuildStruct` on the outer struct that returns
leaves the pointer nil and returns no error; and when the other fields are
settled without descending into a struct, the call returns, with the fields
declared before and after the pointer bound as usual. -/
theorem BuildStruct_nil_pointer (rt : Runtime) (req : Request) (nm : String)
    (pre post : List (String × GoType)) (n : String) (e : GoType)
    (dpre dpost : List Data)
    (hnd : ((pre ++ (n, GoType.ptr e) :: post).map Prod.fst).Nodup)
    (hl1 : dpre.length = pre.length) (hl2 : dpost.length = post.length)
    (hE : e.kind = Kind.Struct) (hc : rt.MessageFieldConvertor e = none) :
    (Value.elem (Value.mk (GoType.ptr e) Data.nil) = .ok Value.invalid ∧
      ∀ fuel : Nat, BuildStruct rt (fuel + 1) e Value.invalid req = .ok (Value.invalid, none)) ∧
    (∀ (fuel : Nat) (v : Value) (err : Option String),
      BuildStruct rt fuel (GoType.struct nm (pre ++ (n, GoType.ptr e) :: post))
        (Value.mk (GoType.struct nm (pre ++ (n, GoType.ptr e) :: post))
          (Data.struct (dpre ++ Data.nil :: dpost))) req = .ok (v, err) →
      err = none ∧ v.fieldByName n = .ok (Value.mk (GoType.ptr e) Data.nil)) ∧
    ((∀ p ∈ List.zip pre dpre, SettledField rt req p.1 p.2) →
      (∀ p ∈ List.zip post dpost, SettledField rt req p.1 p.2) →
      ∀ fuel : Nat,
        BuildStruct rt (fuel + 2) (GoType.struct nm (pre ++ (n, GoType.ptr e) :: post))
          (Value.mk (GoType.struct nm (pre ++ (n, GoType.ptr e) :: post))
            (Data.struct (dpre ++ Data.nil :: dpost))) req =
        .ok (Value.mk (GoType.struct nm (pre ++ (n, GoType.ptr e) :: post))
          (Data.struct (List.zipWith (simpleStep rt req) pre dpre ++ Data.nil ::
            List.zipWith (simpleStep rt req) post dpost)), none)) := by
  have hnd' := hnd
  rw [List.map_append, List.map_cons, List.nodup_append] at hnd'
  obtain ⟨-, hnd2, hdisj⟩ := hnd'
  have hn1 : n ∉ pre.map Prod.fst := fun hm => hdisj hm (by simp)
  have hn2 : n ∉ post.map Prod.fst := (List.nodup_cons.mp hnd2).1
  refine ⟨⟨rfl, fun fuel => BuildStruct_invalid rt fuel e req⟩, ?_, ?_⟩
  · intro fuel v err h
    cases fuel with
    | zero => simp [BuildStruct] at h
    | succ fuel =>
      simp only [BuildStruct, Value.kind, GoType.kind, GoType.fields] at h
      rw [if_neg (by decide)] at h
      obtain ⟨ds1, hres, -, hlook⟩ :=
        buildStructLoop_nil_pointer rt (BuildStruct rt fuel) req
          (fun T V v e => BuildStruct_err_none rt req fuel T V v e)
          (fun T v e => BuildStruct_invalid_inv rt req fuel T v e) nm _ n e
          (GoType.ptr e) post hE hc hn2 pre _ (v, err) hn1
          (lookupField_append_cons n (GoType.ptr e) Data.nil post dpost pre dpre hl1 hn1) h
      simp only [Prod.mk.injEq] at hres
      obtain ⟨rfl, rfl⟩ := hres
      exact ⟨rfl, by simp only [Value.fieldByName, hlook]⟩
  · intro hs1 hs2 fuel
    have hall : ∀ p ∈ List.zip (pre ++ (n, GoType.ptr e) :: post) (dpre ++ Data.nil :: dpost),
        SettledField rt req p.1 p.2 := by
      intro p hp
      rw [List.zip_append hl1.symm, List.zip_cons_cons] at hp
      rcases List.mem_append.mp hp with hp | hp
      · exact hs1 p hp
      · rcases List.mem_cons.mp hp with rfl | hp
        · exact Or.inr ⟨e, rfl, hE, hc, rfl⟩
        · exact hs2 p hp
    have := buildStructLoop_settled rt (BuildStruct rt (fuel + 1)) req nm
      (fun T => BuildStruct_invalid rt fuel T req)
      (pre ++ (n, GoType.ptr e) :: post) [] [] (dpre ++ Data.nil :: dpost) rfl
      (by simp [hl1, hl2]) (by simpa using hnd) hall
    simp only [List.nil_append] at this
    rw [BuildStruct_struct, this, List.zipWith_append _ _ _ _ _ hl1.symm]
    simp [simpleStep, hc]

/-- Witness for C20: the request carries `age=41` for the field of the nested
struct and `name=bob`; the pointer stays nil and `Name`, declared after it, is
bound. -/
theorem BuildStruct_nil_pointer_witness :
    BuildStruct demoRuntime 2 demoNilType demoNilValue demoRequest =
      .ok (Value.mk demoNilType (Data.struct [Data.nil, Data.str "bob"]), none) :=
  ((BuildStruct_nil_pointer demoRuntime demoRequest "NilRequest" []
    [("Name", GoType.basic Kind.String)] "Values" demoCommonValues [] [Data.str ""]
    (by decide) rfl rfl rfl rfl).2.2
      (by intro p hp; simp at hp)
      (by
        intro p hp
        simp only [List.zip_cons_cons, List.zip_nil_right, List.mem_singleton] at hp
        subst hp
        exact Or.inl (Or.inl (by decide))) 0).trans rfl

end NilPointers

/-! ## The After pass pinned to the hooks -/

section Pinned

variable {W Req R : Type}

/-- The loop of After calls over a list of numbered interceptors leaves the
world and the request of the left fold of the After hooks. -/
theorem threadCalls_after_fold (event : Nat → Req → Option String → Event Req R) :
    ∀ (p : List (Nat × Interceptor W Req)) (w : W) (req : Req),
      (threadCalls false Interceptor.After event p w req).2 =
        p.foldl (fun wr ji => ((ji.2.After wr.1 wr.2).1, (ji.2.After wr.1 wr.2).2.1))
          (w, req) := by
  intro p
  induction p with
  | nil => intro w req; rfl
  | cons ji rest ih =>
    intro w req
    obtain ⟨j, i⟩ := ji
    rcases hA : i.After w req with ⟨w1, req1, err⟩
    simp only [threadCalls, hA, Bool.false_and, List.foldl_cons]
    exact ih w1 req1

/-- The After pass leaves the world and the request of `afterFold`. -/
theorem afterThread_fold (l : List (Interceptor W Req)) (w : W) (req : Req) :
    (afterThread (R := R) l w req).2 = afterFold l w req := by
  unfold afterThread afterFold
  rw [threadCalls_after_fold, List.foldl_reverse]
  conv_rhs => rw [← List.enum_map_snd l]
  rw [List.foldr_map]

/-- The After pass over a list with one more interceptor at the end calls
the hook of that interceptor first. -/
theorem afterThread_snoc (l : List (Interceptor W Req)) (x : Interceptor W Req) (w : W)
    (req : Req) :
    afterThread (R := R) (l ++ [x]) w req =
      (Event.after l.length req (x.After w req).2.2 ::
          (afterThread (R := R) l (x.After w req).1 (x.After w req).2.1).1,
        (afterThread (R := R) l (x.After w req).1 (x.After w req).2.1).2) := by
  rcases hA : x.After w req with ⟨w1, req1, err⟩
  simp only [afterThread, List.enum_append, List.enum_singleton, List.reverse_append,
    List.enumFrom_singleton, List.reverse_singleton, List.singleton_append, threadCalls, hA,
    Bool.false_and]
  rfl

theorem afterFold_snoc (l : List (Interceptor W Req)) (x : Interceptor W Req) (w : W)
    (req : Req) :
    afterFold (l ++ [x]) w req = afterFold l (x.After w req).1 (x.After w req).2.1 := by
  simp only [afterFold, List.foldr_append, List.foldr_cons, List.foldr_nil]

theorem afterThread_length (l : List (Interceptor W Req)) :
    ∀ (w : W) (req : Req), (afterThread (R := R) l w req).1.length = l.length := by
  induction l using List.reverseRecOn with
  | nil => intro w req; rfl
  | append_singleton l x ih =>
    intro w req
    rw [afterThread_snoc]
    simp only [List.length_cons, List.length_append, List.length_singleton, List.length_nil, ih]

/-- The event of the After pass for position `i` records the request the hook
at that position received and the error it returned, on the world and request
left by the hooks at the positions above `i`. -/
theorem afterThread_event (l : List (Interceptor W Req)) :
    ∀ (w : W) (req : Req) (i : Nat) (h : i < l.length),
      (afterThread (R := R) l w req).1[l.length - 1 - i]? =
        some (Event.after i (afterFold (l.drop (i + 1)) w req).2
          ((l.get ⟨i, h⟩).After (afterFold (l.drop (i + 1)) w req).1
            (afterFold (l.drop (i + 1)) w req).2).2.2) := by
  induction l using List.reverseRecOn with
  | nil => intro w req i h; simp at h
  | append_singleton l x ih =>
    intro w req i h
    rw [afterThread_snoc]
    simp only [List.length_append, List.length_singleton] at h ⊢
    by_cases hi : i = l.length
    · subst hi
      simp [afterFold]
    · have hlt : i < l.length := by omega
      have e1 : l.length + 1 - 1 - i = (l.length - 1 - i) + 1 := by omega
      rw [e1, List.getElem?_cons_succ, ih _ _ i hlt]
      have e2 : List.drop (i + 1) (l ++ [x]) = List.drop (i + 1) l ++ [x] := by
        rw [List.drop_append_of_le_length (by omega)]
      rw [e2, afterFold_snoc]
      have e3 : (l ++ [x]).get ⟨i, by simp; omega⟩ = l.get ⟨i, hlt⟩ := by
        simp [List.getElem_append_left, hlt]
      simp only [List.get_eq_getElem] at e3 ⊢
      rw [e3]

/-- The whole of `doAfter` through the After pass. -/
theorem doAfter_thread (l : List (Interceptor W Req)) (s : PState W Req R) (req : Req) :
    doAfter l s req =
      (⟨(afterFold l s.resp req).1, s.trace ++ (afterThread (R := R) l s.resp req).1⟩, none) := by
  have := doAfterLoop_thread (R := R) l l.length s req (Nat.le_refl _)
  simp only [List.take_length] at this
  simp only [doAfter, this, ← afterThread_fold (R := R)]

/-- The handler through the result of `doBefore`: dispatch happens when
`doBefore` returned no error, and `doAfter` runs over the list `doBefore` left
behind, on the request it returned. -/
theorem handler_of_doBefore (c : Components W Req R) (cfg : Config) (methodName : String)
    (s : PState W Req R) (req : Req) (sB : PState W Req R) (lB : List (Interceptor W Req))
    (rB : Req) (err : Option String)
    (hB : doBefore (getInterceptors c (c.ParseRequestForm req)) s (c.ParseRequestForm req) =
      (sB, lB, rB, err)) :
    handler c cfg methodName s req =
      (doAfter lB (match err with
        | none => doRequest c cfg methodName sB rB
        | some _ => sB) rB).1 := by
  unfold handler
  simp only [hB]
  cases err <;> rfl

/-- C1: in a run of `handler`, the After hooks are called exactly at the
positions below the first failing Before hook (at every position when no Before
hook fails), once each, in reverse registration order; the sequence of After
calls does not depend on the dispatch components.  For `[A, B]` with both
Before hooks succeeding, and for `[A, B, C]` with only the Before hook of `C`
failing, the After calls are at positions `[1, 0]`.  The world the handler
leaves is the one these After hooks produced: the hooks of the interceptors
below the first failure run on the world and request left by dispatch (no
failure) or by `doBefore` (a failure), each hook receiving what the hook called
before it returned, and the trace ends with their events.  Both scenarios are
spelled out through `B.After` and `A.After`. -/
theorem handler_after_unwind (c : Components W Req R) (cfg : Config) (methodName : String)
    (w : W) (req : Req) :
    firstFailure (getInterceptors c (c.ParseRequestForm req)) w (c.ParseRequestForm req)
      ≤ (getInterceptors c (c.ParseRequestForm req)).length ∧
    beforeCalls (handler c cfg methodName ⟨w, []⟩ req).trace =
      expectedBeforeCalls
        (firstFailure (getInterceptors c (c.ParseRequestForm req)) w (c.ParseRequestForm req))
        (getInterceptors c (c.ParseRequestForm req)).length ∧
    afterCalls (handler c cfg methodName ⟨w, []⟩ req).trace =
      (List.range
        (firstFailure (getInterceptors c (c.ParseRequestForm req)) w
          (c.ParseRequestForm req))).reverse ∧
    (∀ (c' : Components W Req R) (cfg' : Config),
      c'.ParseRequestForm = c.ParseRequestForm → c'.Interceptors = c.Interceptors →
      c'.CommonInterceptors = c.CommonInterceptors →
      afterCalls (handler c' cfg' methodName ⟨w, []⟩ req).trace =
        afterCalls (handler c cfg methodName ⟨w, []⟩ req).trace) ∧
    (∀ A B : Interceptor W Req, getInterceptors c (c.ParseRequestForm req) = [A, B] →
      (∀ w r, (A.Before w r).2.2 = none) → (∀ w r, (B.Before w r).2.2 = none) →
      afterCalls (handler c cfg methodName ⟨w, []⟩ req).trace = [1, 0]) ∧
    (∀ A B C : Interceptor W Req, getInterceptors c (c.ParseRequestForm req) = [A, B, C] →
      (∀ w r, (A.Before w r).2.2 = none) → (∀ w r, (B.Before w r).2.2 = none) →
      (∀ w r, (C.Before w r).2.2 ≠ none) →
      afterCalls (handler c cfg methodName ⟨w, []⟩ req).trace = [1, 0]) ∧
    (∀ (sB : PState W Req R) (lB : List (Interceptor W Req)) (rB : Req) (err : Option String),
      doBefore (getInterceptors c (c.ParseRequestForm req)) ⟨w, []⟩ (c.ParseRequestForm req) =
        (sB, lB, rB, err) →
      (firstFailure (getInterceptors c (c.ParseRequestForm req)) w (c.ParseRequestForm req)
          = (getInterceptors c (c.ParseRequestForm req)).length →
        handler c cfg methodName ⟨w, []⟩ req =
          ⟨(afterFold (getInterceptors c (c.ParseRequestForm req))
              (doRequest c cfg methodName sB rB).resp rB).1,
            (doRequest c cfg methodName sB rB).trace ++
              (afterThread (R := R) (getInterceptors c (c.ParseRequestForm req))
                (doRequest c cfg methodName sB rB).resp rB).1⟩) ∧
      (firstFailure (getInterceptors c (c.ParseRequestForm req)) w (c.ParseRequestForm req)
          < (getInterceptors c (c.ParseRequestForm req)).length →
        handler c cfg methodName ⟨w, []⟩ req =
          ⟨(afterFold
              ((getInterceptors c (c.ParseRequestForm req)).take
                (firstFailure (getInterceptors c (c.ParseRequestForm req)) w
                  (c.ParseRequestForm req)))
              sB.resp rB).1,
            sB.trace ++
              (afterThread (R := R)
                ((getInterceptors c (c.ParseRequestForm req)).take
                  (firstFailure (getInterceptors c (c.ParseRequestForm req)) w
                    (c.ParseRequestForm req)))
                sB.resp rB).1⟩) ∧
      (∀ (i : Nat) (ic : Interceptor W Req),
        i < firstFailure (getInterceptors c (c.ParseRequestForm req)) w
          (c.ParseRequestForm req) →
        (getInterceptors c (c.ParseRequestForm req))[i]? = some ic →
        ∀ sX : PState W Req R,
          (match err with
            | none => doRequest c cfg methodName sB rB
            | some _ => sB) = sX →
          (handler c cfg methodName ⟨w, []⟩ req).trace[
              (handler c cfg methodName ⟨w, []⟩ req).trace.length - 1 - i]? =
            some (Event.after i
              (afterFold
                (((getInterceptors c (c.ParseRequestForm req)).take
                  (firstFailure (getInterceptors c (c.ParseRequestForm req)) w
                    (c.ParseRequestForm req))).drop (i + 1)) sX.resp rB).2
              (ic.After
                (afterFold
                  (((getInterceptors c (c.ParseRequestForm req)).take
                    (firstFailure (getInterceptors c (c.ParseRequestForm req)) w
                      (c.ParseRequestForm req))).drop (i + 1)) sX.resp rB).1
                (afterFold
                  (((getInterceptors c (c.ParseRequestForm req)).take
                    (firstFailure (getInterceptors c (c.ParseRequestForm req)) w
                      (c.ParseRequestForm req))).drop (i + 1)) sX.resp rB).2).2.2))) ∧
    (∀ A B : Interceptor W Req, getInterceptors c (c.ParseRequestForm req) = [A, B] →
      ∀ (wA : W) (rA : Req) (wB : W) (rB : Req),
        A.Before w (c.ParseRequestForm req) = (wA, rA, none) →
        B.Before wA rA = (wB, rB, none) →
        ∀ sD : PState W Req R,
          doRequest c cfg methodName
            ⟨wB, [Event.before 0 (c.ParseRequestForm req) none, Event.before 1 rA none]⟩ rB
            = sD →
          handler c cfg methodName ⟨w, []⟩ req =
            ⟨(A.After (B.After sD.resp rB).1 (B.After sD.resp rB).2.1).1,
              sD.trace ++
                [Event.after 1 rB (B.After sD.resp rB).2.2,
                  Event.after 0 (B.After sD.resp rB).2.1
                    (A.After (B.After sD.resp rB).1 (B.After sD.resp rB).2.1).2.2]⟩) ∧
    (∀ A B C : Interceptor W Req, getInterceptors c (c.ParseRequestForm req) = [A, B, C] →
      ∀ (wA : W) (rA : Req) (wB : W) (rB : Req) (wC : W) (rC : Req) (e : String),
        A.Before w (c.ParseRequestForm req) = (wA, rA, none) →
        B.Before wA rA = (wB, rB, none) →
        C.Before wB rB = (wC, rC, some e) →
        handler c cfg methodName ⟨w, []⟩ req =
          ⟨(A.After (B.After wC rC).1 (B.After wC rC).2.1).1,
            [Event.before 0 (c.ParseRequestForm req) none, Event.before 1 rA none,
              Event.before 2 rB (some e),
              Event.after 1 rC (B.After wC rC).2.2,
              Event.after 0 (B.After wC rC).2.1
                (A.After (B.After wC rC).1 (B.After wC rC).2.1).2.2]⟩) := by
  have key : ∀ (c : Components W Req R) (cfg : Config),
      beforeCalls (handler c cfg methodName ⟨w, []⟩ req).trace =
        expectedBeforeCalls
          (firstFailure (getInterceptors c (c.ParseRequestForm req)) w (c.ParseRequestForm req))
          (getInterceptors c (c.ParseRequestForm req)).length ∧
      afterCalls (handler c cfg methodName ⟨w, []⟩ req).trace =
        (List.range
          (firstFailure (getInterceptors c (c.ParseRequestForm req)) w
            (c.ParseRequestForm req))).reverse := by
    intro c cfg
    obtain ⟨bs, ds, as, h, b1, b2, -, d1, d2, -, -, -, a1, -, a3⟩ :=
      handler_spec c cfg methodName ⟨w, []⟩ req
    simp only [List.nil_append] at h
    rw [h]
    simp only [beforeCalls_append, afterCalls_append, b1, b2, d1, d2, a1, a3, List.append_nil,
      List.nil_append, and_self]
  obtain ⟨kb, ka⟩ := key c cfg
  refine ⟨firstFailure_le _ _ _, kb, ka, ?_, ?_, ?_, ?_, ?_, ?_⟩
  · intro c' cfg' hp hi hc
    rw [(key c' cfg').2, ka, getInterceptors_congr c c' hi hc, hp]
  · intro A B hL hA hB
    rw [ka, hL, firstFailure_all_ok [A, B] _ _ (by
      intro i hi
      simp only [List.mem_cons, List.mem_singleton, List.not_mem_nil, or_false] at hi
      rcases hi with rfl | rfl
      · exact hA
      · exact hB)]
    rfl
  · intro A B C hL hA hB hC
    rw [ka, hL]
    have := firstFailure_append_fail [A, B] C [] w (c.ParseRequestForm req) (by
      intro i hi
      simp only [List.mem_cons, List.mem_singleton, List.not_mem_nil, or_false] at hi
      rcases hi with rfl | rfl
      · exact hA
      · exact hB) hC
    simp only [List.cons_append, List.nil_append, List.length_cons, List.length_nil] at this
    rw [this]
    rfl
  · intro sB lB rB err hB
    have hH := handler_of_doBefore c cfg methodName ⟨w, []⟩ req sB lB rB err hB
    obtain ⟨evs, -, -, -, -, h5, h6, -⟩ :=
      doBefore_spec (R := R) (getInterceptors c (c.ParseRequestForm req)) ⟨w, []⟩
        (c.ParseRequestForm req)
    rw [hB] at h5 h6
    simp only at h5 h6
    subst h5
    refine ⟨?_, ?_, ?_⟩
    · intro hk
      have hnone := h6.mpr hk
      subst hnone
      rw [hH, doAfter_thread, hk, List.take_length]
    · intro hk
      cases err with
      | none => exact absurd (h6.mp rfl) (by omega)
      | some e => rw [hH, doAfter_thread]
    · intro i ic hi hic sX hX
      rw [hX] at hH
      rw [hH, doAfter_thread]
      have hle := firstFailure_le (getInterceptors c (c.ParseRequestForm req)) w
        (c.ParseRequestForm req)
      have hlen : (List.take
          (firstFailure (getInterceptors c (c.ParseRequestForm req)) w (c.ParseRequestForm req))
          (getInterceptors c (c.ParseRequestForm req))).length =
          firstFailure (getInterceptors c (c.ParseRequestForm req)) w
            (c.ParseRequestForm req) := by
        rw [List.length_take]; omega
      have hi2 : i < (List.take
          (firstFailure (getInterceptors c (c.ParseRequestForm req)) w (c.ParseRequestForm req))
          (getInterceptors c (c.ParseRequestForm req))).length := by omega
      have hev := afterThread_event (R := R) _ sX.resp rB i hi2
      have hal := afterThread_length (R := R) (List.take
          (firstFailure (getInterceptors c (c.ParseRequestForm req)) w (c.ParseRequestForm req))
          (getInterceptors c (c.ParseRequestForm req))) sX.resp rB
      have hget : (List.take
          (firstFailure (getInterceptors c (c.ParseRequestForm req)) w (c.ParseRequestForm req))
          (getInterceptors c (c.ParseRequestForm req))).get ⟨i, hi2⟩ = ic := by
        have h1 : (List.take
          (firstFailure (getInterceptors c (c.ParseRequestForm req)) w (c.ParseRequestForm req))
          (getInterceptors c (c.ParseRequestForm req)))[i]? = some ic := by
          rw [List.getElem?_take_of_lt hi, hic]
        rw [List.getElem?_eq_getElem hi2] at h1
        simpa using h1
      rw [hget] at hev
      simp only [List.length_append]
      rw [List.getElem?_append_right (by omega), ← hev]
      congr 1
      omega
  · intro A B hL wA rA wB rB hA hB sD hD
    subst hD
    unfold handler
    simp only [hL, doBefore, doBeforeLoop, hA, hB, PState.emit, List.nil_append,
      List.singleton_append]
    simp [doAfter, doAfterLoop, PState.emit]
  · intro A B C hL wA rA wB rB wC rC e hA hB hC
    unfold handler
    simp only [hL, doBefore, doBeforeLoop, hA, hB, hC, PState.emit, List.nil_append,
      List.singleton_append, List.cons_append]
    rfl

/-- Witness for C1: with `[A, B, C]` where only the Before hook of `C` fails and
a failing switcher, the After hooks of `B` and `A` run in that order on the
world the Before hooks left, and nothing is dispatched. -/
theorem handler_after_unwind_witness :
    handler (demoComponents [passHook "A", passHook "B", denyHook "C"] true)
        demoConfig "SayHello" ⟨[], []⟩ 7 =
      ⟨["A.Before", "B.Before", "B.After", "A.After"],
        [Event.before 0 7 none, Event.before 1 7 none, Event.before 2 7 (some "C denied"),
          Event.after 1 7 none, Event.after 0 7 none]⟩ :=
  ((handler_after_unwind (demoComponents [passHook "A", passHook "B", denyHook "C"] true)
    demoConfig "SayHello" [] 7).2.2.2.2.2.2.2.2 (passHook "A") (passHook "B") (denyHook "C") rfl
    ["A.Before"] 7 ["A.Before", "B.Before"] 7 ["A.Before", "B.Before"] 7 "C denied"
    rfl rfl rfl).trans rfl

/-- C16: `doAfter` returns no error and calls the After hook of every
interceptor of the list exactly once, from the last position down to 0, and
does nothing else, whatever errors the After hooks return.  The world it leaves
is the one the After hooks produced, each hook receiving the world and the
request returned by the hook called before it; the event for position `i`
records the request the hook of `l[i]` received and the error it returned.  For
`[A, B]` the result is spelled out through `B.After` and `A.After`. -/
theorem doAfter_runs_all (l : List (Interceptor W Req)) (w : W) (req : Req) :
    (doAfter (R := R) l ⟨w, []⟩ req).2 = none ∧
    afterCalls (doAfter (R := R) l ⟨w, []⟩ req).1.trace = (List.range l.length).reverse ∧
    (doAfter (R := R) l ⟨w, []⟩ req).1.trace.length = l.length ∧
    (doAfter (R := R) l ⟨w, []⟩ req).1.resp = (afterFold l w req).1 ∧
    (∀ (i : Nat) (h : i < l.length),
      (doAfter (R := R) l ⟨w, []⟩ req).1.trace[l.length - 1 - i]? =
        some (Event.after i (afterFold (l.drop (i + 1)) w req).2
          ((l.get ⟨i, h⟩).After (afterFold (l.drop (i + 1)) w req).1
            (afterFold (l.drop (i + 1)) w req).2).2.2)) ∧
    (∀ A B : Interceptor W Req, l = [A, B] →
      doAfter (R := R) l ⟨w, []⟩ req =
        (⟨(A.After (B.After w req).1 (B.After w req).2.1).1,
          [Event.after 1 req (B.After w req).2.2,
            Event.after 0 (B.After w req).2.1
              (A.After (B.After w req).1 (B.After w req).2.1).2.2]⟩, none)) := by
  obtain ⟨evs, h1, h2, h3, h4⟩ :=
    doAfterLoop_spec (R := R) l l.length ⟨w, []⟩ req (Nat.le_refl _)
  simp only [List.nil_append] at h1
  have hT := doAfter_thread (R := R) l ⟨w, []⟩ req
  simp only [List.nil_append] at hT
  refine ⟨rfl, ?_, ?_, ?_, ?_, ?_⟩
  · simp only [doAfter]
    rw [h1, h2]
  · simp only [doAfter]
    rw [h1, ← afterCalls_length_of_only_after evs h3 h4, h2]
    simp
  · rw [hT]
  · intro i h
    rw [hT]
    exact afterThread_event (R := R) l w req i h
  · intro A B hl
    subst hl
    rfl

/-- Witness for C16: the After hook at position 1 of three fails; the hooks at
positions 2, 1 and 0 are all called, the world carries the marks of all three
hooks in the order of the calls, and no error comes back. -/
theorem doAfter_runs_all_witness :
    (doAfter (R := String) [passHook "A", grumbleHook "B", passHook "C"] ⟨[], []⟩ 7).2 = none ∧
    afterCalls (doAfter (R := String) [passHook "A", grumbleHook "B", passHook "C"]
      ⟨[], []⟩ 7).1.trace = [2, 1, 0] ∧
    (doAfter (R := String) [passHook "A", grumbleHook "B", passHook "C"] ⟨[], []⟩ 7).1.trace =
      [Event.after 2 7 none, Event.after 1 7 (some "B grumbles"), Event.after 0 7 none] ∧
    (doAfter (R := String) [passHook "A", grumbleHook "B", passHook "C"] ⟨[], []⟩ 7).1.resp =
      ["C.After", "B.After", "A.After"] ∧
    (doAfter (R := String) [passHook "A", grumbleHook "B", passHook "C"]
      ⟨[], []⟩ 7).1.trace[3 - 1 - 1]? = some (Event.after 1 7 (some "B grumbles")) :=
  ⟨(doAfter_runs_all (R := String) [passHook "A", grumbleHook "B", passHook "C"] [] 7).1,
   (doAfter_runs_all (R := String) [passHook "A", grumbleHook "B", passHook "C"] [] 7).2.1.trans
     rfl, rfl,
   (doAfter_runs_all (R := String) [passHook "A", grumbleHook "B", passHook "C"]
     [] 7).2.2.2.1.trans rfl,
   ((doAfter_runs_all (R := String) [passHook "A", grumbleHook "B", passHook "C"]
     [] 7).2.2.2.2.1 1 (by decide)).trans rfl⟩

end Pinned

end Turbo
